import Mathlib

/-!
# Verification of `Programming_C_Summatives`

A shallow embedding of the four programs and proofs about them: `Multi_Threaded_Web_Scraper.c`
(`WebScraper`), `Dynamic_Math_Data_Processing_Engine.c` (`MathEngine`),
`Student_Management_System_Using_Structures.c` (`StudentDB`) and
`Smart_Traffic_Control_Monitoring_System.cpp` (`Traffic`); `CModel` holds the loops and the
float comparisons that several of them use. The definitions of all the programs come first,
the theorems follow.

# `Multi_Threaded_Web_Scraper.c`

Conventions of the embedding:

* C strings (`url`, `outputFile`) are Lean `String`s; response bodies are lists of bytes.
* `int` fields that the program only ever moves inside a small range (`threadID`, `success`)
  are `Int`; `urlCount`, which only counts up from 0 to `MAX_URLS`, is a `Nat`.
* A `size_t` that is the length of an object held in memory (a buffer, a chunk) is the `Nat`
  length of that object; the accumulator `totalData`, which adds up stored values, wraps
  modulo `SIZE_MODULUS`.
* Everything the program obtains from outside (libcurl, the heap, the file system, the clock,
  the thread scheduler, standard input) is an explicit argument of the function that uses it.
* Console output is not modelled, except for the numbers of the scraping summary.
-/

namespace WebScraper

/-! ## Constants and records -/

/-- `#define MAX_URLS 20`. -/
def MAX_URLS : Nat := 20

/-- `#define OUTPUT_DIR "scraped_data"`. -/
def OUTPUT_DIR : String := "scraped_data"

/-- One past the largest `size_t` (64-bit target). -/
def SIZE_MODULUS : Nat := 2 ^ 64

/-- A byte of a response body. -/
abbrev Byte := Fin 256

/-- `CURLE_OK` of libcurl. -/
def CURLE_OK : Nat := 0

/-- `CURLE_WRITE_ERROR` of libcurl: the write callback did not accept all the bytes. -/
def CURLE_WRITE_ERROR : Nat := 23

/-- The record `ThreadData`: one row of the results table. -/
structure ThreadData where
  threadID : Int
  url : String
  outputFile : String
  success : Int
  dataSize : Nat
  startTime : Int
  endTime : Int
deriving DecidableEq, Repr

/-- The record `MemoryStruct`: the response buffer. `data` is the whole allocated block,
of which the first `size` bytes are the body received so far. -/
structure MemoryStruct where
  data : List Byte
  size : Nat
deriving DecidableEq, Repr

/-- The globals `threadDataArray` and `urlCount`. -/
structure State where
  threadDataArray : List ThreadData
  urlCount : Nat
deriving DecidableEq, Repr

/-! ## The response buffer: `writeCallback` -/

/-- The block `realloc(block, n)` returns when it succeeds: the old bytes up to `n`,
then bytes of no particular value (taken as 0). -/
def realloc (block : List Byte) (n : Nat) : List Byte :=
  (block ++ List.replicate (n - block.length) 0).take n

/-- The block after `memcpy(&dst[off], src, n)`. -/
def memcpy (dst : List Byte) (off : Nat) (src : List Byte) (n : Nat) : List Byte :=
  dst.take off ++ src.take n ++ dst.drop (off + n)

/-- The function `writeCallback(contents, size, nmemb, userp)`, with `mem` the record `userp`
points to. `reallocOk` tells whether `realloc` returns a block. Returns the value returned
to libcurl and the record afterwards. -/
def writeCallback (reallocOk : Bool) (contents : List Byte) (size nmemb : Nat)
    (mem : MemoryStruct) : Nat × MemoryStruct :=
  let realsize := size * nmemb
  if reallocOk = false then
    (0, mem)
  else
    let ptr := realloc mem.data (mem.size + realsize + 1)
    let copied := memcpy ptr mem.size contents realsize
    let size1 := mem.size + realsize
    (realsize, { data := copied.set size1 0, size := size1 })

/-! ## libcurl, as far as `scrapeURL` sees it -/

/-- One delivery of body bytes by the transport layer: the arguments it passes to the write
callback, and whether the `realloc` made during that call succeeds. -/
structure Chunk where
  contents : List Byte
  size : Nat
  nmemb : Nat
  reallocOk : Bool
deriving DecidableEq, Repr

/-- What the network does for one request: the deliveries it would make, in arrival order,
the code the transfer ends with when no callback aborts it, and the HTTP status of the
response. -/
structure Transfer where
  chunks : List Chunk
  result : Nat
  httpStatus : Nat
deriving DecidableEq, Repr

/-- The deliveries of a transfer, fed to `writeCallback` one after the other. libcurl stops
at the first call whose return value differs from `size * nmemb`; the flag says whether that
happened. -/
def deliver : List Chunk → MemoryStruct → Bool × MemoryStruct
  | [], mem => (false, mem)
  | c :: cs, mem =>
    let r := writeCallback c.reallocOk c.contents c.size c.nmemb mem
    if r.1 ≠ c.size * c.nmemb then (true, r.2) else deliver cs r.2

/-- The call `curl_easy_perform(curl)` with `writeCallback` installed on `mem`: the code
returned and the buffer afterwards. -/
def curl_easy_perform (t : Transfer) (mem : MemoryStruct) : Nat × MemoryStruct :=
  let r := deliver t.chunks mem
  if r.1 then (CURLE_WRITE_ERROR, r.2) else (t.result, r.2)

/-! ## The worker: `scrapeURL` -/

/-- Everything one run of `scrapeURL` obtains from outside. -/
structure WorkerEnv where
  /-- the byte in the block `malloc(1)` returns, `none` when it returns `NULL` -/
  mallocByte : Option Byte
  /-- `curl_easy_init()` returns a handle -/
  curlInit : Bool
  /-- what the network does -/
  transfer : Transfer
  /-- `fopen(outputFile, "w")` returns a stream -/
  fopenOk : Bool
  /-- how many bytes `fwrite` manages to store -/
  fwriteStored : Nat
  /-- the value of `time(NULL)` when the worker ends -/
  endTime : Int
deriving DecidableEq, Repr

/-- A file created by a worker, with the bytes stored in it. -/
structure FileWrite where
  path : String
  bytes : List Byte
deriving DecidableEq, Repr

/-- The buffer after `chunk.data = malloc(1); chunk.size = 0;`. -/
def initialChunk (env : WorkerEnv) : MemoryStruct :=
  { data := env.mallocByte.toList, size := 0 }

/-- The function `scrapeURL(arg)`, with `data` the row `arg` points to: the row afterwards
and the files the worker created. -/
def scrapeURL (env : WorkerEnv) (data : ThreadData) : ThreadData × List FileWrite :=
  let r : ThreadData × List FileWrite :=
    if env.curlInit then
      let p := curl_easy_perform env.transfer (initialChunk env)
      let res := p.1
      let chunk := p.2
      if res ≠ CURLE_OK then
        ({ data with success := 0 }, [])
      else if env.fopenOk = false then
        ({ data with success := 0 }, [])
      else
        ({ data with success := 1, dataSize := chunk.size },
          [{ path := data.outputFile,
             bytes := (chunk.data.take chunk.size).take env.fwriteStored }])
    else
      ({ data with success := 0 }, [])
  ({ r.1 with endTime := env.endTime }, r.2)

/-! ## Building the table: `initializeSystem`, `addURLs`, `loadURLsFromFile` -/

/-- The function `initializeSystem()`. `heap` is the block `malloc` returns (`none` when it
fails and the program exits), with whatever its rows hold. -/
def initializeSystem (heap : Option (Nat → ThreadData)) : Option State :=
  match heap with
  | none => none
  | some rows =>
    some { threadDataArray := (List.range MAX_URLS).map (fun i =>
             { rows i with threadID := -1, url := "", outputFile := "", success := 0,
                           dataSize := 0 }),
           urlCount := 0 }

/-- The text `sprintf(outputFile, "%s/page_%d.html", OUTPUT_DIR, n)` produces. For
`n ≤ MAX_URLS` it is far shorter than the `MAX_FILENAME = 100` bytes of `outputFile`. -/
def pagePath (n : Nat) : String :=
  OUTPUT_DIR ++ "/page_" ++ toString n ++ ".html"

/-- The line after `url[strcspn(url, "\n")] = 0`. -/
def stripNewline (line : String) : String :=
  String.mk (line.toList.takeWhile (fun c => c ≠ '\n'))

/-- The check `strncmp(url, "http://", 7) == 0 || strncmp(url, "https://", 8) == 0`. -/
def hasHttpScheme (url : String) : Bool :=
  "http://".toList.isPrefixOf url.toList || "https://".toList.isPrefixOf url.toList

/-- One round of the prompt loop of `addURLs`, as standard input answers it: the line
`fgets` reads, and the character `getchar` returns if the confirmation is asked. -/
structure UrlPrompt where
  line : String
  confirm : Char
deriving DecidableEq, Repr

/-- The loop `while (urlCount < MAX_URLS)` of `addURLs`. The end of the list is the end of
standard input (`fgets` returns `NULL`). -/
def addURLsLoop : List UrlPrompt → State → State
  | [], s => s
  | p :: rest, s =>
    if s.urlCount < MAX_URLS then
      let url := stripNewline p.line
      if url.length = 0 then
        s
      else if hasHttpScheme url = false ∧ (p.confirm ≠ 'y' ∧ p.confirm ≠ 'Y') then
        addURLsLoop rest s
      else
        addURLsLoop rest
          { threadDataArray := s.threadDataArray.modify
              (fun d => { d with url := url, threadID := (s.urlCount : Int),
                                 outputFile := pagePath (s.urlCount + 1) })
              s.urlCount,
            urlCount := s.urlCount + 1 }
    else
      s

/-- The function `addURLs()`. -/
def addURLs (stdin : List UrlPrompt) (s : State) : State :=
  if s.urlCount ≥ MAX_URLS then s else addURLsLoop stdin s

/-- The loop `while (fgets(...) != NULL && urlCount < MAX_URLS)` of `loadURLsFromFile`,
over the lines `fgets` reads from the file. -/
def loadURLsLoop : List String → State → State
  | [], s => s
  | line :: rest, s =>
    if s.urlCount < MAX_URLS then
      let line1 := stripNewline line
      if line1.length > 0 then
        loadURLsLoop rest
          { threadDataArray := s.threadDataArray.modify
              (fun d => { d with url := line1, threadID := (s.urlCount : Int),
                                 outputFile := pagePath (s.urlCount + 1),
                                 success := 0, dataSize := 0 })
              s.urlCount,
            urlCount := s.urlCount + 1 }
      else
        loadURLsLoop rest s
    else
      s

/-- The URLs of a file, in the words of its format: its lines without their newline, the
empty ones left out. -/
def fileURLs (lines : List String) : List String :=
  (lines.map stripNewline).filter (fun l => decide (l.length > 0))

/-- The function `loadURLsFromFile()`. `file` is `none` when `fopen` fails, otherwise the
lines of the file. -/
def loadURLsFromFile (file : Option (List String)) (s : State) : State :=
  match file with
  | none => s
  | some lines => loadURLsLoop lines { s with urlCount := 0 }

/-! ## The coordinator: `startScraping` -/

/-- Everything one run of `startScraping` obtains from outside. -/
structure ScrapeEnv where
  /-- `malloc` of the `threads` array returns a block -/
  threadsAlloc : Bool
  /-- `time(NULL)` before the first thread is created -/
  overallStart : Int
  /-- `time(NULL)` after the last join -/
  overallEnd : Int
  /-- `time(NULL)` in iteration `i` of the creation loop -/
  startTime : Nat → Int
  /-- `pthread_create` for row `i` returns 0 -/
  createOk : Nat → Bool
  /-- what the worker of row `i` meets -/
  worker : Nat → WorkerEnv

/-- The two things that happen to row `i` during a run: iteration `i` of the creation loop
(main thread), and the body of the thread created for it. A thread body writes its own row
only, the main thread writes row `i` only before it creates thread `i`, and it reads the
table only after the joins; so each of the two is taken as one step. -/
inductive Event where
  | create (i : Nat)
  | run (i : Nat)
deriving DecidableEq, Repr

/-- The row an event works on. -/
def Event.idx : Event → Nat
  | .create i => i
  | .run i => i

/-- What an event does to its row. -/
def Event.act (env : ScrapeEnv) : Event → ThreadData → ThreadData
  | .create i, d =>
    let d1 := { d with startTime := env.startTime i }
    if env.createOk i then d1 else { d1 with success := 0 }
  | .run i, d => (scrapeURL (env.worker i) d).1

/-- The table after one event. -/
def step (env : ScrapeEnv) (table : List ThreadData) (e : Event) : List ThreadData :=
  table.modify (e.act env) e.idx

/-- The events of row `i` in a run, in the order in which they must happen. -/
def rowEvents (env : ScrapeEnv) (i : Nat) : List Event :=
  if env.createOk i then [.create i, .run i] else [.create i]

/-- The index of a creation event. -/
def Event.created? : Event → Option Nat
  | .create i => some i
  | .run _ => none

/-- A schedule is a possible execution order of a run over `n` rows when the main thread
creates the threads in the order of the loop, and every row sees its creation, then (if the
thread was created) the body of its thread, and nothing else. -/
def ValidSchedule (env : ScrapeEnv) (n : Nat) (sched : List Event) : Prop :=
  sched.filterMap Event.created? = List.range n ∧
  (∀ e ∈ sched, e.idx < n) ∧
  ∀ i < n, sched.filter (fun e => e.idx = i) = rowEvents env i

instance (env : ScrapeEnv) (n : Nat) (sched : List Event) :
    Decidable (ValidSchedule env n sched) := by
  unfold ValidSchedule; infer_instance

/-- The schedule in which every thread runs to its end as soon as it is created. -/
def eagerSchedule (env : ScrapeEnv) (n : Nat) : List Event :=
  (List.range n).flatMap (rowEvents env)

/-- The schedule in which all threads are created first and then run, one by one, in the
order given. -/
def batchSchedule (env : ScrapeEnv) (n : Nat) (order : List Nat) : List Event :=
  (List.range n).map Event.create ++
    (order.filter (fun i => env.createOk i)).map Event.run

/-- The numbers of the scraping summary. -/
structure Summary where
  totalTime : Int
  successCount : Nat
  totalData : Nat
deriving DecidableEq, Repr

/-- The loop `for (i = 0; i < urlCount; i++) if (success) { successCount++; totalData += dataSize; }`
over the rows below `urlCount`. -/
def tally : List ThreadData → Nat × Nat → Nat × Nat
  | [], acc => acc
  | d :: ds, acc =>
    if d.success ≠ 0 then tally ds (acc.1 + 1, (acc.2 + d.dataSize) % SIZE_MODULUS)
    else tally ds acc

/-- The function `startScraping()`, run under the schedule `sched`: the globals afterwards,
and the summary it prints (`none` when it returns before scraping). The join loop is taken
to return for every row, also for a row whose thread was not created. -/
def startScraping (env : ScrapeEnv) (sched : List Event) (s : State) :
    State × Option Summary :=
  if s.urlCount = 0 then
    (s, none)
  else if env.threadsAlloc = false then
    (s, none)
  else
    let table := sched.foldl (step env) s.threadDataArray
    let t := tally (table.take s.urlCount) (0, 0)
    ({ s with threadDataArray := table },
      some { totalTime := env.overallEnd - env.overallStart,
             successCount := t.1, totalData := t.2 })

/-- The states the program can be in: after `initializeSystem`, then any number of the menu
actions that touch the table (`addURLs`, `loadURLsFromFile`, `startScraping`), each scraping
run under one of its valid schedules. -/
inductive Reachable : State → Prop where
  | init (rows : Nat → ThreadData) (s : State)
      (h : initializeSystem (some rows) = some s) : Reachable s
  | add (stdin : List UrlPrompt) (s : State) (h : Reachable s) : Reachable (addURLs stdin s)
  | load (file : Option (List String)) (s : State) (h : Reachable s) :
      Reachable (loadURLsFromFile file s)
  | scrape (env : ScrapeEnv) (sched : List Event) (s : State) (h : Reachable s)
      (hv : ValidSchedule env s.urlCount sched) : Reachable (startScraping env sched s).1

/-! ## Specification-side definitions and invariants -/

/-- The exact number of bytes the summary should report, in the spec's words: the sum of
`dataSize` over the rows below `urlCount` whose `success` is not 0. -/
def successData (s : State) : Nat :=
  (((s.threadDataArray.take s.urlCount).filter (fun d => d.success ≠ 0)).map
    ThreadData.dataSize).sum

/-- From position `k` on, every row below `urlCount` carries its position as `threadID` and
the page path of its position; the table has its `MAX_URLS` rows. -/
def RowsFrom (k : Nat) (s : State) : Prop :=
  s.threadDataArray.length = MAX_URLS ∧
  ∀ i, k ≤ i → i < s.urlCount →
    ∃ d, s.threadDataArray[i]? = some d ∧ d.threadID = (i : Int) ∧
      d.outputFile = pagePath (i + 1)

/-! ## Concrete rows, workers and runs -/

/-- A row of memory before the program has written to it. -/
def blankRow : ThreadData :=
  { threadID := 0, url := "", outputFile := "", success := 0, dataSize := 0,
    startTime := 0, endTime := 0 }

/-- The globals right after `initializeSystem`, on a heap of blank rows. -/
def freshState : State :=
  { threadDataArray := List.replicate MAX_URLS { blankRow with threadID := -1 }, urlCount := 0 }

/-- The globals after the user has entered the same URL twice. -/
def demoState : State :=
  addURLs [⟨"http://a.example/\n", 'n'⟩, ⟨"http://a.example/\n", 'n'⟩] freshState

/-- A row holding one URL, not yet scraped. -/
def demoRow : ThreadData :=
  { threadID := 0, url := "http://a.example/", outputFile := "scraped_data/page_1.html",
    success := 0, dataSize := 0, startTime := 0, endTime := 0 }

/-- A delivery of three bytes. -/
def demoChunk : Chunk :=
  { contents := [72, 105, 33], size := 1, nmemb := 3, reallocOk := true }

/-- A worker for which everything goes well: three bytes arrive and are stored. -/
def okWorker : WorkerEnv :=
  { mallocByte := some 0, curlInit := true,
    transfer := { chunks := [demoChunk], result := CURLE_OK, httpStatus := 200 },
    fopenOk := true, fwriteStored := 3, endTime := 5 }

/-- A worker whose transfer times out (`CURLE_OPERATION_TIMEDOUT`) before any byte. -/
def timeoutWorker : WorkerEnv :=
  { mallocByte := some 0, curlInit := true,
    transfer := { chunks := [], result := 28, httpStatus := 0 },
    fopenOk := true, fwriteStored := 0, endTime := 40 }

/-- A worker whose three bytes arrive but whose output file cannot be created. -/
def noFileWorker : WorkerEnv :=
  { mallocByte := some 0, curlInit := true,
    transfer := { chunks := [demoChunk], result := CURLE_OK, httpStatus := 200 },
    fopenOk := false, fwriteStored := 0, endTime := 5 }

/-- A worker whose three bytes arrive, whose file opens, and whose disk takes one byte. -/
def shortWriteWorker : WorkerEnv :=
  { mallocByte := some 0, curlInit := true,
    transfer := { chunks := [demoChunk], result := CURLE_OK, httpStatus := 200 },
    fopenOk := true, fwriteStored := 1, endTime := 5 }

/-- A run in which the first worker succeeds and the second times out. -/
def demoEnv : ScrapeEnv :=
  { threadsAlloc := true, overallStart := 100, overallEnd := 140,
    startTime := fun _ => 100, createOk := fun _ => true,
    worker := fun i => if i = 0 then okWorker else timeoutWorker }

/-- A worker whose second delivery, of two bytes, finds no memory. -/
def noMemoryWorker : WorkerEnv :=
  { mallocByte := some 0, curlInit := true,
    transfer := { chunks := [demoChunk, ⟨[1, 2], 1, 2, false⟩], result := CURLE_OK,
                  httpStatus := 200 },
    fopenOk := true, fwriteStored := 5, endTime := 5 }

/-- A run in which the first worker succeeds, as in `demoEnv`, and the second runs out of
memory. -/
def demoEnv2 : ScrapeEnv :=
  { threadsAlloc := true, overallStart := 100, overallEnd := 105,
    startTime := fun i => if i = 0 then 100 else 101, createOk := fun _ => true,
    worker := fun i => if i = 0 then okWorker else noMemoryWorker }

end WebScraper

/-!
# Code shared by the other programs

## C `float` values
-/

namespace CModel

/-- A C `float`: not-a-number, minus infinity, a finite number, the negative zero, or plus
infinity. A finite number other than the negative zero is given by the integer `m` for which
it is `m * 2^(-149)`: every finite `float` is such a multiple of the smallest positive one.
The positive zero is `num 0`; the negative zero `negZero` compares like it and is another
value. -/
inductive CFloat where
  | nan
  | negInf
  | num (m : Int)
  | negZero
  | posInf
deriving DecidableEq, Repr

/-- The `float` of an integer constant of the source, such as `0` or `100`; the factor
is `2^149`. -/
def CFloat.ofInt (k : Int) : CFloat := .num (k * 713623846352979940529142984724747568191373312)

/-- The C comparison `a < b` on floats: false as soon as one side is not-a-number; the
negative zero compares as 0. -/
def CFloat.lt : CFloat → CFloat → Bool
  | .num a, .num b => decide (a < b)
  | .num a, .negZero => decide (a < 0)
  | .negZero, .num b => decide (0 < b)
  | .negInf, .num _ => true
  | .negInf, .negZero => true
  | .negInf, .posInf => true
  | .num _, .posInf => true
  | .negZero, .posInf => true
  | _, _ => false

/-- The C comparison `a > b` on floats. -/
def CFloat.gt (a b : CFloat) : Bool := CFloat.lt b a

/-- The C comparison `a <= b` on floats: false as soon as one side is not-a-number; the
negative zero compares as 0. -/
def CFloat.le : CFloat → CFloat → Bool
  | .num a, .num b => decide (a ≤ b)
  | .num a, .negZero => decide (a ≤ 0)
  | .negZero, .num b => decide (0 ≤ b)
  | .negZero, .negZero => true
  | .negInf, .negInf => true
  | .negInf, .num _ => true
  | .negInf, .negZero => true
  | .negInf, .posInf => true
  | .num _, .posInf => true
  | .negZero, .posInf => true
  | .posInf, .posInf => true
  | _, _ => false

/-- The C comparison `a == b` on floats: false as soon as one side is not-a-number, and true
of the two zeros. -/
def CFloat.eq : CFloat → CFloat → Bool
  | .num a, .num b => decide (a = b)
  | .num a, .negZero => decide (a = 0)
  | .negZero, .num b => decide (0 = b)
  | .negZero, .negZero => true
  | .negInf, .negInf => true
  | .posInf, .posInf => true
  | _, _ => false

/-- A float without the sign of a zero: the negative zero becomes the positive zero, every
other value is kept. Two floats other than not-a-number compare equal with `==` exactly when
they are the same without the sign of a zero. -/
def CFloat.unsigned : CFloat → CFloat
  | .negZero => .num 0
  | x => x

/-! ## The loop nest of the bubble sorts

`sortAscending`, `sortDescending` and `bubbleSort` are the same two loops around a test of
`arr[j]` against `arr[j + 1]`; `sw` is that test. -/

/-- The body of the inner loop: `if (sw(arr[j], arr[j+1])) { swap arr[j] and arr[j+1] }`.
A read outside the array leaves it as it is. -/
def bubbleStep {α : Type} (sw : α → α → Bool) (arr : List α) (j : Nat) : List α :=
  match arr[j]?, arr[j + 1]? with
  | some a, some b => if sw a b then (arr.set j b).set (j + 1) a else arr
  | _, _ => arr

/-- The inner loop `for (j = ...; ...; j++)`, for its `count` remaining iterations. -/
def bubbleInner {α : Type} (sw : α → α → Bool) : Nat → Nat → List α → List α
  | 0, _, arr => arr
  | count + 1, j, arr => bubbleInner sw count (j + 1) (bubbleStep sw arr j)

/-- The outer loop `for (i = ...; i < n - 1; i++)`, for its `count` remaining iterations;
its body is the inner loop `for (j = 0; j < n - i - 1; j++)`. -/
def bubbleOuter {α : Type} (sw : α → α → Bool) (n : Nat) : Nat → Nat → List α → List α
  | 0, _, arr => arr
  | count + 1, i, arr => bubbleOuter sw n count (i + 1) (bubbleInner sw (n - i - 1) 0 arr)

/-- The whole nest on the first `n` entries of `arr`. -/
def bubbleNest {α : Type} (sw : α → α → Bool) (arr : List α) (n : Nat) : List α :=
  bubbleOuter sw n (n - 1) 0 arr

/-- One pass of the inner loop, told on the list itself: `count` comparisons of neighbours
from the head on, the greater of each pair carried along. -/
def bubbleList {α : Type} (sw : α → α → Bool) : Nat → List α → List α
  | count + 1, a :: b :: t =>
    if sw a b then b :: bubbleList sw count (a :: t) else a :: bubbleList sw count (b :: t)
  | _, l => l

/-! ## The loops of the insertion sort -/

/-- The loop `while (j >= 0) { if (!mv(arr[j], key)) break; arr[j+1] = arr[j]; j--; }`
followed by `arr[j+1] = key`, with `p = j + 1` the place still free. -/
def insertShift {α : Type} (mv : α → α → Bool) (key : α) : Nat → List α → List α
  | 0, arr => arr.set 0 key
  | p + 1, arr =>
    match arr[p]? with
    | some x =>
      if mv x key then insertShift mv key p (arr.set (p + 1) x) else arr.set (p + 1) key
    | none => arr.set (p + 1) key

/-- The loop `for (i = ...; i < n; i++) { key = arr[i]; ... }`, for its `count` remaining
iterations. -/
def insertionOuter {α : Type} (mv : α → α → Bool) : Nat → Nat → List α → List α
  | 0, _, arr => arr
  | count + 1, i, arr =>
    match arr[i]? with
    | some key => insertionOuter mv count (i + 1) (insertShift mv key i arr)
    | none => insertionOuter mv count (i + 1) arr

/-- The whole insertion sort on the first `n` entries of `arr`. -/
def insertionNest {α : Type} (mv : α → α → Bool) (arr : List α) (n : Nat) : List α :=
  insertionOuter mv (n - 1) 1 arr

/-- Putting `key` into a list read from its end: past every entry that `mv` says must move,
in front of the first that must not. The list is given reversed. -/
def insRev {α : Type} (mv : α → α → Bool) (key : α) : List α → List α
  | [] => [key]
  | x :: xs => if mv x key then x :: insRev mv key xs else key :: x :: xs

/-- Putting `key` into `l` from the right end. -/
def insertRight {α : Type} (mv : α → α → Bool) (key : α) (l : List α) : List α :=
  (insRev mv key l.reverse).reverse

end CModel

/-!
# `Dynamic_Math_Data_Processing_Engine.c`: the ascending sort and the median
-/

namespace MathEngine

open CModel

/-- The function `sortAscending(data, size, dummy)`: the array afterwards. A `size` below 1
runs no iteration. -/
def sortAscending (data : List CFloat) (size : Int) (_dummy : Int) : List CFloat :=
  bubbleNest (fun a b => CFloat.gt a b) data size.toNat

end MathEngine

/-!
# `Student_Management_System_Using_Structures.c`

The globals `students`, `studentCount` and `capacity` are the record `DB`; `students` is the
whole allocated block, of which the first `studentCount` records are the database. A
function that asks the user for input takes the answers as an argument; it returns `none`
when it does not come back with a database: it waits for a valid answer that never comes, or
it has written outside the block. Arithmetic on floats is an argument too (`FloatArith`),
and nothing is assumed about it.
-/

namespace StudentDB

open CModel

/-- `#define MAX_SUBJECTS 5`. -/
def MAX_SUBJECTS : Int := 5

/-- The record `Student`. `grades` holds the entries of the array below `numSubjects`. -/
structure Student where
  id : Int
  name : String
  age : Int
  course : String
  grades : List CFloat
  numSubjects : Int
  gpa : CFloat
deriving DecidableEq, Repr

/-- The globals of the program. -/
structure DB where
  students : List Student
  studentCount : Nat
  capacity : Nat
deriving DecidableEq, Repr

/-- The float operations the program uses: `a + b`, and `a / n` for an `int` `n`. -/
structure FloatArith where
  add : CFloat → CFloat → CFloat
  divInt : CFloat → Int → CFloat

/-- The records of the database: the first `studentCount` records of the block. -/
def DB.live (db : DB) : List Student := db.students.take db.studentCount

/-- The function `initializeSystem()`. `block` is what `malloc` returns: `none` when it fails
(the program exits), else the ten records of the block, with whatever they hold. -/
def initializeSystem (block : Option (Nat → Student)) : Option DB :=
  match block with
  | none => none
  | some rows => some { students := (List.range 10).map rows, studentCount := 0, capacity := 10 }

/-- The sign of `strcmp` on the characters of two strings: the first place where they
differ decides, and a string that ends there is the smaller. -/
def strcmpChars : List Char → List Char → Int
  | [], [] => 0
  | [], _ :: _ => -1
  | _ :: _, [] => 1
  | a :: as, b :: bs =>
    if a.toNat = b.toNat then strcmpChars as bs else if a.toNat < b.toNat then -1 else 1

/-- The sign of `strcmp(a, b)`. -/
def strcmp (a b : String) : Int := strcmpChars a.toList b.toList

/-- The line after `line[strcspn(line, "\n")] = 0`. -/
def stripNewline (line : String) : String :=
  String.mk (line.toList.takeWhile (fun c => c ≠ '\n'))

/-- The function `computeGPA(student)`. -/
def computeGPA (fa : FloatArith) (student : Student) : Student :=
  let sum := (student.grades.take student.numSubjects.toNat).foldl fa.add (CFloat.ofInt 0)
  { student with gpa := fa.divInt sum student.numSubjects }

/-- The function `isValidID(id)`. -/
def isValidID (db : DB) (id : Int) : Int :=
  if db.live.any (fun s => s.id = id) then 0 else 1

/-- The loop of `findStudentIndex`, from index `i` on. -/
def findIndexFrom (id : Int) : List Student → Nat → Int
  | [], _ => -1
  | s :: rest, i => if s.id = id then (i : Int) else findIndexFrom id rest (i + 1)

/-- The function `findStudentIndex(id)`. -/
def findStudentIndex (db : DB) (id : Int) : Int :=
  findIndexFrom id db.live 0

/-- The test `grade < 0 || grade > 100` that makes the program ask again. -/
def gradeRejected (g : CFloat) : Bool :=
  CFloat.lt g (CFloat.ofInt 0) || CFloat.gt g (CFloat.ofInt 100)

/-- The loops that read the grades of `n` subjects: for subject `i` the first answer that
is not rejected. -/
def readGrades (answers : Nat → List CFloat) (n : Nat) : Option (List CFloat) :=
  (List.range n).mapM (fun i => (answers i).find? (fun g => !gradeRejected g))

/-- The loop that reads an age: the first answer from 1 to 150. -/
def readAge (answers : List Int) : Option Int :=
  answers.find? (fun a => !(decide (a < 1) || decide (a > 150)))

/-- What the user answers to `addStudent`, and what `realloc` does in it. -/
structure AddInput where
  /-- `realloc` returns a block -/
  reallocOk : Bool
  /-- what the new records of a grown block hold -/
  junk : Student
  /-- the answers to `Enter Student ID`, one after the other -/
  ids : List Int
  /-- the line read for the name -/
  name : String
  /-- the answers to `Enter Age` -/
  ages : List Int
  /-- the line read for the course -/
  course : String
  /-- the answers to `Enter number of subjects` -/
  numSubjects : List Int
  /-- the answers to `Subject i`, for each `i` -/
  grades : Nat → List CFloat

/-- The first part of `addStudent`, `if (studentCount >= capacity) { ... }`: the globals when
it goes on, `none` when `realloc` fails and `addStudent` returns. -/
def growBlock (inp : AddInput) (db : DB) : Option DB :=
  if db.studentCount ≥ db.capacity then
    if inp.reallocOk then
      some { db with capacity := db.capacity * 2,
                     students := (db.students ++
                       List.replicate (db.capacity * 2 - db.students.length) inp.junk).take
                         (db.capacity * 2) }
    else none
  else some db

/-- The rest of `addStudent`: the record is read, its average computed, and it is stored at
`students[studentCount]`. -/
def addRecord (fa : FloatArith) (inp : AddInput) (db : DB) : Option DB :=
  match inp.ids.find? (fun id => !(decide (id ≤ 0)) && isValidID db id != 0) with
  | none => none
  | some id =>
    match readAge inp.ages with
    | none => none
    | some age =>
      match inp.numSubjects.find? (fun k => !(decide (k < 1) || decide (k > MAX_SUBJECTS))) with
      | none => none
      | some k =>
        match readGrades inp.grades k.toNat with
        | none => none
        | some gs =>
          let newStudent := computeGPA fa
            { id := id, name := stripNewline inp.name, age := age,
              course := stripNewline inp.course, grades := gs, numSubjects := k,
              gpa := CFloat.nan }
          if db.studentCount < db.students.length then
            some { db with students := db.students.set db.studentCount newStudent,
                           studentCount := db.studentCount + 1 }
          else none

/-- The function `addStudent()`. When `realloc` fails it returns with `capacity` doubled and
the block as it was. -/
def addStudent (fa : FloatArith) (inp : AddInput) (db : DB) : Option DB :=
  match growBlock inp db with
  | none => some { db with capacity := db.capacity * 2 }
  | some db1 => addRecord fa inp db1

/-- What the user answers to `updateStudent`. -/
structure UpdateInput where
  id : Int
  choice : Int
  name : String
  ages : List Int
  course : String
  grades : Nat → List CFloat

/-- The new grades and the new average of a record (choices 4 and 5 of `updateStudent`). -/
def updateGrades (fa : FloatArith) (answers : Nat → List CFloat) (s : Student) :
    Option Student :=
  match readGrades answers s.numSubjects.toNat with
  | none => none
  | some gs => some (computeGPA fa { s with grades := gs })

/-- What `updateStudent` does to the record it has found. -/
def updateRecord (fa : FloatArith) (inp : UpdateInput) (s : Student) : Option Student :=
  if inp.choice = 1 then some { s with name := stripNewline inp.name }
  else if inp.choice = 2 then
    match readAge inp.ages with
    | none => none
    | some age => some { s with age := age }
  else if inp.choice = 3 then some { s with course := stripNewline inp.course }
  else if inp.choice = 4 then updateGrades fa inp.grades s
  else if inp.choice = 5 then
    match readAge inp.ages with
    | none => none
    | some age =>
      updateGrades fa inp.grades
        { s with name := stripNewline inp.name, age := age,
                 course := stripNewline inp.course }
  else some s

/-- The function `updateStudent()`. -/
def updateStudent (fa : FloatArith) (inp : UpdateInput) (db : DB) : Option DB :=
  let index := findStudentIndex db inp.id
  if index = -1 then some db
  else
    match db.students[index.toNat]? with
    | none => none
    | some s =>
      match updateRecord fa inp s with
      | none => none
      | some s1 => some { db with students := db.students.set index.toNat s1 }

/-- The loop `for (i = ...; i < studentCount - 1; i++) students[i] = students[i + 1];`, for
its `count` remaining iterations. -/
def shiftLeft : Nat → Nat → List Student → List Student
  | 0, _, arr => arr
  | count + 1, i, arr =>
    match arr[i + 1]? with
    | some s => shiftLeft count (i + 1) (arr.set i s)
    | none => arr

/-- The function `deleteStudent()`, for the id and the confirmation the user gives. -/
def deleteStudent (id : Int) (confirm : Char) (db : DB) : DB :=
  let index := findStudentIndex db id
  if index = -1 then db
  else if confirm = 'y' ∨ confirm = 'Y' then
    { db with students := shiftLeft (db.studentCount - 1 - index.toNat) index.toNat db.students,
              studentCount := db.studentCount - 1 }
  else db

/-- The function `bubbleSort(arr, n, sortBy)`: the array afterwards. -/
def bubbleSort (arr : List Student) (n : Int) (sortBy : Int) : List Student :=
  bubbleNest (fun a b => decide (sortBy = 1) && CFloat.lt a.gpa b.gpa) arr n.toNat

/-- The flag `shouldMove` of `insertionSort` for `arr[j] = x`. -/
def shouldMove (sortBy : Int) (x key : Student) : Bool :=
  if sortBy = 2 then decide (strcmp x.name key.name > 0)
  else if sortBy = 3 then decide (x.id > key.id)
  else false

/-- The function `insertionSort(arr, n, sortBy)`: the array afterwards. -/
def insertionSort (arr : List Student) (n : Int) (sortBy : Int) : List Student :=
  insertionNest (shouldMove sortBy) arr n.toNat

/-- The function `sortStudents()`, for the choice the user makes. -/
def sortStudents (choice : Int) (db : DB) : DB :=
  if db.studentCount = 0 then db
  else if choice = 1 then { db with students := bubbleSort db.students db.studentCount 1 }
  else if choice = 2 then { db with students := insertionSort db.students db.studentCount 2 }
  else if choice = 3 then { db with students := insertionSort db.students db.studentCount 3 }
  else db

/-- The block holds the database, and the ids in the database are positive and pairwise
distinct. -/
def IdsOK (db : DB) : Prop :=
  db.studentCount ≤ db.students.length ∧ db.students.length ≤ db.capacity ∧
  (db.live.map Student.id).Nodup ∧ ∀ s ∈ db.live, 0 < s.id

/-- The databases the program can hold when it starts from an empty one and the user adds,
updates, deletes and sorts. -/
inductive Reachable (fa : FloatArith) : DB → Prop where
  | init (rows : Nat → Student) (db : DB) (h : initializeSystem (some rows) = some db) :
      Reachable fa db
  | add (inp : AddInput) (db db1 : DB) (h : Reachable fa db)
      (hr : addStudent fa inp db = some db1) : Reachable fa db1
  | update (inp : UpdateInput) (db db1 : DB) (h : Reachable fa db)
      (hr : updateStudent fa inp db = some db1) : Reachable fa db1
  | delete (id : Int) (confirm : Char) (db : DB) (h : Reachable fa db) :
      Reachable fa (deleteStudent id confirm db)
  | sort (choice : Int) (db : DB) (h : Reachable fa db) : Reachable fa (sortStudents choice db)

/-! ## Concrete students and databases -/

/-- A float arithmetic to run the program with: exact on finite numbers, with the quotient
rounded down. -/
def demoArith : FloatArith :=
  { add := fun a b =>
      match a, b with
      | .num x, .num y => .num (x + y)
      | _, _ => .nan,
    divInt := fun a n =>
      match a with
      | .num x => .num (x / n)
      | _ => .nan }

/-- A record of a block before the program has written to it. -/
def blankStudent : Student :=
  { id := 0, name := "", age := 0, course := "", grades := [], numSubjects := 0,
    gpa := .nan }

/-- The globals right after `initializeSystem`. -/
def emptyDB : DB :=
  { students := List.replicate 10 blankStudent, studentCount := 0, capacity := 10 }

/-- The user adds a student: the ids `0` and `-3` are refused, then `5` is taken. -/
def annInput : AddInput :=
  { reallocOk := true, junk := blankStudent, ids := [0, -3, 5], name := "Ann\n",
    ages := [0, 20], course := "Maths\n", numSubjects := [7, 2],
    grades := fun _ => [.ofInt 200, .ofInt 80] }

/-- The user adds another student: the id `5` is refused as taken, then `3` is taken. -/
def bobInput : AddInput :=
  { reallocOk := true, junk := blankStudent, ids := [5, 3], name := "Bob\n",
    ages := [22], course := "Maths\n", numSubjects := [1],
    grades := fun _ => [.ofInt 60] }

/-- The user tries to add a third student under the ids `3` and `5`, then gives `4`. -/
def cidInput : AddInput :=
  { reallocOk := true, junk := blankStudent, ids := [3, 5, 4], name := "Cid\n",
    ages := [19], course := "Physics\n", numSubjects := [1],
    grades := fun _ => [.ofInt 70] }

/-- The database after Ann has been added. -/
def oneStudent : DB := (addStudent demoArith annInput emptyDB).getD emptyDB

/-- The database after Ann and Bob have been added. -/
def twoStudents : DB := (addStudent demoArith bobInput oneStudent).getD emptyDB

/-- A student with the fields that the sorts look at. -/
def mkStudent (id : Int) (name : String) (gpa : CFloat) : Student :=
  { id := id, name := name, age := 20, course := "Maths", grades := [], numSubjects := 0,
    gpa := gpa }

/-- Four students, two of them with the same average and two with the same name. -/
def demoClass : List Student :=
  [mkStudent 7 "Dee" (.num 2), mkStudent 3 "Bob" (.num 5), mkStudent 9 "Ann" (.num 2),
   mkStudent 1 "Bob" (.num 9)]

/-- Three students, the second with an average that is not a number. -/
def nanClass : List Student :=
  [mkStudent 1 "Ann" (.num 1), mkStudent 2 "Bob" .nan, mkStudent 3 "Cid" (.num 2)]

end StudentDB

/-!
# `Smart_Traffic_Control_Monitoring_System.cpp`

The globals of the sketch are the record `State`; `pins` is the level of every digital pin.
What a pass of `loop()` reads from outside (the clock, the serial port, the two sensors, the
heap) is its argument. An `unsigned long` is a number below `ULONG_MODULUS`, and the
subtraction of two of them wraps. A function returns `none` when it reads or writes through
a null pointer or outside the log buffer: what the sketch does after that is not defined.
-/

namespace Traffic

/-! ## Constants and records -/

/-- `#define NS_RED 2`. -/
def NS_RED : Nat := 2
/-- `#define NS_YELLOW 3`. -/
def NS_YELLOW : Nat := 3
/-- `#define NS_GREEN 4`. -/
def NS_GREEN : Nat := 4
/-- `#define EW_RED 5`. -/
def EW_RED : Nat := 5
/-- `#define EW_YELLOW 6`. -/
def EW_YELLOW : Nat := 6
/-- `#define EW_GREEN 7`. -/
def EW_GREEN : Nat := 7
/-- `#define NS_SENSOR 8`. -/
def NS_SENSOR : Nat := 8
/-- `#define EW_SENSOR 9`. -/
def EW_SENSOR : Nat := 9

/-- `#define MIN_GREEN_TIME 3000`. -/
def MIN_GREEN_TIME : Nat := 3000
/-- `#define MAX_GREEN_TIME 10000`. -/
def MAX_GREEN_TIME : Nat := 10000
/-- `#define YELLOW_TIME 2000`. -/
def YELLOW_TIME : Nat := 2000
/-- `#define EMERGENCY_OVERRIDE_TIME 15000`. -/
def EMERGENCY_OVERRIDE_TIME : Nat := 15000

/-- One past the largest `unsigned long` of the board (32 bits). -/
def ULONG_MODULUS : Nat := 4294967296

/-- A reading of `millis()`, as the `unsigned long` it is. -/
def millis (clock : Nat) : Nat := clock % ULONG_MODULUS

/-- The difference `a - b` of two `unsigned long`. -/
def usub (a b : Nat) : Nat := (a + ULONG_MODULUS - b % ULONG_MODULUS) % ULONG_MODULUS

/-- The enumeration `TrafficState`. -/
inductive TrafficState where
  | STATE_NS_GREEN
  | STATE_NS_YELLOW
  | STATE_EW_GREEN
  | STATE_EW_YELLOW
  | STATE_EMERGENCY
deriving DecidableEq, Repr

/-- The record `TrafficLane`. -/
structure TrafficLane where
  laneID : String
  redPin : Nat
  yellowPin : Nat
  greenPin : Nat
  sensorPin : Nat
  vehicleCount : Int
  totalWaitTime : Nat
  lastDetectionTime : Nat
  vehiclePresent : Bool
deriving DecidableEq, Repr

/-- The record `LogEntry`. -/
structure LogEntry where
  laneID : String
  timestamp : Nat
  vehicleCount : Int
  waitTime : Nat
  state : String
deriving DecidableEq, Repr

/-- The globals of the sketch, and the level last written to every pin (low at reset). A lane
or `logBuffer` is `none` for a null pointer; `logBuffer` is else the entries of the allocated
block. The `int` counters are taken without a bound. -/
structure State where
  nsLane : Option TrafficLane
  ewLane : Option TrafficLane
  logBuffer : Option (List LogEntry)
  logBufferSize : Nat
  logCount : Nat
  currentState : TrafficState
  stateStartTime : Nat
  currentGreenTime : Nat
  emergencyMode : Bool
  emergencyStartTime : Nat
  pins : Nat → Bool

/-! ## The lamps -/

/-- The call `digitalWrite(pin, level)`. -/
def digitalWrite (pins : Nat → Bool) (pin : Nat) (level : Bool) : Nat → Bool :=
  fun p => if p = pin then level else pins p

/-- The function `setLights(lane, red, yellow, green)`. -/
def setLights (s : State) (lane : Option TrafficLane) (red yellow green : Bool) :
    Option State :=
  match lane with
  | none => none
  | some l =>
    let p1 := digitalWrite s.pins l.redPin red
    let p2 := digitalWrite p1 l.yellowPin yellow
    some { s with pins := digitalWrite p2 l.greenPin green }

/-- The function `createLane(lane, id, r, y, g, s)`: the lane pointer, and the pins. `alloc`
tells whether `malloc` returns a block. -/
def createLane (alloc : Bool) (pins : Nat → Bool) (id : String) (r y g sensor : Nat) :
    Option TrafficLane × (Nat → Bool) :=
  if alloc then
    (some { laneID := id, redPin := r, yellowPin := y, greenPin := g, sensorPin := sensor,
            vehicleCount := 0, totalWaitTime := 0, lastDetectionTime := 0,
            vehiclePresent := false },
     digitalWrite (digitalWrite (digitalWrite pins r false) y false) g false)
  else (none, pins)

/-- What `initializeSystem` meets. -/
structure InitEnv where
  /-- `malloc` returns a block for the NS lane -/
  nsAlloc : Bool
  /-- `malloc` returns a block for the EW lane -/
  ewAlloc : Bool
  /-- the block `malloc` returns for the log buffer, `none` when it fails -/
  logBlock : Option (Nat → LogEntry)
  /-- the clock -/
  clock : Nat

/-- The function `initializeSystem()`, run on the globals as they are initialised. -/
def initializeSystem (env : InitEnv) : Option State :=
  let ns := createLane env.nsAlloc (fun _ => false) "NS" NS_RED NS_YELLOW NS_GREEN NS_SENSOR
  let ew := createLane env.ewAlloc ns.2 "EW" EW_RED EW_YELLOW EW_GREEN EW_SENSOR
  let s0 : State :=
    { nsLane := ns.1, ewLane := ew.1, logBuffer := none, logBufferSize := 10, logCount := 0,
      currentState := .STATE_NS_GREEN, stateStartTime := 0,
      currentGreenTime := MIN_GREEN_TIME, emergencyMode := false, emergencyStartTime := 0,
      pins := ew.2 }
  match env.logBlock with
  | none => some s0
  | some block =>
    let s1 := { s0 with logBuffer := some ((List.range 10).map block),
                        stateStartTime := millis env.clock }
    match setLights s1 s1.nsLane false false true with
    | none => none
    | some s2 => setLights s2 s2.ewLane true false false

/-! ## The sensors -/

/-- What `detectVehicles` does to one lane, for the level `detection` of its sensor. -/
def detectLane (currentTime : Nat) (detection : Bool) (lane : TrafficLane) : TrafficLane :=
  if detection && !lane.vehiclePresent then
    { lane with vehicleCount := lane.vehicleCount + 1, lastDetectionTime := currentTime,
                vehiclePresent := true }
  else if !detection then { lane with vehiclePresent := false }
  else lane

/-- The function `detectVehicles()`. -/
def detectVehicles (clock : Nat) (nsDetection ewDetection : Bool) (s : State) : Option State :=
  let currentTime := millis clock
  match s.nsLane with
  | none => none
  | some ns =>
    match s.ewLane with
    | none => none
    | some ew =>
      some { s with nsLane := some (detectLane currentTime nsDetection ns),
                    ewLane := some (detectLane currentTime ewDetection ew) }

/-! ## The log -/

/-- What one call of `logTrafficData` meets: the two readings of the clock, what `realloc`
does if it is called, and what the new entries of a grown buffer hold. -/
structure LogEnv where
  clockStamp : Nat
  clockWait : Nat
  reallocOk : Bool
  junk : LogEntry

/-- The first part of `addLogEntry`, `if (logCount >= logBufferSize) { ... }`: the globals when
it goes on, `none` when `realloc` fails and `addLogEntry` returns. -/
def growLog (env : LogEnv) (s : State) : Option State :=
  if s.logCount ≥ s.logBufferSize then
    if env.reallocOk then
      let old := s.logBuffer.getD []
      let size := s.logBufferSize * 2
      let block := (old ++ List.replicate (size - old.length) env.junk).take size
      some { s with logBufferSize := size, logBuffer := some block }
    else none
  else some s

/-- The function `addLogEntry(laneID, ts, count, wait, state)`. -/
def addLogEntry (env : LogEnv) (entry : LogEntry) (s : State) : Option State :=
  match growLog env s with
  | none => some { s with logBufferSize := s.logBufferSize * 2 }
  | some s1 =>
    match s1.logBuffer with
    | none => none
    | some buf =>
      if s1.logCount < buf.length then
        some { s1 with logBuffer := some (buf.set s1.logCount entry),
                       logCount := s1.logCount + 1 }
      else none

/-- The function `logTrafficData(laneID, state)`. -/
def logTrafficData (env : LogEnv) (laneID state : String) (s : State) : Option State :=
  let timestamp := millis env.clockStamp / 1000
  match (if laneID = "NS" then s.nsLane else s.ewLane) with
  | none => none
  | some lane =>
    let waitTime :=
      if lane.lastDetectionTime > 0 then
        usub (millis env.clockWait) lane.lastDetectionTime / 1000
      else 0
    addLogEntry env
      { laneID := laneID, timestamp := timestamp, vehicleCount := lane.vehicleCount,
        waitTime := waitTime, state := state } s

/-! ## The signals -/

/-- The green time for a count of vehicles. -/
def greenTimeFor (count : Int) : Nat :=
  if count > 10 then MAX_GREEN_TIME
  else if count > 5 then 7000
  else if count > 2 then 5000
  else MIN_GREEN_TIME

/-- The function `dynamicTimingAdjustment()`. -/
def dynamicTimingAdjustment (s : State) : Option State :=
  match s.nsLane with
  | none => none
  | some ns =>
    match s.ewLane with
    | none => none
    | some ew =>
      let nsCount := ns.vehicleCount
      let ewCount := ew.vehicleCount
      if s.currentState = .STATE_NS_GREEN ∨ s.currentState = .STATE_NS_YELLOW then
        some { s with currentGreenTime := greenTimeFor ewCount }
      else
        some { s with currentGreenTime := greenTimeFor nsCount }

/-- What `updateTrafficSignals` meets: the clock, and what its calls of `logTrafficData`
meet. -/
structure UpdateEnv where
  clock : Nat
  log1 : LogEnv
  log2 : LogEnv

/-- The function `updateTrafficSignals()`. -/
def updateTrafficSignals (env : UpdateEnv) (s : State) : Option State :=
  if s.emergencyMode then do
    let s1 ← setLights s s.nsLane true false false
    setLights s1 s1.ewLane true false false
  else
    let currentTime := millis env.clock
    let elapsedTime := usub currentTime s.stateStartTime
    match s.currentState with
    | .STATE_NS_GREEN =>
      if elapsedTime ≥ s.currentGreenTime then do
        let s1 := { s with currentState := .STATE_NS_YELLOW, stateStartTime := currentTime }
        let s2 ← setLights s1 s1.nsLane false true false
        logTrafficData env.log1 "NS" "YELLOW" s2
      else some s
    | .STATE_NS_YELLOW =>
      if elapsedTime ≥ YELLOW_TIME then do
        let s1 := { s with currentState := .STATE_EW_GREEN, stateStartTime := currentTime }
        let s2 ← setLights s1 s1.nsLane true false false
        let s3 ← setLights s2 s2.ewLane false false true
        let s4 ← dynamicTimingAdjustment s3
        let s5 ← logTrafficData env.log1 "NS" "RED" s4
        logTrafficData env.log2 "EW" "GREEN" s5
      else some s
    | .STATE_EW_GREEN =>
      if elapsedTime ≥ s.currentGreenTime then do
        let s1 := { s with currentState := .STATE_EW_YELLOW, stateStartTime := currentTime }
        let s2 ← setLights s1 s1.ewLane false true false
        logTrafficData env.log1 "EW" "YELLOW" s2
      else some s
    | .STATE_EW_YELLOW =>
      if elapsedTime ≥ YELLOW_TIME then do
        let s1 := { s with currentState := .STATE_NS_GREEN, stateStartTime := currentTime }
        let s2 ← setLights s1 s1.ewLane true false false
        let s3 ← setLights s2 s2.nsLane false false true
        let s4 ← dynamicTimingAdjustment s3
        let s5 ← logTrafficData env.log1 "EW" "RED" s4
        logTrafficData env.log2 "NS" "GREEN" s5
      else some s
    | .STATE_EMERGENCY => some s

/-- The function `checkErrorStates()`. Reading a lamp pin gives the level written to it. -/
def checkErrorStates (clock : Nat) (s : State) : Option State :=
  let nsGreen := s.pins NS_GREEN
  let ewGreen := s.pins EW_GREEN
  if nsGreen && ewGreen then do
    let s1 ← setLights s s.nsLane true false false
    let s2 ← setLights s1 s1.ewLane true false false
    some { s2 with emergencyMode := true, emergencyStartTime := millis clock }
  else some s

/-- The function `enterEmergencyMode()`. -/
def enterEmergencyMode (clock : Nat) (s : State) : Option State := do
  let s1 := { s with emergencyMode := true, emergencyStartTime := millis clock,
                     currentState := .STATE_EMERGENCY }
  let s2 ← setLights s1 s1.nsLane true false false
  setLights s2 s2.ewLane true false false

/-! ## The serial port -/

/-- The characters `isspace` accepts. -/
def isspace (c : Char) : Bool :=
  c = ' ' || c = '\t' || c = '\n' || c = '\x0b' || c = '\x0c' || c = '\r'

/-- The line after `command.trim(); command.toLowerCase();`. -/
def normalize (line : String) : String :=
  String.mk ((((line.toList.dropWhile isspace).reverse.dropWhile isspace).reverse).map
    Char.toLower)

/-- The function `printStatistics()` prints, and reads both lanes. -/
def printStatistics (s : State) : Option State :=
  if s.nsLane = none ∨ s.ewLane = none then none else some s

/-- The function `printLogs()` prints, and reads the entries from `startIndex` up to
`logCount`. -/
def printLogs (s : State) : Option State :=
  let startIndex := if s.logCount > 20 then s.logCount - 20 else 0
  if startIndex < s.logCount ∧ (s.logBuffer.getD []).length < s.logCount then none else some s

/-- The function `handleSerialCommands()`. `serial` is the line waiting on the port, `none`
when `Serial.available()` is 0; `clock` is read if emergency mode is entered. -/
def handleSerialCommands (serial : Option String) (clock : Nat) (s : State) : Option State :=
  match serial with
  | none => some s
  | some line =>
    let command := normalize line
    if command = "help" ∨ command = "menu" then some s
    else if command = "status" then printStatistics s
    else if command = "logs" then printLogs s
    else if command = "emergency" then enterEmergencyMode clock s
    else if command = "reset" then
      match s.nsLane with
      | none => none
      | some ns =>
        match s.ewLane with
        | none => none
        | some ew =>
          some { s with nsLane := some { ns with vehicleCount := 0 },
                        ewLane := some { ew with vehicleCount := 0 },
                        logCount := 0 }
    else some s

/-! ## One pass of `loop()` -/

/-- What one pass of `loop()` meets. -/
structure LoopEnv where
  /-- the clock at the top of `loop` -/
  clock : Nat
  /-- the line waiting on the serial port, if any -/
  serial : Option String
  /-- the clock in `enterEmergencyMode` -/
  clockEmergency : Nat
  /-- the clock in `detectVehicles` -/
  clockDetect : Nat
  /-- the level of the NS sensor -/
  nsDetection : Bool
  /-- the level of the EW sensor -/
  ewDetection : Bool
  /-- what `updateTrafficSignals` meets -/
  update : UpdateEnv
  /-- the clock in `checkErrorStates` -/
  clockError : Nat

/-- The first statement of `loop()`, the end of emergency mode. -/
def emergencyTimeout (currentTime : Nat) (s : State) : State :=
  if s.emergencyMode &&
      decide (usub currentTime s.emergencyStartTime ≥ EMERGENCY_OVERRIDE_TIME) then
    { s with emergencyMode := false, currentState := .STATE_NS_GREEN,
             stateStartTime := currentTime }
  else s

/-- The function `loop()`. -/
def loop (env : LoopEnv) (s : State) : Option State := do
  let currentTime := millis env.clock
  let s1 := emergencyTimeout currentTime s
  let s2 ← handleSerialCommands env.serial env.clockEmergency s1
  let s3 ← detectVehicles env.clockDetect env.nsDetection env.ewDetection s2
  let s4 ← updateTrafficSignals env.update s3
  checkErrorStates env.clockError s4

/-- The passes of `loop()` one after the other. -/
def runLoops : List LoopEnv → State → Option State
  | [], s => some s
  | env :: rest, s =>
    match loop env s with
    | none => none
    | some s1 => runLoops rest s1

/-- The states of the sketch: after `initializeSystem`, then after any number of passes of
`loop`, whatever they meet. -/
inductive Reachable : State → Prop where
  | init (env : InitEnv) (s : State) (h : initializeSystem env = some s) : Reachable s
  | step (env : LoopEnv) (s s1 : State) (h : Reachable s) (hs : loop env s = some s1) :
      Reachable s1

/-! ## Views of a state -/

/-- The three lamps of the NS lane: red, yellow, green. -/
def nsShows (s : State) : Bool × Bool × Bool := (s.pins NS_RED, s.pins NS_YELLOW, s.pins NS_GREEN)

/-- The three lamps of the EW lane: red, yellow, green. -/
def ewShows (s : State) : Bool × Bool × Bool := (s.pins EW_RED, s.pins EW_YELLOW, s.pins EW_GREEN)

/-- Red only. -/
def RED : Bool × Bool × Bool := (true, false, false)
/-- Yellow only. -/
def YELLOW : Bool × Bool × Bool := (false, true, false)
/-- Green only. -/
def GREEN : Bool × Bool × Bool := (false, false, true)
/-- No lamp. -/
def DARK : Bool × Bool × Bool := (false, false, false)

/-- The pins of a lane: red, yellow, green. -/
def TrafficLane.wiring (l : TrafficLane) : Nat × Nat × Nat := (l.redPin, l.yellowPin, l.greenPin)

/-- The lanes that were allocated are wired to the pins of the `#define`s. -/
def Wired (s : State) : Prop :=
  (∀ l, s.nsLane = some l → l.wiring = (NS_RED, NS_YELLOW, NS_GREEN)) ∧
  (∀ l, s.ewLane = some l → l.wiring = (EW_RED, EW_YELLOW, EW_GREEN))

/-- What the lamps can show in each state of the controller, for the value `em` of
`emergencyMode`, the value `st` of `currentState`, the lamps `ns` and `ew` of the two lanes.
The last case is the sketch whose log buffer could not be allocated (`noLog`): its lamps stay
dark until the first change of signal, which writes through the null pointer. -/
def Phase (em : Bool) (st : TrafficState) (ns ew : Bool × Bool × Bool) (noLog : Prop) : Prop :=
  (em = true ∧ ns = RED ∧ ew = RED) ∨
  (em = false ∧ st = .STATE_NS_GREEN ∧ (ns = GREEN ∨ ns = RED) ∧ ew = RED) ∨
  (em = false ∧ st = .STATE_NS_YELLOW ∧ ns = YELLOW ∧ ew = RED) ∨
  (em = false ∧ st = .STATE_EW_GREEN ∧ ns = RED ∧ ew = GREEN) ∨
  (em = false ∧ st = .STATE_EW_YELLOW ∧ ns = RED ∧ ew = YELLOW) ∨
  (em = false ∧ st = .STATE_NS_GREEN ∧ ns = DARK ∧ ew = DARK ∧ noLog)

/-- The log buffer is null and `addLogEntry` would write to it. -/
def NoLog (s : State) : Prop := s.logBuffer = none ∧ s.logCount < s.logBufferSize

/-- The invariant of the controller. -/
def SafeInv (s : State) : Prop :=
  Wired s ∧ Phase s.emergencyMode s.currentState (nsShows s) (ewShows s) (NoLog s)

/-- Emergency mode as `enterEmergencyMode` leaves it: the flag is set, the state is
`STATE_EMERGENCY`, and both lanes are allocated. -/
def InEmergency (s : State) : Prop :=
  s.emergencyMode = true ∧ s.currentState = .STATE_EMERGENCY ∧
  s.nsLane ≠ none ∧ s.ewLane ≠ none

/-- The entries in use lie inside the block of the log, and `logBufferSize` is at least the
number of entries of the block. -/
def LogInv (s : State) : Prop :=
  s.logCount ≤ (s.logBuffer.getD []).length ∧ (s.logBuffer.getD []).length ≤ s.logBufferSize

/-- What holds in every state of a run besides `SafeInv`: emergency mode is as
`enterEmergencyMode` leaves it, the log is consistent, and the green time is at least
`MIN_GREEN_TIME`. -/
def RunInv (s : State) : Prop :=
  (s.emergencyMode = true → InEmergency s) ∧ LogInv s ∧ MIN_GREEN_TIME ≤ s.currentGreenTime

/-! ## Concrete runs -/

/-- A log entry of no content. -/
def blankEntry : LogEntry := { laneID := "", timestamp := 0, vehicleCount := 0, waitTime := 0, state := "" }

/-- A pass of `loop()` at the time `t`, with the line `serial` on the port, no vehicle on a
sensor, and a heap that gives what is asked. -/
def passAt (t : Nat) (serial : Option String) : LoopEnv :=
  { clock := t, serial := serial, clockEmergency := t, clockDetect := t,
    nsDetection := false, ewDetection := false,
    update := { clock := t,
                log1 := { clockStamp := t, clockWait := t, reallocOk := true, junk := blankEntry },
                log2 := { clockStamp := t, clockWait := t, reallocOk := true, junk := blankEntry } },
    clockError := t }

/-- A start at time 0 with every allocation granted. -/
def demoInit : InitEnv :=
  { nsAlloc := true, ewAlloc := true, logBlock := some (fun _ => blankEntry), clock := 0 }

/-- A state with every lamp off and no lane. -/
def offState : State :=
  { nsLane := none, ewLane := none, logBuffer := none, logBufferSize := 0, logCount := 0,
    currentState := .STATE_NS_GREEN, stateStartTime := 0, currentGreenTime := MIN_GREEN_TIME,
    emergencyMode := false, emergencyStartTime := 0, pins := fun _ => false }

/-- The state after `initializeSystem` on `demoInit`. -/
def demoStart : State := (initializeSystem demoInit).getD offState

/-- The state after passes at 3000 ms and 5000 ms: the EW lane has got green. -/
def demoCross : State := (runLoops [passAt 3000 none, passAt 5000 none] demoStart).getD offState

/-- The state after the command `emergency` at 100 ms. -/
def demoAlarm : State := (runLoops [passAt 100 (some "Emergency\r")] demoStart).getD offState

/-- The state after the command `emergency` at 100 ms and a pass at 15100 ms. -/
def demoResumed : State :=
  (runLoops [passAt 100 (some "Emergency\r"), passAt 15100 none] demoStart).getD offState

/-- A pass of `loop()` at the time `t` with no line on the port, the levels `ns` and `ew` on
the two sensors, and a heap that gives what is asked. -/
def senseAt (t : Nat) (ns ew : Bool) : LoopEnv :=
  { passAt t none with nsDetection := ns, ewDetection := ew }

/-- A lane of no content. -/
def blankLane : TrafficLane :=
  { laneID := "", redPin := 0, yellowPin := 0, greenPin := 0, sensorPin := 0, vehicleCount := 0,
    totalWaitTime := 0, lastDetectionTime := 0, vehiclePresent := false }

/-- Three vehicles come to the EW sensor and none to the NS sensor; then a pass at
3000 ms. -/
def queuePasses : List LoopEnv :=
  [senseAt 10 false true, senseAt 20 false false, senseAt 30 false true,
   senseAt 40 false false, senseAt 50 false true, passAt 3000 none]

/-- The state after `queuePasses`: the pass at 3000 ms has switched the NS lane to yellow. -/
def demoQueue : State := (runLoops queuePasses demoStart).getD offState

/-- The state `demoQueue` after `updateTrafficSignals` at 5000 ms: the EW lane has got
green. -/
def demoQueueGreen : State :=
  (updateTrafficSignals (passAt 5000 none).update demoQueue).getD offState

end Traffic

namespace WebScraper

/-! ## Frame lemmas -/

theorem scrapeURL_threadID (env : WorkerEnv) (d : ThreadData) :
    (scrapeURL env d).1.threadID = d.threadID := by
  unfold scrapeURL
  simp only []
  split_ifs <;> rfl

theorem scrapeURL_url (env : WorkerEnv) (d : ThreadData) :
    (scrapeURL env d).1.url = d.url := by
  unfold scrapeURL
  simp only []
  split_ifs <;> rfl

theorem scrapeURL_outputFile (env : WorkerEnv) (d : ThreadData) :
    (scrapeURL env d).1.outputFile = d.outputFile := by
  unfold scrapeURL
  simp only []
  split_ifs <;> rfl

theorem act_threadID (env : ScrapeEnv) (e : Event) (d : ThreadData) :
    (e.act env d).threadID = d.threadID := by
  cases e with
  | create i => unfold Event.act; simp only []; split_ifs <;> rfl
  | run i => exact scrapeURL_threadID _ _

theorem act_url (env : ScrapeEnv) (e : Event) (d : ThreadData) :
    (e.act env d).url = d.url := by
  cases e with
  | create i => unfold Event.act; simp only []; split_ifs <;> rfl
  | run i => exact scrapeURL_url _ _

theorem act_outputFile (env : ScrapeEnv) (e : Event) (d : ThreadData) :
    (e.act env d).outputFile = d.outputFile := by
  cases e with
  | create i => unfold Event.act; simp only []; split_ifs <;> rfl
  | run i => exact scrapeURL_outputFile _ _

/-- Row `j` after a run is row `j` before it, taken through the events of row `j` only. -/
theorem foldl_step_getElem? (env : ScrapeEnv) (sched : List Event) (table : List ThreadData)
    (j : Nat) :
    (sched.foldl (step env) table)[j]? =
      (table[j]?).map (fun d =>
        (sched.filter (fun e => e.idx = j)).foldl (fun d e => e.act env d) d) := by
  induction sched generalizing table with
  | nil => simp
  | cons e es ih =>
    rw [List.foldl_cons, ih, step, List.getElem?_modify, List.filter_cons]
    by_cases h : e.idx = j
    · cases hj : table[j]? <;> simp [h]
    · cases hj : table[j]? <;> simp [h]

theorem foldl_step_length (env : ScrapeEnv) (sched : List Event) (table : List ThreadData) :
    (sched.foldl (step env) table).length = table.length := by
  induction sched generalizing table with
  | nil => rfl
  | cons e es ih => rw [List.foldl_cons, ih, step, List.length_modify]

/-- The events of a run never write the `threadID`, the `url` or the `outputFile` of a row. -/
theorem foldl_act_frame (env : ScrapeEnv) (es : List Event) (d : ThreadData) :
    (es.foldl (fun d e => e.act env d) d).threadID = d.threadID ∧
    (es.foldl (fun d e => e.act env d) d).url = d.url ∧
    (es.foldl (fun d e => e.act env d) d).outputFile = d.outputFile := by
  induction es generalizing d with
  | nil => exact ⟨rfl, rfl, rfl⟩
  | cons e es ih =>
    rw [List.foldl_cons]
    obtain ⟨h1, h2, h3⟩ := ih (e.act env d)
    exact ⟨h1.trans (act_threadID env e d), h2.trans (act_url env e d),
      h3.trans (act_outputFile env e d)⟩

/-! ## The table through a scraping run -/

/-- The table after `startScraping` is the table before it, taken through the schedule, or
the table before it when the function returns early. -/
theorem startScraping_table (env : ScrapeEnv) (sched : List Event) (s : State) :
    (startScraping env sched s).1.threadDataArray = s.threadDataArray ∨
    (startScraping env sched s).1.threadDataArray =
      sched.foldl (step env) s.threadDataArray := by
  unfold startScraping
  split_ifs
  · exact Or.inl rfl
  · exact Or.inl rfl
  · exact Or.inr rfl

theorem startScraping_urlCount (env : ScrapeEnv) (sched : List Event) (s : State) :
    (startScraping env sched s).1.urlCount = s.urlCount := by
  unfold startScraping
  split_ifs <;> rfl

/-- Two valid schedules of the same run give the same table. -/
theorem foldl_step_valid_eq (env : ScrapeEnv) (n : Nat) (sched1 sched2 : List Event)
    (h1 : ValidSchedule env n sched1) (h2 : ValidSchedule env n sched2)
    (table : List ThreadData) :
    sched1.foldl (step env) table = sched2.foldl (step env) table := by
  apply List.ext_getElem?
  intro j
  rw [foldl_step_getElem?, foldl_step_getElem?]
  by_cases hj : j < n
  · rw [h1.2.2 j hj, h2.2.2 j hj]
  · have e1 : sched1.filter (fun e => e.idx = j) = [] := by
      rw [List.filter_eq_nil_iff]
      intro e he
      have := h1.2.1 e he
      simp only [decide_eq_true_eq]
      omega
    have e2 : sched2.filter (fun e => e.idx = j) = [] := by
      rw [List.filter_eq_nil_iff]
      intro e he
      have := h2.2.1 e he
      simp only [decide_eq_true_eq]
      omega
    rw [e1, e2]

/-- C1: whatever the workers meet and in whatever order they run, `startScraping` leaves
`urlCount` and the length of the table as they were, and every position below `urlCount`
that held a row whose `threadID` is its position still holds such a row. -/
theorem startScraping_keeps_every_row (env : ScrapeEnv) (sched : List Event) (s : State)
    (h : ∀ i < s.urlCount, ∃ d, s.threadDataArray[i]? = some d ∧ d.threadID = (i : Int)) :
    (startScraping env sched s).1.urlCount = s.urlCount ∧
    (startScraping env sched s).1.threadDataArray.length = s.threadDataArray.length ∧
    ∀ i < s.urlCount, ∃ d, (startScraping env sched s).1.threadDataArray[i]? = some d ∧
      d.threadID = (i : Int) := by
  refine ⟨startScraping_urlCount env sched s, ?_, ?_⟩
  · rcases startScraping_table env sched s with ht | ht
    · rw [ht]
    · rw [ht, foldl_step_length]
  · intro i hi
    obtain ⟨d, hd, hid⟩ := h i hi
    rcases startScraping_table env sched s with ht | ht
    · exact ⟨d, by rw [ht]; exact hd, hid⟩
    · rw [ht, foldl_step_getElem?, hd]
      exact ⟨_, rfl, by rw [(foldl_act_frame env _ d).1]; exact hid⟩

/-! ## Schedules that exist -/

/-- In a list without repetition, the entries equal to a member are that member, once. -/
theorem filter_eq_singleton (l : List Nat) (i : Nat) (hnd : l.Nodup) (hi : i ∈ l) :
    l.filter (fun k => k = i) = [i] := by
  have h := List.filter_eq l i
  have hc : List.count i l = 1 := List.count_eq_one_of_mem hnd hi
  rw [hc] at h
  simpa using h

/-- Creating all threads and then running them in any order that names every row once is a
valid schedule. -/
theorem batchSchedule_valid (env : ScrapeEnv) (n : Nat) (order : List Nat)
    (h : order.Perm (List.range n)) : ValidSchedule env n (batchSchedule env n order) := by
  have hnd : order.Nodup := h.nodup_iff.mpr (List.nodup_range n)
  refine ⟨?_, ?_, ?_⟩
  · unfold batchSchedule
    rw [List.filterMap_append, List.filterMap_map, List.filterMap_map]
    have e1 : (Event.created? ∘ Event.create) = some := rfl
    have e2 : (Event.created? ∘ Event.run) = fun _ => none := rfl
    rw [e1, e2, List.filterMap_some]
    simp
  · intro e he
    unfold batchSchedule at he
    rw [List.mem_append, List.mem_map, List.mem_map] at he
    rcases he with ⟨i, hi, rfl⟩ | ⟨i, hi, rfl⟩
    · exact List.mem_range.mp hi
    · exact List.mem_range.mp (h.mem_iff.mp (List.mem_filter.mp hi).1)
  · intro i hi
    unfold batchSchedule rowEvents
    rw [List.filter_append, List.filter_map, List.filter_map]
    have e1 : ((fun e : Event => decide (e.idx = i)) ∘ Event.create) =
        fun k => decide (k = i) := rfl
    have e2 : ((fun e : Event => decide (e.idx = i)) ∘ Event.run) =
        fun k => decide (k = i) := rfl
    rw [e1, e2, filter_eq_singleton _ i (List.nodup_range n) (List.mem_range.mpr hi)]
    by_cases hc : env.createOk i = true
    · have hm : i ∈ order.filter (fun k => env.createOk k) :=
        List.mem_filter.mpr ⟨h.mem_iff.mpr (List.mem_range.mpr hi), hc⟩
      rw [filter_eq_singleton _ i (hnd.filter _) hm]
      simp [hc]
    · have hm : (order.filter (fun k => env.createOk k)).filter (fun k => k = i) = [] := by
        rw [List.filter_eq_nil_iff]
        intro k hk
        have hk2 := (List.mem_filter.mp hk).2
        simp only [decide_eq_true_eq]
        rintro rfl
        exact hc hk2
      rw [hm]
      simp [hc]

/-- Running every thread to its end as soon as it is created is a valid schedule. -/
theorem eagerSchedule_valid (env : ScrapeEnv) (n : Nat) :
    ValidSchedule env n (eagerSchedule env n) := by
  have hidx : ∀ k, ∀ e ∈ rowEvents env k, e.idx = k := by
    intro k e he
    unfold rowEvents at he
    split_ifs at he <;> simp at he <;> rcases he with rfl | rfl <;> rfl
  have hcr : ∀ k, (rowEvents env k).filterMap Event.created? = [k] := by
    intro k
    unfold rowEvents
    split_ifs <;> rfl
  refine ⟨?_, ?_, ?_⟩
  · unfold eagerSchedule
    induction n with
    | zero => rfl
    | succ m ih =>
      rw [List.range_succ, List.flatMap_append, List.filterMap_append, ih]
      simp [hcr]
  · intro e he
    unfold eagerSchedule at he
    rw [List.mem_flatMap] at he
    obtain ⟨k, hk, hek⟩ := he
    rw [hidx k e hek]
    exact List.mem_range.mp hk
  · intro i hi
    unfold eagerSchedule
    induction n with
    | zero => omega
    | succ m ih =>
      rw [List.range_succ, List.flatMap_append, List.filter_append]
      have hlast : [m].flatMap (rowEvents env) = rowEvents env m := by simp
      rw [hlast]
      by_cases him : i < m
      · rw [ih him]
        have : (rowEvents env m).filter (fun e => e.idx = i) = [] := by
          rw [List.filter_eq_nil_iff]
          intro e he
          rw [decide_eq_true_eq, hidx m e he]
          omega
        rw [this, List.append_nil]
      · have him2 : i = m := by omega
        subst him2
        have h0 : ((List.range i).flatMap (rowEvents env)).filter (fun e => e.idx = i) = [] := by
          rw [List.filter_eq_nil_iff]
          intro e he
          rw [List.mem_flatMap] at he
          obtain ⟨k, hk, hek⟩ := he
          rw [decide_eq_true_eq, hidx k e hek]
          have := List.mem_range.mp hk
          omega
        have h1 : (rowEvents env i).filter (fun e => e.idx = i) = rowEvents env i := by
          rw [List.filter_eq_self]
          intro e he
          rw [decide_eq_true_eq]
          exact hidx i e he
        rw [h0, h1, List.nil_append]

/-- C2: two executions of the same run that differ only in how the creation loop and the
thread bodies are interleaved end in the same table and the same summary; in particular so do
two runs whose thread bodies execute in two different permutations of the rows; and every
row carries the `url` and the `outputFile` it carried before the run. -/
theorem startScraping_order_independent (env : ScrapeEnv) (s : State)
    (sched1 sched2 : List Event) (order1 order2 : List Nat)
    (h1 : ValidSchedule env s.urlCount sched1) (h2 : ValidSchedule env s.urlCount sched2)
    (hp1 : order1.Perm (List.range s.urlCount)) (hp2 : order2.Perm (List.range s.urlCount)) :
    startScraping env sched1 s = startScraping env sched2 s ∧
    startScraping env (batchSchedule env s.urlCount order1) s =
      startScraping env (batchSchedule env s.urlCount order2) s ∧
    ∀ i : Nat, ((startScraping env sched1 s).1.threadDataArray[i]?).map
          (fun d => (d.url, d.outputFile)) =
        (s.threadDataArray[i]?).map (fun d => (d.url, d.outputFile)) := by
  refine ⟨?_, ?_, ?_⟩
  · unfold startScraping
    rw [foldl_step_valid_eq env s.urlCount sched1 sched2 h1 h2]
  · unfold startScraping
    rw [foldl_step_valid_eq env s.urlCount _ _ (batchSchedule_valid env _ order1 hp1)
      (batchSchedule_valid env _ order2 hp2)]
  · intro i
    rcases startScraping_table env sched1 s with ht | ht
    · rw [ht]
    · rw [ht, foldl_step_getElem?]
      cases hd : s.threadDataArray[i]? with
      | none => rfl
      | some d =>
        simp only [Option.map_some']
        rw [(foldl_act_frame env _ d).2.1, (foldl_act_frame env _ d).2.2]

/-! ## The worker -/

/-- What `scrapeURL` returns on each of its four paths. -/
theorem scrapeURL_no_handle (env : WorkerEnv) (data : ThreadData)
    (hinit : env.curlInit = false) :
    scrapeURL env data = ({ data with success := 0, endTime := env.endTime }, []) := by
  unfold scrapeURL
  simp [hinit]

theorem scrapeURL_perform_failed (env : WorkerEnv) (data : ThreadData)
    (hinit : env.curlInit = true)
    (hres : (curl_easy_perform env.transfer (initialChunk env)).1 ≠ CURLE_OK) :
    scrapeURL env data = ({ data with success := 0, endTime := env.endTime }, []) := by
  unfold scrapeURL
  simp [hinit, hres]

theorem scrapeURL_fopen_failed (env : WorkerEnv) (data : ThreadData)
    (hinit : env.curlInit = true)
    (hres : (curl_easy_perform env.transfer (initialChunk env)).1 = CURLE_OK)
    (hopen : env.fopenOk = false) :
    scrapeURL env data = ({ data with success := 0, endTime := env.endTime }, []) := by
  unfold scrapeURL
  simp [hinit, hres, hopen]

theorem scrapeURL_saved (env : WorkerEnv) (data : ThreadData)
    (hinit : env.curlInit = true)
    (hres : (curl_easy_perform env.transfer (initialChunk env)).1 = CURLE_OK)
    (hopen : env.fopenOk = true) :
    scrapeURL env data =
      ({ data with
          success := 1,
          dataSize := (curl_easy_perform env.transfer
            (initialChunk env)).2.size,
          endTime := env.endTime },
        [{ path := data.outputFile,
           bytes := ((curl_easy_perform env.transfer
              (initialChunk env)).2.data.take
                (curl_easy_perform env.transfer
                  (initialChunk env)).2.size).take env.fwriteStored }]) := by
  unfold scrapeURL
  simp [hinit, hres, hopen]

/-- C3 (as amended): for every row, when the transport call fails the row ends with
`success = 0` and with the `dataSize` it had before the call. -/
theorem scrapeURL_transport_failure (env : WorkerEnv) (data : ThreadData)
    (hinit : env.curlInit = true)
    (hres : (curl_easy_perform env.transfer (initialChunk env)).1 ≠ CURLE_OK) :
    (scrapeURL env data).1.success = 0 ∧
    (scrapeURL env data).1.dataSize = data.dataSize := by
  rw [scrapeURL_perform_failed env data hinit hres]
  exact ⟨rfl, rfl⟩

/-- C4: when the transport call succeeds and `fopen` fails, the row ends with `success = 0`
and the worker creates no file and writes no byte. -/
theorem scrapeURL_fopen_failure (env : WorkerEnv) (data : ThreadData)
    (hinit : env.curlInit = true)
    (hres : (curl_easy_perform env.transfer (initialChunk env)).1 = CURLE_OK)
    (hopen : env.fopenOk = false) :
    (scrapeURL env data).1.success = 0 ∧ (scrapeURL env data).2 = [] := by
  rw [scrapeURL_fopen_failed env data hinit hres hopen]
  exact ⟨rfl, rfl⟩

/-- C5 (as amended): once the transport call has succeeded and the file is open, the row ends
with `success = 1` and `dataSize` equal to the number of bytes buffered, however few of them
`fwrite` stores; the bytes stored are a prefix of the buffered body, so never more than
`dataSize`. -/
theorem scrapeURL_success_ignores_fwrite (env : WorkerEnv) (data : ThreadData)
    (hinit : env.curlInit = true)
    (hres : (curl_easy_perform env.transfer (initialChunk env)).1 = CURLE_OK)
    (hopen : env.fopenOk = true) :
    (scrapeURL env data).1.success = 1 ∧
    (scrapeURL env data).1.dataSize =
      (curl_easy_perform env.transfer (initialChunk env)).2.size ∧
    ∃ stored, (scrapeURL env data).2 = [{ path := data.outputFile, bytes := stored }] ∧
      stored = ((curl_easy_perform env.transfer (initialChunk env)).2.data.take
        (curl_easy_perform env.transfer (initialChunk env)).2.size).take
          env.fwriteStored ∧
      stored.length ≤ env.fwriteStored ∧
      stored.length ≤ (scrapeURL env data).1.dataSize := by
  rw [scrapeURL_saved env data hinit hres hopen]
  refine ⟨rfl, rfl, _, rfl, rfl, ?_, ?_⟩
  · rw [List.length_take]
    exact Nat.min_le_left _ _
  · rw [List.length_take, List.length_take]
    exact le_trans (Nat.min_le_right _ _) (Nat.min_le_left _ _)

/-! ## The response buffer -/

theorem realloc_length (block : List Byte) (n : Nat) : (realloc block n).length = n := by
  unfold realloc
  rw [List.length_take, List.length_append, List.length_replicate]
  omega

theorem realloc_take (block : List Byte) (n k : Nat) (hk : k ≤ block.length) (hn : k ≤ n) :
    (realloc block n).take k = block.take k := by
  unfold realloc
  rw [List.take_take, Nat.min_eq_left hn, List.take_append_of_le_length hk]

/-- What a successful `writeCallback` leaves: the value returned, the new size, the body
bytes, the length of the block and the terminating 0. -/
theorem writeCallback_ok (contents : List Byte) (size nmemb : Nat) (mem : MemoryStruct)
    (hlen : contents.length = size * nmemb) (hblk : mem.size ≤ mem.data.length) :
    (writeCallback true contents size nmemb mem).1 = size * nmemb ∧
    (writeCallback true contents size nmemb mem).2.size = mem.size + size * nmemb ∧
    (writeCallback true contents size nmemb mem).2.data.take (mem.size + size * nmemb) =
      mem.data.take mem.size ++ contents ∧
    (writeCallback true contents size nmemb mem).2.data.length = mem.size + size * nmemb + 1 ∧
    (writeCallback true contents size nmemb mem).2.data[mem.size + size * nmemb]? =
      some 0 := by
  have hptr := realloc_length mem.data (mem.size + size * nmemb + 1)
  have hcop : (memcpy (realloc mem.data (mem.size + size * nmemb + 1)) mem.size contents
      (size * nmemb)).length = mem.size + size * nmemb + 1 := by
    unfold memcpy
    simp only [List.length_append, List.length_take, List.length_drop, hptr, hlen]
    omega
  have htake : (memcpy (realloc mem.data (mem.size + size * nmemb + 1)) mem.size contents
      (size * nmemb)).take (mem.size + size * nmemb) = mem.data.take mem.size ++ contents := by
    unfold memcpy
    have h1 : ((realloc mem.data (mem.size + size * nmemb + 1)).take mem.size ++
        contents.take (size * nmemb)).length = mem.size + size * nmemb := by
      simp only [List.length_append, List.length_take, hptr, hlen]
      omega
    rw [List.take_append_of_le_length (le_of_eq h1.symm), List.take_of_length_le (le_of_eq h1),
      realloc_take _ _ _ hblk (by omega),
      List.take_of_length_le (le_of_eq hlen)]
  refine ⟨rfl, rfl, ?_, ?_, ?_⟩
  · show ((memcpy (realloc mem.data (mem.size + size * nmemb + 1)) mem.size contents
      (size * nmemb)).set (mem.size + size * nmemb) 0).take (mem.size + size * nmemb) = _
    rw [List.set_take, List.set_eq_of_length_le (by rw [List.length_take]; omega), htake]
  · show ((memcpy (realloc mem.data (mem.size + size * nmemb + 1)) mem.size contents
      (size * nmemb)).set (mem.size + size * nmemb) 0).length = _
    rw [List.length_set, hcop]
  · show ((memcpy (realloc mem.data (mem.size + size * nmemb + 1)) mem.size contents
      (size * nmemb)).set (mem.size + size * nmemb) 0)[mem.size + size * nmemb]? = _
    rw [List.getElem?_set_self (by rw [hcop]; omega)]

/-- When no callback aborted the transfer, the buffer size has grown by the sizes of all
the deliveries. -/
theorem deliver_size (chunks : List Chunk) (mem : MemoryStruct)
    (h : (deliver chunks mem).1 = false) :
    (deliver chunks mem).2.size =
      mem.size + (chunks.map (fun c => c.size * c.nmemb)).sum := by
  induction chunks generalizing mem with
  | nil => simp [deliver]
  | cons c cs ih =>
    unfold deliver at h ⊢
    simp only [] at h ⊢
    cases hr : c.reallocOk with
    | false =>
      simp only [writeCallback, hr, if_true] at h ⊢
      by_cases h0 : 0 = c.size * c.nmemb
      · simp only [h0.symm, ne_eq, not_true_eq_false, if_false] at h ⊢
        rw [ih mem h]
        simp [← h0]
      · simp [h0] at h
    | true =>
      simp only [writeCallback, hr, Bool.true_eq_false, if_false, ne_eq, not_true_eq_false] at h ⊢
      rw [ih _ h]
      simp [Nat.add_assoc]

/-- Deliveries that all find memory arrive in the buffer one after the other. -/
theorem deliver_append (chunks : List Chunk) (mem : MemoryStruct)
    (hall : ∀ c ∈ chunks, c.reallocOk = true ∧ c.contents.length = c.size * c.nmemb)
    (hblk : mem.size ≤ mem.data.length) :
    (deliver chunks mem).1 = false ∧
    (deliver chunks mem).2.data.take (deliver chunks mem).2.size =
      mem.data.take mem.size ++ (chunks.map Chunk.contents).flatten ∧
    (deliver chunks mem).2.size ≤ (deliver chunks mem).2.data.length := by
  induction chunks generalizing mem with
  | nil => simp [deliver, hblk]
  | cons c cs ih =>
    obtain ⟨hr, hlen⟩ := hall c (List.mem_cons_self _ _)
    obtain ⟨w1, w2, w3, w4, _⟩ := writeCallback_ok c.contents c.size c.nmemb mem hlen hblk
    have hrest : ∀ c' ∈ cs, c'.reallocOk = true ∧ c'.contents.length = c'.size * c'.nmemb :=
      fun c' hc' => hall c' (List.mem_cons_of_mem _ hc')
    have hblk2 : (writeCallback true c.contents c.size c.nmemb mem).2.size ≤
        (writeCallback true c.contents c.size c.nmemb mem).2.data.length := by
      rw [w2, w4]; omega
    obtain ⟨i1, i2, i3⟩ := ih _ hrest hblk2
    unfold deliver
    simp only [hr, w1, ne_eq, not_true_eq_false, if_false]
    refine ⟨i1, ?_, i3⟩
    rw [i2, w2, w3, List.map_cons, List.flatten_cons, List.append_assoc]

/-- When `curl_easy_perform` returns `CURLE_OK`, no callback aborted the transfer. -/
theorem perform_ok_not_aborted (t : Transfer) (mem : MemoryStruct)
    (h : (curl_easy_perform t mem).1 = CURLE_OK) :
    (deliver t.chunks mem).1 = false ∧ (curl_easy_perform t mem).2 = (deliver t.chunks mem).2 := by
  unfold curl_easy_perform at h ⊢
  cases hd : (deliver t.chunks mem).1 with
  | true => simp [hd, CURLE_WRITE_ERROR, CURLE_OK] at h
  | false => simp [hd]

/-- C6: when the handle exists, the transport call returns `CURLE_OK` and the file opens,
the row ends with `success = 1` and `dataSize` equal to the buffer's `size`, which is the sum
of `size * nmemb` over the deliveries made to `writeCallback`. -/
theorem scrapeURL_success_dataSize (env : WorkerEnv) (data : ThreadData)
    (hinit : env.curlInit = true)
    (hres : (curl_easy_perform env.transfer (initialChunk env)).1 = CURLE_OK)
    (hopen : env.fopenOk = true) :
    (scrapeURL env data).1.success = 1 ∧
    (scrapeURL env data).1.dataSize =
      (curl_easy_perform env.transfer (initialChunk env)).2.size ∧
    (scrapeURL env data).1.dataSize =
      (env.transfer.chunks.map (fun c => c.size * c.nmemb)).sum := by
  obtain ⟨h1, h2⟩ := perform_ok_not_aborted _ _ hres
  rw [scrapeURL_saved env data hinit hres hopen]
  refine ⟨rfl, rfl, ?_⟩
  show (curl_easy_perform env.transfer (initialChunk env)).2.size = _
  rw [h2, deliver_size _ _ h1]
  simp [initialChunk]

/-- C10: a `writeCallback` whose `realloc` succeeds returns `size * nmemb`, grows `size` by
exactly that much, and leaves as body the previous body followed by the bytes of the chunk;
and a sequence of such calls leaves the previous body followed by the chunks in arrival
order. -/
theorem writeCallback_pure_append (contents : List Byte) (size nmemb : Nat)
    (mem : MemoryStruct) (chunks : List Chunk)
    (hlen : contents.length = size * nmemb) (hblk : mem.size ≤ mem.data.length)
    (hall : ∀ c ∈ chunks, c.reallocOk = true ∧ c.contents.length = c.size * c.nmemb) :
    ((writeCallback true contents size nmemb mem).1 = size * nmemb ∧
     (writeCallback true contents size nmemb mem).2.size = mem.size + size * nmemb ∧
     (writeCallback true contents size nmemb mem).2.data.take
        (writeCallback true contents size nmemb mem).2.size =
       mem.data.take mem.size ++ contents) ∧
    ((deliver chunks mem).1 = false ∧
     (deliver chunks mem).2.size = mem.size + (chunks.map (fun c => c.size * c.nmemb)).sum ∧
     (deliver chunks mem).2.data.take (deliver chunks mem).2.size =
       mem.data.take mem.size ++ (chunks.map Chunk.contents).flatten) := by
  obtain ⟨w1, w2, w3, _, _⟩ := writeCallback_ok contents size nmemb mem hlen hblk
  obtain ⟨d1, d2, _⟩ := deliver_append chunks mem hall hblk
  refine ⟨⟨w1, w2, ?_⟩, d1, deliver_size chunks mem d1, d2⟩
  rw [w2, w3]

/-! ## The summary -/

/-- The loop of the summary counts the successful rows and adds up their sizes modulo
`SIZE_MODULUS`. -/
theorem tally_eq (rows : List ThreadData) (acc : Nat × Nat) (hacc : acc.2 < SIZE_MODULUS) :
    (tally rows acc).1 = acc.1 + (rows.filter (fun d => d.success ≠ 0)).length ∧
    (tally rows acc).2 =
      (acc.2 + ((rows.filter (fun d => d.success ≠ 0)).map ThreadData.dataSize).sum) %
        SIZE_MODULUS := by
  induction rows generalizing acc with
  | nil => simp [tally, Nat.mod_eq_of_lt hacc]
  | cons d ds ih =>
    unfold tally
    by_cases hd : d.success ≠ 0
    · have hlt : ((acc.1 + 1, (acc.2 + d.dataSize) % SIZE_MODULUS) : Nat × Nat).2 <
          SIZE_MODULUS := Nat.mod_lt _ (by unfold SIZE_MODULUS; positivity)
      obtain ⟨i1, i2⟩ := ih _ hlt
      rw [if_pos hd, i1, i2, List.filter_cons_of_pos (by simpa using hd)]
      constructor
      · simp only [List.length_cons]; omega
      · simp only [List.map_cons, List.sum_cons]
        rw [Nat.add_mod, Nat.mod_mod, ← Nat.add_mod, Nat.add_assoc]
    · obtain ⟨i1, i2⟩ := ih acc hacc
      rw [if_neg hd, i1, i2, List.filter_cons_of_neg (by simpa using hd)]
      exact ⟨rfl, rfl⟩

/-- C7: a run of `startScraping` that gets to its summary reports as total the sum of
`dataSize` over the rows below `urlCount` whose `success` is not 0, taken modulo
`SIZE_MODULUS`; so it reports that exact sum whenever the sum fits a `size_t`. Rows whose
`success` is 0 are left out of it. -/
theorem startScraping_totalData (env : ScrapeEnv) (sched : List Event) (s : State)
    (hn : s.urlCount ≠ 0) (halloc : env.threadsAlloc = true) :
    ∃ sm, (startScraping env sched s).2 = some sm ∧
      sm.totalData = successData (startScraping env sched s).1 % SIZE_MODULUS ∧
      (successData (startScraping env sched s).1 < SIZE_MODULUS →
        sm.totalData = successData (startScraping env sched s).1) := by
  have h0 : ((0, 0) : Nat × Nat).2 < SIZE_MODULUS := by unfold SIZE_MODULUS; norm_num
  have key : (startScraping env sched s) =
      ({ s with threadDataArray := sched.foldl (step env) s.threadDataArray },
        some { totalTime := env.overallEnd - env.overallStart,
               successCount := (tally ((sched.foldl (step env) s.threadDataArray).take
                 s.urlCount) (0, 0)).1,
               totalData := (tally ((sched.foldl (step env) s.threadDataArray).take
                 s.urlCount) (0, 0)).2 }) := by
    unfold startScraping
    simp [hn, halloc]
  rw [key]
  refine ⟨_, rfl, ?_, ?_⟩
  · show (tally _ (0, 0)).2 = _
    rw [(tally_eq _ _ h0).2]
    simp [successData]
  · intro hfit
    show (tally _ (0, 0)).2 = _
    rw [(tally_eq _ _ h0).2]
    simp only [Nat.zero_add]
    exact Nat.mod_eq_of_lt hfit

/-! ## Page paths -/

theorem digitChar_toNat (k : Nat) (hk : k < 10) : (Nat.digitChar k).toNat - 48 = k := by
  interval_cases k <;> rfl

/-- Reading the digits that `Nat.toDigitsCore` puts in front of `ds` gives back the number. -/
theorem toDigitsCore_value (fuel : Nat) : ∀ (n : Nat) (ds : List Char), n < fuel →
    (Nat.toDigitsCore 10 fuel n ds).foldl (fun a c => 10 * a + (c.toNat - 48)) 0 =
      ds.foldl (fun a c => 10 * a + (c.toNat - 48)) n := by
  induction fuel with
  | zero => intro n ds h; omega
  | succ f ih =>
    intro n ds h
    unfold Nat.toDigitsCore
    simp only []
    by_cases h0 : n / 10 = 0
    · rw [if_pos h0, List.foldl_cons, digitChar_toNat _ (Nat.mod_lt _ (by norm_num))]
      have : n % 10 = n := Nat.mod_eq_of_lt (by omega)
      rw [this, Nat.mul_zero, Nat.zero_add]
    · rw [if_neg h0, ih (n / 10) _ (by omega), List.foldl_cons,
        digitChar_toNat _ (Nat.mod_lt _ (by norm_num))]
      have : 10 * (n / 10) + n % 10 = n := Nat.div_add_mod n 10
      rw [this]

/-- The decimal text of a number determines the number. -/
theorem toString_nat_injective (a b : Nat) (h : toString a = toString b) : a = b := by
  have h1 : Nat.repr a = Nat.repr b := h
  unfold Nat.repr Nat.toDigits at h1
  have h2 : Nat.toDigitsCore 10 (a + 1) a [] = Nat.toDigitsCore 10 (b + 1) b [] :=
    congrArg String.data h1
  have ha := toDigitsCore_value (a + 1) a [] (by omega)
  have hb := toDigitsCore_value (b + 1) b [] (by omega)
  rw [h2, hb] at ha
  simpa using ha.symm

/-- Different page numbers give different paths. -/
theorem pagePath_injective (a b : Nat) (h : pagePath a = pagePath b) : a = b := by
  unfold pagePath at h
  apply toString_nat_injective
  have h1 := congrArg String.data h
  simp only [String.data_append] at h1
  have h2 := List.append_cancel_right h1
  have h3 := List.append_cancel_left h2
  exact String.ext h3

/-! ## The table as it is built -/

/-- Filling the row at `urlCount` with its position and page path, and counting it, keeps
the rows in order. -/
theorem rowsFrom_push (k : Nat) (s : State) (f : ThreadData → ThreadData)
    (hf : ∀ d, (f d).threadID = (s.urlCount : Int) ∧
      (f d).outputFile = pagePath (s.urlCount + 1))
    (hlt : s.urlCount < MAX_URLS) (h : RowsFrom k s) :
    RowsFrom k { threadDataArray := s.threadDataArray.modify f s.urlCount,
                 urlCount := s.urlCount + 1 } := by
  obtain ⟨hlen, hrows⟩ := h
  refine ⟨by simp only [List.length_modify]; exact hlen, ?_⟩
  intro i hki hi
  simp only at hi ⊢
  by_cases hin : i = s.urlCount
  · subst hin
    have hex : s.urlCount < s.threadDataArray.length := by rw [hlen]; exact hlt
    rw [List.getElem?_modify_eq, List.getElem?_eq_getElem hex]
    exact ⟨_, rfl, (hf _).1, (hf _).2⟩
  · rw [List.getElem?_modify_ne _ _ (fun h => hin h.symm)]
    exact hrows i hki (by omega)

theorem addURLsLoop_rowsFrom (k : Nat) (stdin : List UrlPrompt) (s : State)
    (h : RowsFrom k s) : RowsFrom k (addURLsLoop stdin s) := by
  induction stdin generalizing s with
  | nil => exact h
  | cons p rest ih =>
    unfold addURLsLoop
    simp only []
    split_ifs with h1 h2 h3
    · exact h
    · exact ih s h
    · exact ih _ (rowsFrom_push k s _ (fun d => ⟨rfl, rfl⟩) h1 h)
    · exact h

theorem addURLs_rowsFrom (k : Nat) (stdin : List UrlPrompt) (s : State)
    (h : RowsFrom k s) : RowsFrom k (addURLs stdin s) := by
  unfold addURLs
  split_ifs
  · exact h
  · exact addURLsLoop_rowsFrom k stdin s h

theorem loadURLsLoop_rowsFrom (k : Nat) (lines : List String) (s : State)
    (h : RowsFrom k s) : RowsFrom k (loadURLsLoop lines s) := by
  induction lines generalizing s with
  | nil => exact h
  | cons line rest ih =>
    unfold loadURLsLoop
    simp only []
    split_ifs with h1 h2
    · exact ih _ (rowsFrom_push k s _ (fun d => ⟨rfl, rfl⟩) h1 h)
    · exact ih s h
    · exact h

theorem loadURLsFromFile_rowsFrom (file : Option (List String)) (s : State)
    (h : RowsFrom 0 s) : RowsFrom 0 (loadURLsFromFile file s) := by
  cases file with
  | none => exact h
  | some lines =>
    exact loadURLsLoop_rowsFrom 0 lines _ ⟨h.1, fun i _ hi => absurd hi (Nat.not_lt_zero i)⟩

theorem startScraping_rowsFrom (k : Nat) (env : ScrapeEnv) (sched : List Event) (s : State)
    (h : RowsFrom k s) : RowsFrom k (startScraping env sched s).1 := by
  obtain ⟨hlen, hrows⟩ := h
  rcases startScraping_table env sched s with ht | ht
  · refine ⟨by rw [ht]; exact hlen, ?_⟩
    intro i hki hi
    rw [startScraping_urlCount] at hi
    rw [ht]
    exact hrows i hki hi
  · refine ⟨by rw [ht, foldl_step_length]; exact hlen, ?_⟩
    intro i hki hi
    rw [startScraping_urlCount] at hi
    obtain ⟨d, hd, hid, hpath⟩ := hrows i hki hi
    rw [ht, foldl_step_getElem?, hd]
    obtain ⟨f1, _, f3⟩ := foldl_act_frame env (sched.filter (fun e => e.idx = i)) d
    exact ⟨_, rfl, f1.trans hid, f3.trans hpath⟩

theorem initializeSystem_rowsFrom (rows : Nat → ThreadData) (s : State)
    (h : initializeSystem (some rows) = some s) : RowsFrom 0 s := by
  unfold initializeSystem at h
  simp only [Option.some.injEq] at h
  subst h
  exact ⟨by simp, fun i _ hi => absurd hi (Nat.not_lt_zero i)⟩

/-- In every state the program can be in, the rows below `urlCount` are in order. -/
theorem reachable_rowsFrom (s : State) (h : Reachable s) : RowsFrom 0 s := by
  induction h with
  | init rows s h => exact initializeSystem_rowsFrom rows s h
  | add stdin s _ ih => exact addURLs_rowsFrom 0 stdin s ih
  | load file s _ ih => exact loadURLsFromFile_rowsFrom file s ih
  | scrape env sched s _ _ ih => exact startScraping_rowsFrom 0 env sched s ih

/-- The rows `loadURLsLoop` stores: it counts the URLs of the lines, up to `MAX_URLS` rows in
all, leaves the rows below the old `urlCount` as they are, and gives each new row its URL,
its position and its page path, with `success` and `dataSize` at 0. -/
theorem loadURLsLoop_rows (lines : List String) (s : State)
    (hlen : s.threadDataArray.length = MAX_URLS) (hle : s.urlCount ≤ MAX_URLS) :
    (loadURLsLoop lines s).urlCount = min (s.urlCount + (fileURLs lines).length) MAX_URLS ∧
    ∀ i : Nat,
      (i < s.urlCount → (loadURLsLoop lines s).threadDataArray[i]? = s.threadDataArray[i]?) ∧
      (s.urlCount ≤ i → i < (loadURLsLoop lines s).urlCount →
        ∃ d0 u, s.threadDataArray[i]? = some d0 ∧ (fileURLs lines)[i - s.urlCount]? = some u ∧
          (loadURLsLoop lines s).threadDataArray[i]? =
            some { d0 with url := u, threadID := (i : Int), outputFile := pagePath (i + 1),
                           success := 0, dataSize := 0 }) := by
  induction lines generalizing s with
  | nil =>
    refine ⟨by simp [loadURLsLoop, fileURLs]; omega, fun i => ⟨fun _ => rfl, fun h1 h2 => ?_⟩⟩
    simp only [loadURLsLoop] at h2
    omega
  | cons line rest ih =>
    unfold loadURLsLoop
    simp only []
    by_cases h1 : s.urlCount < MAX_URLS
    · rw [if_pos h1]
      by_cases h2 : (stripNewline line).length > 0
      · rw [if_pos h2]
        have hfu : fileURLs (line :: rest) = stripNewline line :: fileURLs rest := by
          simp [fileURLs, List.filter_cons, h2]
        have hex : s.urlCount < s.threadDataArray.length := by rw [hlen]; exact h1
        obtain ⟨hc, hrows⟩ := ih
          { threadDataArray := s.threadDataArray.modify
              (fun d => { d with url := stripNewline line, threadID := (s.urlCount : Int),
                                 outputFile := pagePath (s.urlCount + 1),
                                 success := 0, dataSize := 0 })
              s.urlCount,
            urlCount := s.urlCount + 1 }
          (by simp only [List.length_modify]; exact hlen) (by simp only; omega)
        simp only at hc hrows
        refine ⟨by rw [hc, hfu, List.length_cons]; omega, fun i => ⟨fun hi => ?_, fun hi1 hi2 => ?_⟩⟩
        · rw [(hrows i).1 (by omega), List.getElem?_modify_ne _ _ (by omega)]
        · by_cases hin : i = s.urlCount
          · subst hin
            refine ⟨s.threadDataArray[s.urlCount], stripNewline line,
              List.getElem?_eq_getElem hex, by simp [hfu], ?_⟩
            rw [(hrows s.urlCount).1 (by omega), List.getElem?_modify_eq,
              List.getElem?_eq_getElem hex]
            rfl
          · obtain ⟨d0, u, hd0, hu, hr⟩ := (hrows i).2 (by omega) hi2
            rw [List.getElem?_modify_ne _ _ (fun h => hin h.symm)] at hd0
            refine ⟨d0, u, hd0, ?_, hr⟩
            rw [hfu]
            have : i - s.urlCount = (i - (s.urlCount + 1)) + 1 := by omega
            rw [this, List.getElem?_cons_succ]
            exact hu
      · rw [if_neg h2]
        have hfu : fileURLs (line :: rest) = fileURLs rest := by
          simp [fileURLs, List.filter_cons, h2]
        rw [hfu]
        exact ih s hlen hle
    · rw [if_neg h1]
      refine ⟨by omega, fun i => ⟨fun _ => rfl, fun hi1 hi2 => ?_⟩⟩
      omega

/-- The number of rows after `addURLsLoop` depends on the answers and on the number of rows
before, not on what the rows hold. -/
theorem addURLsLoop_urlCount (stdin : List UrlPrompt) (s s2 : State)
    (h : s2.urlCount = s.urlCount) :
    (addURLsLoop stdin s2).urlCount = (addURLsLoop stdin s).urlCount := by
  induction stdin generalizing s s2 with
  | nil => exact h
  | cons p rest ih =>
    unfold addURLsLoop
    simp only [h]
    split_ifs
    · exact h
    · exact ih s s2 h
    · exact ih _ _ rfl
    · exact h

/-- C8: in a table of `MAX_URLS` rows, every row that `addURLs` creates (the positions from
the old `urlCount` up to the new one) and every row below `urlCount` after
`loadURLsFromFile` has read a file holds as `outputFile` the text
`scraped_data/page_<i+1>.html` of its position `i`, whatever the URLs are.
`loadURLsFromFile` stores one row for each URL of the file, up to `MAX_URLS` rows: the row at
position `k` gets the URL number `k` of the file, the position `k` and the path of that
position. Built from the same answers or the same file, two tables have the same number of
rows and the same paths at the same positions. -/
theorem outputFile_by_position (s : State) (stdin : List UrlPrompt) (lines : List String)
    (i : Nat) (hlen : s.threadDataArray.length = MAX_URLS) :
    (s.urlCount ≤ i → i < (addURLs stdin s).urlCount →
      ∃ d, (addURLs stdin s).threadDataArray[i]? = some d ∧
        d.outputFile = "scraped_data/page_" ++ toString (i + 1) ++ ".html") ∧
    (i < (loadURLsFromFile (some lines) s).urlCount →
      ∃ d, (loadURLsFromFile (some lines) s).threadDataArray[i]? = some d ∧
        d.outputFile = "scraped_data/page_" ++ toString (i + 1) ++ ".html") ∧
    (loadURLsFromFile (some lines) s).urlCount = min (fileURLs lines).length MAX_URLS ∧
    (∀ k : Nat, k < (loadURLsFromFile (some lines) s).urlCount →
      ∃ d0 u, s.threadDataArray[k]? = some d0 ∧ (fileURLs lines)[k]? = some u ∧
        (loadURLsFromFile (some lines) s).threadDataArray[k]? =
          some { d0 with url := u, threadID := (k : Int),
                         outputFile := "scraped_data/page_" ++ toString (k + 1) ++ ".html",
                         success := 0, dataSize := 0 }) ∧
    (∀ s2 : State, s2.threadDataArray.length = MAX_URLS →
      (loadURLsFromFile (some lines) s2).urlCount =
        (loadURLsFromFile (some lines) s).urlCount ∧
      (∀ k : Nat, k < (loadURLsFromFile (some lines) s).urlCount →
        ((loadURLsFromFile (some lines) s2).threadDataArray[k]?).map ThreadData.outputFile =
          ((loadURLsFromFile (some lines) s).threadDataArray[k]?).map ThreadData.outputFile) ∧
      (s2.urlCount = s.urlCount →
        (addURLs stdin s2).urlCount = (addURLs stdin s).urlCount ∧
        ∀ k : Nat, s.urlCount ≤ k → k < (addURLs stdin s).urlCount →
          ((addURLs stdin s2).threadDataArray[k]?).map ThreadData.outputFile =
            ((addURLs stdin s).threadDataArray[k]?).map ThreadData.outputFile)) := by
  have hpath : ∀ n, pagePath n = "scraped_data/page_" ++ toString n ++ ".html" := by
    intro n
    unfold pagePath OUTPUT_DIR
    rw [String.append_assoc "scraped_data" "/page_"]
    rfl
  have hload : ∀ s1 : State, s1.threadDataArray.length = MAX_URLS →
      (loadURLsFromFile (some lines) s1).urlCount = min (fileURLs lines).length MAX_URLS ∧
      ∀ k : Nat, k < (loadURLsFromFile (some lines) s1).urlCount →
        ∃ d0 u, s1.threadDataArray[k]? = some d0 ∧ (fileURLs lines)[k]? = some u ∧
          (loadURLsFromFile (some lines) s1).threadDataArray[k]? =
            some { d0 with url := u, threadID := (k : Int),
                           outputFile := "scraped_data/page_" ++ toString (k + 1) ++ ".html",
                           success := 0, dataSize := 0 } := by
    intro s1 h1
    obtain ⟨hc, hrows⟩ := loadURLsLoop_rows lines { s1 with urlCount := 0 } h1 (Nat.zero_le _)
    refine ⟨by simpa using hc, fun k hk => ?_⟩
    obtain ⟨d0, u, hd0, hu, hr⟩ := (hrows k).2 (Nat.zero_le k) hk
    refine ⟨d0, u, hd0, by simpa using hu, ?_⟩
    rw [← hpath]
    exact hr
  have hadd : ∀ s1 : State, s1.threadDataArray.length = MAX_URLS → ∀ k : Nat,
      s1.urlCount ≤ k → k < (addURLs stdin s1).urlCount →
      ∃ d, (addURLs stdin s1).threadDataArray[k]? = some d ∧
        d.outputFile = "scraped_data/page_" ++ toString (k + 1) ++ ".html" := by
    intro s1 h1 k hki hi
    have h0 : RowsFrom s1.urlCount s1 := ⟨h1, fun j hj1 hj2 => absurd hj2 (by omega)⟩
    obtain ⟨d, hd, _, hp⟩ := (addURLs_rowsFrom s1.urlCount stdin s1 h0).2 k hki hi
    exact ⟨d, hd, hp.trans (hpath _)⟩
  refine ⟨hadd s hlen i, ?_, (hload s hlen).1, (hload s hlen).2, ?_⟩
  · intro hi
    obtain ⟨d0, u, -, -, hr⟩ := (hload s hlen).2 i hi
    exact ⟨_, hr, rfl⟩
  · intro s2 h2
    have hc2 : (loadURLsFromFile (some lines) s2).urlCount =
        (loadURLsFromFile (some lines) s).urlCount := by
      rw [(hload s2 h2).1, (hload s hlen).1]
    refine ⟨hc2, fun k hk => ?_, fun hcount => ?_⟩
    · obtain ⟨d0, u, -, -, hr⟩ := (hload s hlen).2 k hk
      obtain ⟨d2, u2, -, -, hr2⟩ := (hload s2 h2).2 k (by rw [hc2]; exact hk)
      rw [hr, hr2]
      rfl
    · have hca : (addURLs stdin s2).urlCount = (addURLs stdin s).urlCount := by
        unfold addURLs
        rw [hcount]
        split_ifs
        · exact hcount
        · exact addURLsLoop_urlCount stdin s s2 hcount
      refine ⟨hca, fun k hk1 hk2 => ?_⟩
      obtain ⟨d, hd, hp⟩ := hadd s hlen k hk1 hk2
      obtain ⟨d2, hd2, hp2⟩ := hadd s2 h2 k (by rw [hcount]; exact hk1) (by rw [hca]; exact hk2)
      rw [hd, hd2]
      simp only [Option.map_some', hp, hp2]

/-- C9: in every state the program can be in, two distinct positions below `urlCount` hold
different `outputFile`s, whatever their URLs. -/
theorem outputFile_distinct (s : State) (i j : Nat) (di dj : ThreadData)
    (hs : Reachable s) (hi : i < s.urlCount) (hj : j < s.urlCount) (hij : i ≠ j)
    (hdi : s.threadDataArray[i]? = some di) (hdj : s.threadDataArray[j]? = some dj) :
    di.outputFile ≠ dj.outputFile := by
  obtain ⟨_, hrows⟩ := reachable_rowsFrom s hs
  obtain ⟨d1, h1, _, p1⟩ := hrows i (Nat.zero_le i) hi
  obtain ⟨d2, h2, _, p2⟩ := hrows j (Nat.zero_le j) hj
  rw [hdi] at h1
  rw [hdj] at h2
  cases h1
  cases h2
  intro heq
  rw [p1, p2] at heq
  have := pagePath_injective _ _ heq
  omega

/-! ## Instances on concrete runs -/

theorem startScraping_keeps_every_row_witness :
    (startScraping demoEnv (eagerSchedule demoEnv 2) demoState).1.urlCount = 2 ∧
    (startScraping demoEnv (eagerSchedule demoEnv 2) demoState).1.threadDataArray.length = 20 ∧
    ((startScraping demoEnv (eagerSchedule demoEnv 2) demoState).1.threadDataArray[1]?).map
      ThreadData.threadID = some 1 := by
  have h := startScraping_keeps_every_row demoEnv (eagerSchedule demoEnv 2) demoState
    (by
      intro i hi
      have hi2 : i < 2 := hi
      interval_cases i
      · exact ⟨_, rfl, rfl⟩
      · exact ⟨_, rfl, rfl⟩)
  refine ⟨h.1, h.2.1, ?_⟩
  obtain ⟨d, hd, hid⟩ := h.2.2 1 (by decide)
  rw [hd, Option.map_some', hid]
  rfl

theorem startScraping_order_independent_witness :
    ValidSchedule demoEnv demoState.urlCount (eagerSchedule demoEnv 2) ∧
    ValidSchedule demoEnv demoState.urlCount (batchSchedule demoEnv 2 [1, 0]) ∧
    startScraping demoEnv (eagerSchedule demoEnv 2) demoState =
      startScraping demoEnv (batchSchedule demoEnv 2 [1, 0]) demoState ∧
    startScraping demoEnv (batchSchedule demoEnv demoState.urlCount [1, 0]) demoState =
      startScraping demoEnv (batchSchedule demoEnv demoState.urlCount [0, 1]) demoState :=
  ⟨by decide, by decide,
    (startScraping_order_independent demoEnv demoState (eagerSchedule demoEnv 2)
      (batchSchedule demoEnv 2 [1, 0]) [1, 0] [0, 1] (by decide) (by decide) (by decide)
      (by decide)).1,
    (startScraping_order_independent demoEnv demoState (eagerSchedule demoEnv 2)
      (batchSchedule demoEnv 2 [1, 0]) [1, 0] [0, 1] (by decide) (by decide) (by decide)
      (by decide)).2.1⟩

theorem scrapeURL_transport_failure_witness :
    timeoutWorker.curlInit = true ∧
    (curl_easy_perform timeoutWorker.transfer
      (initialChunk timeoutWorker)).1 ≠ CURLE_OK ∧
    (scrapeURL timeoutWorker demoRow).1.success = 0 ∧
    (scrapeURL timeoutWorker demoRow).1.dataSize = demoRow.dataSize :=
  ⟨by decide, by decide,
    scrapeURL_transport_failure timeoutWorker demoRow (by decide) (by decide)⟩

/-- C3, the claim as written fails: a row that a first run filled with 3 bytes and that a
second run then fails to fetch ends with `success = 0` but still `dataSize = 3`. -/
theorem scrapeURL_transport_failure_stale_dataSize :
    (scrapeURL okWorker demoRow).1.dataSize = 3 ∧
    timeoutWorker.curlInit = true ∧
    (curl_easy_perform timeoutWorker.transfer
      (initialChunk timeoutWorker)).1 ≠ CURLE_OK ∧
    (scrapeURL timeoutWorker (scrapeURL okWorker demoRow).1).1.success = 0 ∧
    (scrapeURL timeoutWorker (scrapeURL okWorker demoRow).1).1.dataSize = 3 ∧
    (scrapeURL timeoutWorker (scrapeURL okWorker demoRow).1).1.dataSize ≠ 0 := by
  decide

theorem scrapeURL_fopen_failure_witness :
    noFileWorker.curlInit = true ∧
    (curl_easy_perform noFileWorker.transfer
      (initialChunk noFileWorker)).1 = CURLE_OK ∧
    noFileWorker.fopenOk = false ∧
    (scrapeURL noFileWorker demoRow).1.success = 0 ∧ (scrapeURL noFileWorker demoRow).2 = [] :=
  ⟨by decide, by decide, by decide,
    scrapeURL_fopen_failure noFileWorker demoRow (by decide) (by decide) (by decide)⟩

theorem scrapeURL_success_ignores_fwrite_witness :
    shortWriteWorker.curlInit = true ∧
    (curl_easy_perform shortWriteWorker.transfer
      (initialChunk shortWriteWorker)).1 = CURLE_OK ∧
    shortWriteWorker.fopenOk = true ∧
    (scrapeURL shortWriteWorker demoRow).1.success = 1 ∧
    (scrapeURL shortWriteWorker demoRow).1.dataSize =
      (curl_easy_perform shortWriteWorker.transfer
        (initialChunk shortWriteWorker)).2.size :=
  ⟨by decide, by decide, by decide,
    (scrapeURL_success_ignores_fwrite shortWriteWorker demoRow (by decide) (by decide)
      (by decide)).1,
    (scrapeURL_success_ignores_fwrite shortWriteWorker demoRow (by decide) (by decide)
      (by decide)).2.1⟩

/-- C5, the claim as written fails: three bytes are buffered, the file opens, `fwrite` stores
one byte, and the row ends with `success = 1` and `dataSize = 3`. -/
theorem scrapeURL_short_write_recorded_as_success :
    shortWriteWorker.curlInit = true ∧
    (curl_easy_perform shortWriteWorker.transfer
      (initialChunk shortWriteWorker)).1 = CURLE_OK ∧
    shortWriteWorker.fopenOk = true ∧
    (scrapeURL shortWriteWorker demoRow).2 =
      [{ path := "scraped_data/page_1.html", bytes := [72] }] ∧
    (scrapeURL shortWriteWorker demoRow).1.success = 1 ∧
    (scrapeURL shortWriteWorker demoRow).1.dataSize = 3 := by
  decide

theorem scrapeURL_success_dataSize_witness :
    okWorker.curlInit = true ∧
    (curl_easy_perform okWorker.transfer
      (initialChunk okWorker)).1 = CURLE_OK ∧
    okWorker.fopenOk = true ∧
    (scrapeURL okWorker demoRow).1.success = 1 ∧
    (scrapeURL okWorker demoRow).1.dataSize =
      (curl_easy_perform okWorker.transfer (initialChunk okWorker)).2.size ∧
    (scrapeURL okWorker demoRow).1.dataSize =
      (okWorker.transfer.chunks.map (fun c => c.size * c.nmemb)).sum :=
  ⟨by decide, by decide, by decide,
    scrapeURL_success_dataSize okWorker demoRow (by decide) (by decide) (by decide)⟩

theorem startScraping_totalData_witness :
    demoState.urlCount ≠ 0 ∧ demoEnv.threadsAlloc = true ∧
    ∃ sm, (startScraping demoEnv (eagerSchedule demoEnv 2) demoState).2 = some sm ∧
      sm.totalData =
        successData (startScraping demoEnv (eagerSchedule demoEnv 2) demoState).1 %
          SIZE_MODULUS ∧
      (successData (startScraping demoEnv (eagerSchedule demoEnv 2) demoState).1 <
          SIZE_MODULUS →
        sm.totalData =
          successData (startScraping demoEnv (eagerSchedule demoEnv 2) demoState).1) :=
  ⟨by decide, by decide,
    startScraping_totalData demoEnv (eagerSchedule demoEnv 2) demoState (by decide)
      (by decide)⟩

theorem outputFile_by_position_witness :
    demoState.threadDataArray.length = MAX_URLS ∧
    (∃ d, (addURLs [⟨"ftp://b.example/\n", 'y'⟩] demoState).threadDataArray[2]? = some d ∧
      d.outputFile = "scraped_data/page_" ++ toString (2 + 1) ++ ".html") ∧
    (∃ d, (loadURLsFromFile (some ["\n", "http://c.example/\n"]) demoState).threadDataArray[0]?
        = some d ∧
      d.outputFile = "scraped_data/page_" ++ toString (0 + 1) ++ ".html") ∧
    (demoState.threadDataArray[2]?).map ThreadData.outputFile = some "" ∧
    (addURLs [⟨"ftp://b.example/\n", 'y'⟩] demoState).urlCount = 3 ∧
    (loadURLsFromFile (some ["\n", "http://c.example/\n", "d\n", "e"]) demoState).urlCount
      = 3 ∧
    (∃ d0 u, demoState.threadDataArray[2]? = some d0 ∧
      fileURLs ["\n", "http://c.example/\n", "d\n", "e"] = ["http://c.example/", "d", "e"] ∧
      (fileURLs ["\n", "http://c.example/\n", "d\n", "e"])[2]? = some u ∧
      (loadURLsFromFile (some ["\n", "http://c.example/\n", "d\n", "e"])
          demoState).threadDataArray[2]? =
        some { d0 with url := u, threadID := ((2 : Nat) : Int),
                       outputFile := "scraped_data/page_" ++ toString (2 + 1) ++ ".html",
                       success := 0, dataSize := 0 }) ∧
    (loadURLsFromFile (some ["\n", "http://c.example/\n", "d\n", "e"]) freshState).urlCount =
      (loadURLsFromFile (some ["\n", "http://c.example/\n", "d\n", "e"]) demoState).urlCount :=
  ⟨by decide,
    (outputFile_by_position demoState [⟨"ftp://b.example/\n", 'y'⟩]
      ["\n", "http://c.example/\n"] 2 (by decide)).1 (by decide) (by decide),
    (outputFile_by_position demoState [⟨"ftp://b.example/\n", 'y'⟩]
      ["\n", "http://c.example/\n"] 0 (by decide)).2.1 (by decide),
    by decide, by decide, by decide,
    (match (outputFile_by_position demoState [⟨"ftp://b.example/\n", 'y'⟩]
        ["\n", "http://c.example/\n", "d\n", "e"] 2 (by decide)).2.2.2.1 2 (by decide) with
      | ⟨d0, u, h1, h2, h3⟩ => ⟨d0, u, h1, by decide, h2, h3⟩),
    ((outputFile_by_position demoState [⟨"ftp://b.example/\n", 'y'⟩]
      ["\n", "http://c.example/\n", "d\n", "e"] 2 (by decide)).2.2.2.2 freshState
      (by decide)).1⟩

theorem outputFile_distinct_witness :
    (demoState.threadDataArray[0]?).map ThreadData.url =
      (demoState.threadDataArray[1]?).map ThreadData.url ∧
    (demoState.threadDataArray[0]?).map ThreadData.outputFile ≠
      (demoState.threadDataArray[1]?).map ThreadData.outputFile := by
  refine ⟨by decide, ?_⟩
  have h := outputFile_distinct demoState 0 1
    demoRow
    { demoRow with threadID := 1, outputFile := "scraped_data/page_2.html" }
    (Reachable.add _ _ (Reachable.init (fun _ => blankRow) freshState (by decide)))
    (by decide) (by decide) (by decide) (by decide) (by decide)
  intro heq
  apply h
  have h0 : demoState.threadDataArray[0]? = some demoRow := by
    decide
  have h1 : demoState.threadDataArray[1]? =
      some { demoRow with threadID := 1, outputFile := "scraped_data/page_2.html" } := by
    decide
  rw [h0, h1] at heq
  simpa using heq

theorem writeCallback_pure_append_witness :
    (writeCallback true [72, 105, 33] 1 3 { data := [7, 0], size := 1 }).1 = 3 ∧
    (writeCallback true [72, 105, 33] 1 3 { data := [7, 0], size := 1 }).2.size = 4 ∧
    (deliver [demoChunk, demoChunk] { data := [7, 0], size := 1 }).2.data.take
        (deliver [demoChunk, demoChunk] { data := [7, 0], size := 1 }).2.size =
      [7, 72, 105, 33, 72, 105, 33] := by
  have h := writeCallback_pure_append [72, 105, 33] 1 3 { data := [7, 0], size := 1 }
    [demoChunk, demoChunk] (by decide) (by decide) (by decide)
  exact ⟨h.1.1, h.1.2.1, h.2.2.2⟩

/-! ## Failure of one worker -/

/-- A delivery of at least one byte whose `realloc` fails aborts the transfer. -/
theorem deliver_aborts (chunks : List Chunk) (mem : MemoryStruct)
    (h : ∃ c ∈ chunks, c.reallocOk = false ∧ c.size * c.nmemb ≠ 0) :
    (deliver chunks mem).1 = true := by
  induction chunks generalizing mem with
  | nil => simp at h
  | cons c cs ih =>
    unfold deliver
    simp only []
    by_cases hret : (writeCallback c.reallocOk c.contents c.size c.nmemb mem).1 ≠ c.size * c.nmemb
    · rw [if_pos hret]
    · rw [if_neg hret]
      apply ih
      obtain ⟨c', hc', hr, hz⟩ := h
      rcases List.mem_cons.mp hc' with rfl | hmem
      · exfalso
        apply hret
        simp only [writeCallback, hr, if_true]
        exact fun h0 => hz h0.symm
      · exact ⟨c', hmem, hr, hz⟩

/-- A step of the thread of row `i` leaves every other row as it is. -/
theorem step_run_other (env : ScrapeEnv) (table : List ThreadData) (i j : Nat) (hij : j ≠ i) :
    (step env table (Event.run i))[j]? = table[j]? := by
  unfold step
  exact List.getElem?_modify_ne _ _ (fun h => hij h.symm)

theorem scrapeURL_startTime (env : WorkerEnv) (d : ThreadData) :
    (scrapeURL env d).1.startTime = d.startTime := by
  unfold scrapeURL
  simp only []
  split_ifs <;> rfl

/-- The `success` a worker leaves is 1 on the path that saves the file and 0 on the three
others. -/
theorem scrapeURL_success_cases (env : WorkerEnv) (data : ThreadData) :
    ((scrapeURL env data).1.success = 1 ↔
      (env.curlInit = true ∧
        (curl_easy_perform env.transfer (initialChunk env)).1 = CURLE_OK ∧
        env.fopenOk = true)) ∧
    ((scrapeURL env data).1.success = 1 ∨ (scrapeURL env data).1.success = 0) := by
  cases hi : env.curlInit with
  | false =>
    rw [scrapeURL_no_handle env data hi]
    simp
  | true =>
    by_cases hres : (curl_easy_perform env.transfer (initialChunk env)).1 = CURLE_OK
    · cases ho : env.fopenOk with
      | false =>
        rw [scrapeURL_fopen_failed env data hi hres ho]
        simp
      | true =>
        rw [scrapeURL_saved env data hi hres ho]
        simp [hres]
    · rw [scrapeURL_perform_failed env data hi hres]
      simp [hres]

/-- C11: a `writeCallback` whose `realloc` fails returns 0 and leaves the buffer as it was;
a worker for which that happens on a delivery of at least one byte has its transfer aborted
(`curl_easy_perform` returns `CURLE_WRITE_ERROR`) and ends with `success = 0`; and the
step of that worker leaves every other row of the table unchanged. -/
theorem writeCallback_realloc_failure (contents : List Byte) (size nmemb : Nat)
    (mem : MemoryStruct) (env : WorkerEnv) (data : ThreadData) (senv : ScrapeEnv)
    (table : List ThreadData) (i j : Nat)
    (hfail : ∃ c ∈ env.transfer.chunks, c.reallocOk = false ∧ c.size * c.nmemb ≠ 0)
    (hij : j ≠ i) :
    writeCallback false contents size nmemb mem = (0, mem) ∧
    (curl_easy_perform env.transfer (initialChunk env)).1 = CURLE_WRITE_ERROR ∧
    (scrapeURL env data).1.success = 0 ∧
    (step senv table (Event.run i))[j]? = table[j]? := by
  have hab := deliver_aborts env.transfer.chunks (initialChunk env) hfail
  have hcode : (curl_easy_perform env.transfer (initialChunk env)).1 = CURLE_WRITE_ERROR := by
    unfold curl_easy_perform
    simp [hab]
  refine ⟨rfl, hcode, ?_, step_run_other senv table i j hij⟩
  have hne : ¬ (env.curlInit = true ∧
      (curl_easy_perform env.transfer (initialChunk env)).1 = CURLE_OK ∧
      env.fopenOk = true) := by
    rintro ⟨_, hok, _⟩
    rw [hcode] at hok
    exact absurd hok (by decide)
  rcases (scrapeURL_success_cases env data).2 with h1 | h0
  · exact absurd ((scrapeURL_success_cases env data).1.mp h1) hne
  · exact h0

/-- C12: `scrapeURL` is a total function of what the worker meets; it ends with
`success = 1` exactly when the handle was created, the transport call returned `CURLE_OK`
and the file opened, and with `success = 0` otherwise; `endTime` is set on every path; and
the HTTP status of the response changes nothing in what it returns. -/
theorem scrapeURL_definite_result (env : WorkerEnv) (data : ThreadData) (status : Nat) :
    ((scrapeURL env data).1.success = 1 ↔
      (env.curlInit = true ∧
        (curl_easy_perform env.transfer (initialChunk env)).1 = CURLE_OK ∧
        env.fopenOk = true)) ∧
    ((scrapeURL env data).1.success = 1 ∨ (scrapeURL env data).1.success = 0) ∧
    (¬ (env.curlInit = true ∧
        (curl_easy_perform env.transfer (initialChunk env)).1 = CURLE_OK ∧
        env.fopenOk = true) → (scrapeURL env data).1.success = 0) ∧
    (scrapeURL env data).1.endTime = env.endTime ∧
    scrapeURL { env with transfer := { env.transfer with httpStatus := status } } data =
      scrapeURL env data := by
  obtain ⟨hiff, hor⟩ := scrapeURL_success_cases env data
  refine ⟨hiff, hor, ?_, ?_, rfl⟩
  · intro hne
    rcases hor with h1 | h0
    · exact absurd (hiff.mp h1) hne
    · exact h0
  · unfold scrapeURL
    rfl

/-- The events of one row do the same to it in two runs that agree on that row. -/
theorem rowEvents_agree (env1 env2 : ScrapeEnv) (i : Nat) (d : ThreadData)
    (hs : env1.startTime i = env2.startTime i) (hc : env1.createOk i = env2.createOk i)
    (hw : env1.worker i = env2.worker i) :
    (rowEvents env1 i).foldl (fun d e => e.act env1 d) d =
      (rowEvents env2 i).foldl (fun d e => e.act env2 d) d := by
  unfold rowEvents
  rw [← hc]
  cases hcr : env1.createOk i <;>
    simp [Event.act, hs, ← hc, hcr, hw]

/-- C13: the thread of row `i` changes nothing in any other row and leaves the `threadID`,
`url`, `outputFile` and `startTime` of its own row as they were; so after two runs from the
same table that agree on what row `i` meets, row `i` is the same, whatever the other workers
met and in whatever order they ran. -/
theorem scrapeURL_failure_isolation (env1 env2 : ScrapeEnv) (s : State)
    (sched1 sched2 : List Event) (table : List ThreadData) (i j : Nat)
    (h1 : ValidSchedule env1 s.urlCount sched1) (h2 : ValidSchedule env2 s.urlCount sched2)
    (halloc : env1.threadsAlloc = env2.threadsAlloc)
    (hs : env1.startTime i = env2.startTime i) (hc : env1.createOk i = env2.createOk i)
    (hw : env1.worker i = env2.worker i) (hij : j ≠ i) :
    (step env1 table (Event.run i))[j]? = table[j]? ∧
    ((step env1 table (Event.run i))[i]?).map
        (fun d => (d.threadID, d.url, d.outputFile, d.startTime)) =
      (table[i]?).map (fun d => (d.threadID, d.url, d.outputFile, d.startTime)) ∧
    (startScraping env1 sched1 s).1.threadDataArray[i]? =
      (startScraping env2 sched2 s).1.threadDataArray[i]? := by
  refine ⟨step_run_other env1 table i j hij, ?_, ?_⟩
  · unfold step
    show Option.map _ (List.modify (Event.act env1 (Event.run i)) i table)[i]? = _
    rw [List.getElem?_modify_eq]
    cases table[i]? with
    | none => rfl
    | some d =>
      simp only [Option.map_eq_map, Option.map_some', Event.act, scrapeURL_threadID,
        scrapeURL_url, scrapeURL_outputFile, scrapeURL_startTime]
  · unfold startScraping
    rw [← halloc]
    split_ifs
    · rfl
    · rfl
    · simp only []
      rw [foldl_step_getElem?, foldl_step_getElem?]
      by_cases hi : i < s.urlCount
      · rw [h1.2.2 i hi, h2.2.2 i hi]
        cases s.threadDataArray[i]? with
        | none => rfl
        | some d => simp only [Option.map_some', rowEvents_agree env1 env2 i d hs hc hw]
      · have e1 : sched1.filter (fun e => e.idx = i) = [] := by
          rw [List.filter_eq_nil_iff]
          intro e he
          have := h1.2.1 e he
          simp only [decide_eq_true_eq]
          omega
        have e2 : sched2.filter (fun e => e.idx = i) = [] := by
          rw [List.filter_eq_nil_iff]
          intro e he
          have := h2.2.1 e he
          simp only [decide_eq_true_eq]
          omega
        rw [e1, e2]
        cases s.threadDataArray[i]? <;> rfl

theorem writeCallback_realloc_failure_witness :
    writeCallback false [1, 2] 1 2 { data := [72, 105, 33, 0], size := 3 } =
      (0, { data := [72, 105, 33, 0], size := 3 }) ∧
    (curl_easy_perform noMemoryWorker.transfer (initialChunk noMemoryWorker)).1 =
      CURLE_WRITE_ERROR ∧
    (scrapeURL noMemoryWorker demoRow).1.success = 0 ∧
    (step demoEnv2 demoState.threadDataArray (Event.run 1))[0]? =
      demoState.threadDataArray[0]? :=
  writeCallback_realloc_failure [1, 2] 1 2 { data := [72, 105, 33, 0], size := 3 }
    noMemoryWorker demoRow demoEnv2 demoState.threadDataArray 1 0
    ⟨⟨[1, 2], 1, 2, false⟩, by decide, by decide, by decide⟩ (by decide)

theorem scrapeURL_failure_isolation_witness :
    ValidSchedule demoEnv demoState.urlCount (eagerSchedule demoEnv 2) ∧
    ValidSchedule demoEnv2 demoState.urlCount (batchSchedule demoEnv2 2 [1, 0]) ∧
    (startScraping demoEnv (eagerSchedule demoEnv 2) demoState).1.threadDataArray[0]? =
      (startScraping demoEnv2 (batchSchedule demoEnv2 2 [1, 0]) demoState).1.threadDataArray[0]? :=
  ⟨by decide, by decide,
    (scrapeURL_failure_isolation demoEnv demoEnv2 demoState (eagerSchedule demoEnv 2)
      (batchSchedule demoEnv2 2 [1, 0]) demoState.threadDataArray 0 1 (by decide) (by decide)
      rfl rfl rfl rfl (by decide)).2.2⟩

end WebScraper

namespace CModel

/-! ## The bubble nest, pass by pass -/

theorem bubbleStep_nil {α : Type} (sw : α → α → Bool) (j : Nat) :
    bubbleStep sw ([] : List α) j = [] := by
  simp [bubbleStep]

theorem bubbleStep_cons {α : Type} (sw : α → α → Bool) (x : α) (l : List α) (j : Nat) :
    bubbleStep sw (x :: l) (j + 1) = x :: bubbleStep sw l j := by
  unfold bubbleStep
  simp only [List.getElem?_cons_succ]
  cases l[j]? with
  | none => rfl
  | some a =>
    cases l[j + 1]? with
    | none => rfl
    | some b =>
      simp only []
      split_ifs
      · simp [List.set_cons_succ]
      · rfl

theorem bubbleInner_nil {α : Type} (sw : α → α → Bool) (count j : Nat) :
    bubbleInner sw count j ([] : List α) = [] := by
  induction count generalizing j with
  | zero => rfl
  | succ k ih => rw [bubbleInner, bubbleStep_nil, ih]

theorem bubbleInner_cons {α : Type} (sw : α → α → Bool) (count j : Nat) (x : α)
    (l : List α) :
    bubbleInner sw count (j + 1) (x :: l) = x :: bubbleInner sw count j l := by
  induction count generalizing j l with
  | zero => rfl
  | succ k ih => rw [bubbleInner, bubbleStep_cons, ih, bubbleInner]

/-- The inner loop started at `j = 0` is one pass over the list. -/
theorem bubbleInner_eq_bubbleList {α : Type} (sw : α → α → Bool) (count : Nat)
    (l : List α) : bubbleInner sw count 0 l = bubbleList sw count l := by
  induction count generalizing l with
  | zero => cases l with
    | nil => rfl
    | cons a t => cases t <;> rfl
  | succ k ih =>
    match l with
    | [] => rw [bubbleInner_nil]; rfl
    | [a] =>
      rw [bubbleInner]
      have : bubbleStep sw [a] 0 = [a] := by simp [bubbleStep]
      rw [this, bubbleInner_cons, bubbleInner_nil]
      rfl
    | a :: b :: t =>
      rw [bubbleInner]
      have hs : bubbleStep sw (a :: b :: t) 0 = if sw a b then b :: a :: t else a :: b :: t := by
        simp [bubbleStep]
      rw [hs, bubbleList]
      split_ifs
      · rw [bubbleInner_cons, ih]
      · rw [bubbleInner_cons, ih]

theorem bubbleList_perm {α : Type} (sw : α → α → Bool) (count : Nat) (l : List α) :
    (bubbleList sw count l).Perm l := by
  induction count generalizing l with
  | zero => cases l with
    | nil => exact List.Perm.refl _
    | cons a t => cases t <;> exact List.Perm.refl _
  | succ k ih =>
    match l with
    | [] => exact List.Perm.refl _
    | [a] => exact List.Perm.refl _
    | a :: b :: t =>
      rw [bubbleList]
      split_ifs
      · exact ((ih (a :: t)).cons b).trans (List.Perm.swap a b t)
      · exact (ih (b :: t)).cons a

/-- A pass keeps the order of the entries picked by `p`, when no swap is between two of
them. -/
theorem bubbleList_filter {α : Type} (sw : α → α → Bool) (p : α → Bool)
    (hsw : ∀ a b, sw a b = true → ¬ (p a = true ∧ p b = true)) (count : Nat) (l : List α) :
    (bubbleList sw count l).filter p = l.filter p := by
  induction count generalizing l with
  | zero => cases l with
    | nil => rfl
    | cons a t => cases t <;> rfl
  | succ k ih =>
    match l with
    | [] => rfl
    | [a] => rfl
    | a :: b :: t =>
      rw [bubbleList]
      split_ifs with h
      · have hab := hsw a b h
        rw [List.filter_cons, ih, List.filter_cons, List.filter_cons, List.filter_cons]
        cases hpa : p a <;> cases hpb : p b <;> simp_all
      · rw [List.filter_cons, ih]
        simp only [List.filter_cons]

/-- A pass over the first part of a list does not see the rest. -/
theorem bubbleList_append {α : Type} (sw : α → α → Bool) (count : Nat) (l suf : List α)
    (h : count + 1 ≤ l.length) :
    bubbleList sw count (l ++ suf) = bubbleList sw count l ++ suf := by
  induction count generalizing l with
  | zero =>
    match l, suf with
    | [], _ => simp at h
    | [a], [] => rfl
    | [a], s :: ss => rfl
    | a :: b :: t, _ => rfl
  | succ k ih =>
    match l with
    | [] => simp at h
    | [a] => simp at h
    | a :: b :: t =>
      simp only [List.cons_append, bubbleList]
      have h' : k + 1 ≤ (a :: t).length := by simp at h ⊢; omega
      have h'' : k + 1 ≤ (b :: t).length := by simp at h ⊢; omega
      split_ifs
      · have := ih _ h'
        simp only [List.cons_append] at this
        exact congrArg (List.cons b) this
      · have := ih _ h''
        simp only [List.cons_append] at this
        exact congrArg (List.cons a) this

/-- A full pass ends with an entry that none of the others would be swapped past. -/
theorem bubbleList_last {α : Type} (sw : α → α → Bool) (S : α → Prop)
    (hasym : ∀ a b, sw a b = true → sw b a = false)
    (htrans : ∀ a b c, S a → S b → S c → sw a b = false → sw b c = false → sw a c = false)
    (count : Nat) (l : List α) (hk : count + 1 = l.length) (hS : ∀ x ∈ l, S x) :
    ∃ init m, bubbleList sw count l = init ++ [m] ∧ ∀ x ∈ l, sw x m = false := by
  have hrefl : ∀ a, sw a a = false := by
    intro a
    cases h : sw a a with
    | false => rfl
    | true => rw [hasym a a h] at h; exact h.symm
  induction count generalizing l with
  | zero =>
    match l with
    | [] => simp at hk
    | [a] => exact ⟨[], a, rfl, by simp [hrefl]⟩
    | a :: b :: t => simp at hk
  | succ k ih =>
    match l with
    | [] => simp at hk
    | [a] => simp at hk
    | a :: b :: t =>
      rw [bubbleList]
      by_cases h : sw a b = true
      · rw [if_pos h]
        have hk' : k + 1 = (a :: t).length := by simp at hk ⊢; omega
        have hS' : ∀ x ∈ a :: t, S x := by
          intro x hx
          rcases List.mem_cons.mp hx with rfl | hx
          · exact hS _ (List.mem_cons_self _ _)
          · exact hS _ (List.mem_cons_of_mem _ (List.mem_cons_of_mem _ hx))
        obtain ⟨init, m, hres, hmax⟩ := ih (a :: t) hk' hS'
        have hm : m ∈ a :: t := by
          have : m ∈ bubbleList sw k (a :: t) := by rw [hres]; simp
          exact (bubbleList_perm sw k (a :: t)).mem_iff.mp this
        refine ⟨b :: init, m, by rw [hres]; rfl, ?_⟩
        intro x hx
        rcases List.mem_cons.mp hx with rfl | hx
        · exact hmax _ (List.mem_cons_self _ _)
        rcases List.mem_cons.mp hx with rfl | hx
        · exact htrans _ a m (hS _ (by simp)) (hS _ (by simp)) (hS' m hm) (hasym a _ h)
            (hmax a (List.mem_cons_self _ _))
        · exact hmax x (List.mem_cons_of_mem _ hx)
      · rw [if_neg h]
        have hk' : k + 1 = (b :: t).length := by simp at hk ⊢; omega
        have hS' : ∀ x ∈ b :: t, S x := fun x hx => hS x (List.mem_cons_of_mem _ hx)
        obtain ⟨init, m, hres, hmax⟩ := ih (b :: t) hk' hS'
        have hm : m ∈ b :: t := by
          have : m ∈ bubbleList sw k (b :: t) := by rw [hres]; simp
          exact (bubbleList_perm sw k (b :: t)).mem_iff.mp this
        refine ⟨a :: init, m, by rw [hres]; rfl, ?_⟩
        intro x hx
        rcases List.mem_cons.mp hx with rfl | hx
        · exact htrans _ b m (hS _ (by simp)) (hS _ (by simp)) (hS' m hm)
            (by simpa using h) (hmax b (List.mem_cons_self _ _))
        · exact hmax x hx

/-- The outer loop from pass `i` on: the first `n - i` entries are still to be sorted, the
next `i` are in place, the rest is not touched. -/
theorem bubbleOuter_sorted {α : Type} (sw : α → α → Bool) (S : α → Prop)
    (hasym : ∀ a b, sw a b = true → sw b a = false)
    (htrans : ∀ a b c, S a → S b → S c → sw a b = false → sw b c = false → sw a c = false)
    (n count i : Nat) (P Sfx T : List α)
    (hlen : P.length = n - i) (hcount : count + i = n - 1)
    (hsorted : Sfx.Pairwise (fun x y => sw x y = false))
    (hle : ∀ x ∈ P, ∀ y ∈ Sfx, sw x y = false)
    (hS : ∀ x ∈ P ++ Sfx, S x) :
    ∃ out, bubbleOuter sw n count i (P ++ Sfx ++ T) = out ++ T ∧ out.Perm (P ++ Sfx) ∧
      out.Pairwise (fun x y => sw x y = false) := by
  induction count generalizing i P Sfx with
  | zero =>
    refine ⟨P ++ Sfx, rfl, List.Perm.refl _, ?_⟩
    rw [List.pairwise_append]
    refine ⟨?_, hsorted, hle⟩
    have hP : P.length ≤ 1 := by omega
    match P, hP with
    | [], _ => exact List.Pairwise.nil
    | [a], _ => exact List.pairwise_singleton _ _
    | a :: b :: t, h => simp at h
  | succ k ih =>
    have hk1 : n - i - 1 + 1 = P.length := by omega
    obtain ⟨init, m, hres, hmax⟩ :=
      bubbleList_last sw S hasym htrans (n - i - 1) P hk1
        (fun x hx => hS x (List.mem_append_left _ hx))
    have hperm : (init ++ [m]).Perm P := by
      rw [← hres]; exact bubbleList_perm sw _ P
    have hmP : m ∈ P := hperm.mem_iff.mp (by simp)
    have hinitP : ∀ x ∈ init, x ∈ P := fun x hx =>
      hperm.mem_iff.mp (List.mem_append_left _ hx)
    have hpass : bubbleInner sw (n - i - 1) 0 (P ++ Sfx ++ T) = init ++ (m :: Sfx) ++ T := by
      rw [bubbleInner_eq_bubbleList, List.append_assoc,
        bubbleList_append sw _ P (Sfx ++ T) (le_of_eq hk1), hres]
      simp
    have hlen' : init.length = n - (i + 1) := by
      have := hperm.length_eq
      simp at this
      omega
    obtain ⟨out, hout, hoperm, hopw⟩ := ih (i + 1) init (m :: Sfx) hlen' (by omega)
      (List.pairwise_cons.mpr ⟨fun y hy => hle m hmP y hy, hsorted⟩)
      (by
        intro x hx y hy
        rcases List.mem_cons.mp hy with rfl | hy
        · exact hmax x (hinitP x hx)
        · exact hle x (hinitP x hx) y hy)
      (by
        intro x hx
        rcases List.mem_append.mp hx with hx | hx
        · exact hS x (List.mem_append_left _ (hinitP x hx))
        · rcases List.mem_cons.mp hx with rfl | hx
          · exact hS _ (List.mem_append_left _ hmP)
          · exact hS x (List.mem_append_right _ hx))
    refine ⟨out, ?_, ?_, hopw⟩
    · rw [bubbleOuter, hpass, hout]
    · refine hoperm.trans ?_
      have : (init ++ m :: Sfx) = (init ++ [m]) ++ Sfx := by simp
      rw [this]
      exact hperm.append_right Sfx

/-- The nest sorts the first `n` entries and leaves the others where they are. -/
theorem bubbleNest_sorted {α : Type} (sw : α → α → Bool) (S : α → Prop)
    (hasym : ∀ a b, sw a b = true → sw b a = false)
    (htrans : ∀ a b c, S a → S b → S c → sw a b = false → sw b c = false → sw a c = false)
    (arr : List α) (n : Nat) (hn : n ≤ arr.length) (hS : ∀ x ∈ arr.take n, S x) :
    ∃ out, bubbleNest sw arr n = out ++ arr.drop n ∧ out.Perm (arr.take n) ∧
      out.Pairwise (fun x y => sw x y = false) := by
  have h := bubbleOuter_sorted sw S hasym htrans n (n - 1) 0 (arr.take n) [] (arr.drop n)
    (by rw [List.length_take]; omega) (by omega) List.Pairwise.nil
    (fun _ _ y hy => absurd hy (List.not_mem_nil y))
    (by simpa using hS)
  simpa [bubbleNest] using h

/-- The nest keeps the order of the entries picked by `p`, when no swap is between two of
them. -/
theorem bubbleNest_filter {α : Type} (sw : α → α → Bool) (p : α → Bool)
    (hsw : ∀ a b, sw a b = true → ¬ (p a = true ∧ p b = true)) (arr : List α) (n : Nat) :
    (bubbleNest sw arr n).filter p = arr.filter p := by
  have h : ∀ count i (l : List α), (bubbleOuter sw n count i l).filter p = l.filter p := by
    intro count
    induction count with
    | zero => intro i l; rfl
    | succ k ih =>
      intro i l
      rw [bubbleOuter, ih, bubbleInner_eq_bubbleList, bubbleList_filter sw p hsw]
  exact h _ _ _

/-! ## The insertion sort, entry by entry -/

theorem insRev_perm {α : Type} (mv : α → α → Bool) (key : α) (l : List α) :
    (insRev mv key l).Perm (key :: l) := by
  induction l with
  | nil => exact List.Perm.refl _
  | cons x xs ih =>
    rw [insRev]
    split_ifs
    · exact (ih.cons x).trans (List.Perm.swap key x xs)
    · exact List.Perm.refl _

theorem insertRight_perm {α : Type} (mv : α → α → Bool) (key : α) (l : List α) :
    (insertRight mv key l).Perm (l ++ [key]) := by
  unfold insertRight
  refine (List.reverse_perm _).trans ((insRev_perm mv key l.reverse).trans ?_)
  refine (List.Perm.cons key (List.reverse_perm l)).trans ?_
  exact (List.perm_append_singleton key l).symm

theorem insertRight_length {α : Type} (mv : α → α → Bool) (key : α) (l : List α) :
    (insertRight mv key l).length = l.length + 1 := by
  have := (insertRight_perm mv key l).length_eq
  simpa using this

theorem insertRight_append_singleton {α : Type} (mv : α → α → Bool) (key x : α)
    (l : List α) :
    insertRight mv key (l ++ [x]) =
      if mv x key then insertRight mv key l ++ [x] else l ++ [x, key] := by
  unfold insertRight
  rw [List.reverse_append, List.reverse_singleton, List.singleton_append, insRev]
  split_ifs <;> simp

theorem insRev_filter {α : Type} (mv : α → α → Bool) (p : α → Bool) (key : α)
    (hmv : ∀ x, mv x key = true → ¬ (p x = true ∧ p key = true)) (l : List α) :
    (insRev mv key l).filter p = (key :: l).filter p := by
  induction l with
  | nil => rfl
  | cons x xs ih =>
    rw [insRev]
    split_ifs with h
    · have hx := hmv x h
      rw [List.filter_cons, ih]
      simp only [List.filter_cons]
      cases hpx : p x <;> cases hpk : p key <;> simp_all
    · rfl

/-- Putting `key` in keeps the order of the entries picked by `p`, when `key` is not moved
past one of them while being one of them. -/
theorem insertRight_filter {α : Type} (mv : α → α → Bool) (p : α → Bool) (key : α)
    (hmv : ∀ x, mv x key = true → ¬ (p x = true ∧ p key = true)) (l : List α) :
    (insertRight mv key l).filter p = (l ++ [key]).filter p := by
  unfold insertRight
  rw [List.filter_reverse, insRev_filter mv p key hmv, ← List.filter_reverse]
  simp

theorem insRev_sorted {α : Type} (mv : α → α → Bool) (S : α → Prop)
    (hasym : ∀ a b, mv a b = true → mv b a = false)
    (htrans : ∀ a b c, S a → S b → S c → mv a b = false → mv b c = false → mv a c = false)
    (key : α) (l : List α) (hS : ∀ x ∈ key :: l, S x)
    (hl : l.Pairwise (fun x y => mv y x = false)) :
    (insRev mv key l).Pairwise (fun x y => mv y x = false) := by
  induction l with
  | nil => exact List.pairwise_singleton _ _
  | cons x xs ih =>
    have hSx : S x := hS x (by simp)
    have hSk : S key := hS key (by simp)
    rw [insRev]
    obtain ⟨hx, hxs⟩ := List.pairwise_cons.mp hl
    by_cases h : mv x key = true
    · rw [if_pos h, List.pairwise_cons]
      refine ⟨?_, ih (fun y hy => hS y (by
          rcases List.mem_cons.mp hy with rfl | hy
          · simp
          · simp [hy])) hxs⟩
      intro y hy
      rcases List.mem_cons.mp ((insRev_perm mv key xs).mem_iff.mp hy) with rfl | hy
      · exact hasym x _ h
      · exact hx y hy
    · rw [if_neg h, List.pairwise_cons]
      refine ⟨?_, hl⟩
      intro y hy
      rcases List.mem_cons.mp hy with rfl | hy
      · simpa using h
      · exact htrans y x key (hS y (by simp [hy])) hSx hSk (hx y hy) (by simpa using h)

/-- Putting `key` into a sorted list from the right leaves a sorted list. -/
theorem insertRight_sorted {α : Type} (mv : α → α → Bool) (S : α → Prop)
    (hasym : ∀ a b, mv a b = true → mv b a = false)
    (htrans : ∀ a b c, S a → S b → S c → mv a b = false → mv b c = false → mv a c = false)
    (key : α) (l : List α) (hS : ∀ x ∈ key :: l, S x)
    (hl : l.Pairwise (fun x y => mv x y = false)) :
    (insertRight mv key l).Pairwise (fun x y => mv x y = false) := by
  unfold insertRight
  rw [List.pairwise_reverse]
  apply insRev_sorted mv S hasym htrans key l.reverse
  · intro x hx
    apply hS
    simpa using hx
  · rw [List.pairwise_reverse]
    exact hl

theorem getElem?_mid {α : Type} (A : List α) (x : α) (B : List α) :
    (A ++ x :: B)[A.length]? = some x := by
  rw [List.getElem?_append_right (le_refl _)]
  simp

theorem set_mid {α : Type} (A : List α) (x v : α) (B : List α) :
    (A ++ x :: B).set A.length v = A ++ v :: B := by
  simp

/-- The shifting loop, started with the first `A.length` entries in front of the free place,
puts `key` into them from the right. -/
theorem insertShift_eq {α : Type} (mv : α → α → Bool) (key : α) (A : List α) :
    ∀ (junk : α) (B : List α),
      insertShift mv key A.length (A ++ junk :: B) = insertRight mv key A ++ B := by
  induction A using List.reverseRecOn with
  | nil =>
    intro junk B
    simp [insertShift, insertRight, insRev]
  | append_singleton A x ih =>
    intro junk B
    have hlen : (A ++ [x]).length = A.length + 1 := by simp
    rw [hlen, insertShift]
    have hget : (A ++ [x] ++ junk :: B)[A.length]? = some x := by
      rw [List.append_assoc]; exact getElem?_mid A x _
    have hset : ∀ v, (A ++ [x] ++ junk :: B).set (A.length + 1) v = A ++ [x] ++ v :: B := by
      intro v
      have := set_mid (A ++ [x]) junk v B
      rwa [hlen] at this
    rw [hget]
    simp only [hset, insertRight_append_singleton]
    split_ifs
    · have := ih x (x :: B)
      simp only [List.append_assoc, List.singleton_append] at this ⊢
      exact this
    · simp

/-- The outer loop from entry `i` on: the first `i` entries are sorted, the next `count` are
put in one by one, the rest is not touched. -/
theorem insertionOuter_sorted {α : Type} (mv : α → α → Bool) (S : α → Prop)
    (hasym : ∀ a b, mv a b = true → mv b a = false)
    (htrans : ∀ a b c, S a → S b → S c → mv a b = false → mv b c = false → mv a c = false)
    (count i : Nat) (P Rst : List α) (hlen : P.length = i) (hcount : count ≤ Rst.length)
    (hP : P.Pairwise (fun x y => mv x y = false))
    (hS : ∀ x ∈ P ++ Rst.take count, S x) :
    ∃ out, insertionOuter mv count i (P ++ Rst) = out ++ Rst.drop count ∧
      out.Perm (P ++ Rst.take count) ∧
      out.Pairwise (fun x y => mv x y = false) ∧
      ∀ p : α → Bool, (∀ a b, mv a b = true → ¬ (p a = true ∧ p b = true)) →
        out.filter p = (P ++ Rst.take count).filter p := by
  induction count generalizing i P Rst with
  | zero =>
    exact ⟨P, by simp [insertionOuter], by simp, hP, fun p _ => by simp⟩
  | succ k ih =>
    match Rst, hcount with
    | [], h => simp at h
    | key :: R, h =>
      have hk : k ≤ R.length := by simpa using h
      have hget : (P ++ key :: R)[i]? = some key := by
        rw [← hlen]; exact getElem?_mid P key R
      have hshift : insertShift mv key i (P ++ key :: R) = insertRight mv key P ++ R := by
        rw [← hlen]; exact insertShift_eq mv key P key R
      have hSP : ∀ x ∈ key :: P, S x := by
        intro x hx
        apply hS
        rcases List.mem_cons.mp hx with rfl | hx
        · simp
        · simp [hx]
      have hperm := insertRight_perm mv key P
      obtain ⟨out, hout, hoperm, hopw, hofil⟩ := ih (i + 1) (insertRight mv key P) R
        (by rw [insertRight_length, hlen]) hk
        (insertRight_sorted mv S hasym htrans key P hSP hP)
        (by
          intro x hx
          apply hS
          rcases List.mem_append.mp hx with hx | hx
          · have := hperm.mem_iff.mp hx
            simp at this
            rcases this with h1 | h1
            · simp [h1]
            · simp [h1]
          · simp [List.take_succ_cons, hx])
      refine ⟨out, ?_, ?_, hopw, ?_⟩
      · rw [insertionOuter, hget]
        simp only [hshift, hout, List.drop_succ_cons]
      · refine hoperm.trans ?_
        have : P ++ (key :: R).take (k + 1) = (P ++ [key]) ++ R.take k := by simp
        rw [this]
        exact hperm.append_right _
      · intro p hp
        rw [hofil p hp, List.filter_append,
          insertRight_filter mv p key (fun x hx => hp x key hx)]
        have : P ++ (key :: R).take (k + 1) = (P ++ [key]) ++ R.take k := by simp
        rw [this]
        simp only [List.filter_append]

/-- The insertion sort sorts the first `n` entries, keeps the order of the entries picked by
a `p` that no move goes across, and leaves the other entries where they are. -/
theorem insertionNest_sorted {α : Type} (mv : α → α → Bool) (S : α → Prop)
    (hasym : ∀ a b, mv a b = true → mv b a = false)
    (htrans : ∀ a b c, S a → S b → S c → mv a b = false → mv b c = false → mv a c = false)
    (arr : List α) (n : Nat) (hn : n ≤ arr.length) (hS : ∀ x ∈ arr.take n, S x) :
    ∃ out, insertionNest mv arr n = out ++ arr.drop n ∧ out.Perm (arr.take n) ∧
      out.Pairwise (fun x y => mv x y = false) ∧
      ∀ p : α → Bool, (∀ a b, mv a b = true → ¬ (p a = true ∧ p b = true)) →
        out.filter p = (arr.take n).filter p := by
  match n, arr, hn, hS with
  | 0, arr, _, _ =>
    exact ⟨[], by simp [insertionNest, insertionOuter], by simp, List.Pairwise.nil,
      fun p _ => by simp⟩
  | m + 1, [], h, _ => simp at h
  | m + 1, a :: rest, h, hS =>
    have hm : m ≤ rest.length := by simpa using h
    have h1 := insertionOuter_sorted mv S hasym htrans m 1 [a] rest rfl hm
      (List.pairwise_singleton _ _) (by simpa [List.take_succ_cons] using hS)
    simpa [insertionNest, List.take_succ_cons] using h1

/-- The bubble nest sorts the first `n` entries, keeps the order of the entries picked by a
`p` that no swap goes across, and leaves the other entries where they are. -/
theorem bubbleNest_spec {α : Type} (sw : α → α → Bool) (S : α → Prop)
    (hasym : ∀ a b, sw a b = true → sw b a = false)
    (htrans : ∀ a b c, S a → S b → S c → sw a b = false → sw b c = false → sw a c = false)
    (arr : List α) (n : Nat) (hn : n ≤ arr.length) (hS : ∀ x ∈ arr.take n, S x) :
    ∃ out, bubbleNest sw arr n = out ++ arr.drop n ∧ out.Perm (arr.take n) ∧
      out.Pairwise (fun x y => sw x y = false) ∧
      ∀ p : α → Bool, (∀ a b, sw a b = true → ¬ (p a = true ∧ p b = true)) →
        out.filter p = (arr.take n).filter p := by
  obtain ⟨out, hout, hperm, hpw⟩ := bubbleNest_sorted sw S hasym htrans arr n hn hS
  refine ⟨out, hout, hperm, hpw, ?_⟩
  intro p hp
  have h := bubbleNest_filter sw p hp arr n
  rw [hout] at h
  conv at h => rhs; rw [← List.take_append_drop n arr]
  rw [List.filter_append, List.filter_append] at h
  exact List.append_cancel_right h

/-! ## What the sorts do whatever the test is -/

/-- Whatever `sw` is, the bubble nest permutes the first `n` entries among themselves. -/
theorem bubbleOuter_shape {α : Type} (sw : α → α → Bool) (n count i : Nat) (P T : List α)
    (hlen : P.length = n - i) (hcount : count + i = n - 1) :
    ∃ out, bubbleOuter sw n count i (P ++ T) = out ++ T ∧ out.Perm P := by
  induction count generalizing i P T with
  | zero => exact ⟨P, rfl, List.Perm.refl _⟩
  | succ k ih =>
    have hk1 : n - i - 1 + 1 ≤ P.length := by omega
    have hperm := bubbleList_perm sw (n - i - 1) P
    have hne : bubbleList sw (n - i - 1) P ≠ [] := by
      intro h
      have := hperm.length_eq
      rw [h] at this
      simp at this
      omega
    obtain ⟨init, m, hres⟩ := (List.eq_nil_or_concat _).resolve_left hne
    rw [List.concat_eq_append] at hres
    have hlen' : init.length = n - (i + 1) := by
      have := hperm.length_eq
      rw [hres] at this
      simp at this
      omega
    obtain ⟨out, hout, hoperm⟩ := ih (i + 1) init (m :: T) hlen' (by omega)
    refine ⟨out ++ [m], ?_, ?_⟩
    · rw [bubbleOuter, bubbleInner_eq_bubbleList, bubbleList_append sw _ P T hk1, hres]
      have : init ++ [m] ++ T = init ++ m :: T := by simp
      rw [this, hout]
      simp
    · rw [hres] at hperm
      exact (hoperm.append_right [m]).trans hperm

theorem bubbleNest_shape {α : Type} (sw : α → α → Bool) (arr : List α) (n : Nat)
    (hn : n ≤ arr.length) :
    ∃ out, bubbleNest sw arr n = out ++ arr.drop n ∧ out.Perm (arr.take n) := by
  have h := bubbleOuter_shape sw n (n - 1) 0 (arr.take n) (arr.drop n)
    (by rw [List.length_take]; omega) (by omega)
  simpa [bubbleNest] using h

/-- Whatever `mv` is, the insertion sort permutes the first `n` entries among themselves. -/
theorem insertionOuter_shape {α : Type} (mv : α → α → Bool) (count i : Nat)
    (P Rst : List α) (hlen : P.length = i) (hcount : count ≤ Rst.length) :
    ∃ out, insertionOuter mv count i (P ++ Rst) = out ++ Rst.drop count ∧
      out.Perm (P ++ Rst.take count) := by
  induction count generalizing i P Rst with
  | zero => exact ⟨P, by simp [insertionOuter], by simp⟩
  | succ k ih =>
    match Rst, hcount with
    | [], h => simp at h
    | key :: R, h =>
      have hk : k ≤ R.length := by simpa using h
      have hget : (P ++ key :: R)[i]? = some key := by
        rw [← hlen]; exact getElem?_mid P key R
      have hshift : insertShift mv key i (P ++ key :: R) = insertRight mv key P ++ R := by
        rw [← hlen]; exact insertShift_eq mv key P key R
      obtain ⟨out, hout, hoperm⟩ := ih (i + 1) (insertRight mv key P) R
        (by rw [insertRight_length, hlen]) hk
      refine ⟨out, ?_, ?_⟩
      · rw [insertionOuter, hget]
        simp only [hshift, hout, List.drop_succ_cons]
      · refine hoperm.trans ?_
        have : P ++ (key :: R).take (k + 1) = (P ++ [key]) ++ R.take k := by simp
        rw [this]
        exact (insertRight_perm mv key P).append_right _

theorem insertionNest_shape {α : Type} (mv : α → α → Bool) (arr : List α) (n : Nat)
    (hn : n ≤ arr.length) :
    ∃ out, insertionNest mv arr n = out ++ arr.drop n ∧ out.Perm (arr.take n) := by
  match n, arr, hn with
  | 0, arr, _ => exact ⟨[], by simp [insertionNest, insertionOuter], by simp⟩
  | m + 1, [], h => simp at h
  | m + 1, a :: rest, h =>
    have hm : m ≤ rest.length := by simpa using h
    have h1 := insertionOuter_shape mv m 1 [a] rest rfl hm
    simpa [insertionNest, List.take_succ_cons] using h1

end CModel

namespace CModel

/-! ## The order of floats -/

theorem CFloat.lt_asymm (a b : CFloat) (h : CFloat.lt a b = true) : CFloat.lt b a = false := by
  cases a <;> cases b <;> simp_all [CFloat.lt]
  all_goals omega

theorem CFloat.lt_irrefl (a : CFloat) : CFloat.lt a a = false := by
  cases a <;> simp [CFloat.lt]

/-- Floats that are the same up to the sign of a zero are not `<` one another. -/
theorem CFloat.lt_of_unsigned_eq (a b : CFloat) (h : a.unsigned = b.unsigned) :
    CFloat.lt a b = false := by
  cases a <;> cases b <;> simp_all [CFloat.lt, CFloat.unsigned]

/-- Among numbers, "not less" is transitive. -/
theorem CFloat.not_lt_trans (a b c : CFloat) (ha : a ≠ CFloat.nan) (hb : b ≠ CFloat.nan)
    (hc : c ≠ CFloat.nan) (h1 : CFloat.lt a b = false) (h2 : CFloat.lt b c = false) :
    CFloat.lt a c = false := by
  cases a <;> cases b <;> cases c <;> simp_all [CFloat.lt]
  all_goals omega

/-- Among numbers, "not less" is "greater or equal". -/
theorem CFloat.not_lt_iff_le (a b : CFloat) (ha : a ≠ CFloat.nan) (hb : b ≠ CFloat.nan) :
    CFloat.lt a b = false ↔ CFloat.le b a = true := by
  cases a <;> cases b <;> simp_all [CFloat.lt, CFloat.le]

end CModel

namespace MathEngine

open CModel

/-- C17: for an array of `size` floats none of which is not-a-number, `sortAscending` leaves
in the first `size` places a permutation of what was there, in non-decreasing order, and
leaves the rest of the block as it is. -/
theorem sortAscending_sorted_perm (data : List CFloat) (size : Nat) (dummy : Int)
    (hsize : size ≤ data.length) (hnan : ∀ x ∈ data.take size, x ≠ CFloat.nan) :
    ((sortAscending data size dummy).take size).Perm (data.take size) ∧
    ((sortAscending data size dummy).take size).Pairwise (fun x y => CFloat.le x y = true) ∧
    (sortAscending data size dummy).drop size = data.drop size := by
  obtain ⟨out, hout, hperm, hpw⟩ :=
    bubbleNest_sorted (fun a b => CFloat.gt a b) (fun x => x ≠ CFloat.nan)
      (fun a b h => CFloat.lt_asymm b a h)
      (fun a b c ha hb hc h1 h2 => CFloat.not_lt_trans c b a hc hb ha h2 h1)
      data size hsize hnan
  have hlen : out.length = size := by
    rw [hperm.length_eq, List.length_take]; omega
  have hs : sortAscending data size dummy = out ++ data.drop size := by
    unfold sortAscending
    simpa using hout
  have htake : (sortAscending data size dummy).take size = out := by
    rw [hs, List.take_left' hlen]
  refine ⟨by rw [htake]; exact hperm, ?_, by rw [hs, List.drop_left' hlen]⟩
  rw [htake]
  have hmem : ∀ x ∈ out, x ≠ CFloat.nan := fun x hx => hnan x (hperm.mem_iff.mp hx)
  refine (List.Pairwise.and_mem.mp hpw).imp ?_
  rintro a b ⟨ha, hb, hab⟩
  exact (CFloat.not_lt_iff_le b a (hmem b hb) (hmem a ha)).mp hab

theorem sortAscending_sorted_perm_witness :
    (sortAscending [.num 3, .negInf, .num 1, .posInf, .num 1, .nan] 5 0).take 5 =
      [.negInf, .num 1, .num 1, .num 3, .posInf] ∧
    ((sortAscending [.num 3, .negInf, .num 1, .posInf, .num 1, .nan] 5 0).take 5).Perm
      [.num 3, .negInf, .num 1, .posInf, .num 1] ∧
    (sortAscending [.num 3, .negInf, .num 1, .posInf, .num 1, .nan] 5 0).drop 5 = [.nan] :=
  ⟨by decide,
    (sortAscending_sorted_perm [.num 3, .negInf, .num 1, .posInf, .num 1, .nan] 5 0
      (by decide) (by decide)).1,
    (sortAscending_sorted_perm [.num 3, .negInf, .num 1, .posInf, .num 1, .nan] 5 0
      (by decide) (by decide)).2.2⟩

end MathEngine

namespace StudentDB

open CModel

/-! ## The order of `strcmp` -/

theorem strcmpChars_self (a : List Char) : strcmpChars a a = 0 := by
  induction a with
  | nil => rfl
  | cons x xs ih => simp [strcmpChars, ih]

theorem strcmpChars_asymm (a b : List Char) (h : 0 < strcmpChars a b) :
    strcmpChars b a ≤ 0 := by
  induction a generalizing b with
  | nil => cases b <;> simp_all [strcmpChars]
  | cons x xs ih =>
    cases b with
    | nil => simp [strcmpChars]
    | cons y ys =>
      simp only [strcmpChars] at h ⊢
      by_cases hxy : x.toNat = y.toNat
      · rw [if_pos hxy] at h
        rw [if_pos hxy.symm]
        exact ih ys h
      · rw [if_neg hxy] at h
        rw [if_neg (fun h' => hxy h'.symm)]
        split_ifs at h ⊢ <;> omega

theorem strcmpChars_le_trans (a b c : List Char) (h1 : strcmpChars a b ≤ 0)
    (h2 : strcmpChars b c ≤ 0) : strcmpChars a c ≤ 0 := by
  induction a generalizing b c with
  | nil => cases c <;> simp [strcmpChars]
  | cons x xs ih =>
    cases b with
    | nil => simp [strcmpChars] at h1
    | cons y ys =>
      cases c with
      | nil => simp [strcmpChars] at h2
      | cons z zs =>
        simp only [strcmpChars] at h1 h2 ⊢
        by_cases hxy : x.toNat = y.toNat
        · rw [if_pos hxy] at h1
          by_cases hyz : y.toNat = z.toNat
          · rw [if_pos hyz] at h2
            rw [if_pos (hxy.trans hyz)]
            exact ih ys zs h1 h2
          · rw [if_neg hyz] at h2
            rw [if_neg (by rw [hxy]; exact hyz)]
            split_ifs at h2 ⊢ <;> omega
        · rw [if_neg hxy] at h1
          by_cases hyz : y.toNat = z.toNat
          · rw [if_neg (by rw [← hyz]; exact hxy)]
            split_ifs at h1 ⊢ <;> omega
          · rw [if_neg hyz] at h2
            split_ifs at h1 h2 ⊢ <;> omega

/-- Two strings that `strcmp` finds equal are the same string. -/
theorem strcmpChars_eq_zero (a b : List Char) (h : strcmpChars a b = 0) : a = b := by
  induction a generalizing b with
  | nil => cases b <;> simp_all [strcmpChars]
  | cons x xs ih =>
    cases b with
    | nil => simp [strcmpChars] at h
    | cons y ys =>
      simp only [strcmpChars] at h
      by_cases hxy : x.toNat = y.toNat
      · rw [if_pos hxy] at h
        have hc : x = y := by
          apply Char.ext
          apply UInt32.ext
          exact hxy
        rw [hc, ih ys h]
      · rw [if_neg hxy] at h
        split_ifs at h
        omega

/-! ## The sorts of the student records -/

/-- C18 (as amended): for every array of `n` students, `bubbleSort` with `sortBy = 1` leaves
in the first `n` places a permutation of what was there in which the students of any one GPA
are in the order they were in, and leaves the rest of the block as it is; and when none of
the `n` GPAs is not-a-number, the `n` students are then in non-increasing order of GPA. The
students whose GPAs are one value up to the sign of a zero (they compare equal) are in the
order they were in, too. -/
theorem bubbleSort_sorted_stable (arr : List Student) (n : Nat) (hn : n ≤ arr.length) :
    ((bubbleSort arr n 1).take n).Perm (arr.take n) ∧
    (∀ g : CFloat, ((bubbleSort arr n 1).take n).filter (fun s => s.gpa = g) =
      (arr.take n).filter (fun s => s.gpa = g)) ∧
    (bubbleSort arr n 1).drop n = arr.drop n ∧
    ((∀ s ∈ arr.take n, s.gpa ≠ CFloat.nan) →
      ((bubbleSort arr n 1).take n).Pairwise (fun x y => CFloat.le y.gpa x.gpa = true)) ∧
    (∀ g : CFloat, ((bubbleSort arr n 1).take n).filter (fun s => s.gpa.unsigned = g) =
      (arr.take n).filter (fun s => s.gpa.unsigned = g)) := by
  have hsw : (fun a b : Student => decide ((1 : Int) = 1) && CFloat.lt a.gpa b.gpa) =
      fun a b => CFloat.lt a.gpa b.gpa := by
    funext a b; simp
  have hb : bubbleSort arr n 1 = bubbleNest (fun a b => CFloat.lt a.gpa b.gpa) arr n := by
    unfold bubbleSort
    rw [hsw]
    simp
  obtain ⟨out, hout, hperm⟩ := bubbleNest_shape (fun a b => CFloat.lt a.gpa b.gpa) arr n hn
  have hlen : out.length = n := by
    rw [hperm.length_eq, List.length_take]; omega
  have htake : (bubbleSort arr n 1).take n = out := by
    rw [hb, hout, List.take_left' hlen]
  have hstab : ∀ p : Student → Bool,
      (∀ a b : Student, CFloat.lt a.gpa b.gpa = true → ¬ (p a = true ∧ p b = true)) →
      ((bubbleSort arr n 1).take n).filter p = (arr.take n).filter p := by
    intro p hp
    have hf := bubbleNest_filter (fun a b : Student => CFloat.lt a.gpa b.gpa) p
      (fun a b hab => hp a b hab) arr n
    rw [hout] at hf
    conv at hf => rhs; rw [← List.take_append_drop n arr]
    rw [List.filter_append, List.filter_append] at hf
    rw [htake]
    exact List.append_cancel_right hf
  refine ⟨by rw [htake]; exact hperm, ?_, by rw [hb, hout, List.drop_left' hlen], ?_, ?_⟩
  · intro g
    refine hstab (fun s => decide (s.gpa = g)) ?_
    intro a b hab
    simp only [decide_eq_true_eq]
    rintro ⟨ha, hb⟩
    rw [ha, hb, CFloat.lt_irrefl] at hab
    exact absurd hab (by decide)
  rotate_left
  · intro g
    refine hstab (fun s => decide (s.gpa.unsigned = g)) ?_
    intro a b hab
    simp only [decide_eq_true_eq]
    rintro ⟨ha, hb⟩
    rw [CFloat.lt_of_unsigned_eq a.gpa b.gpa (ha.trans hb.symm)] at hab
    exact absurd hab (by decide)
  · intro hnan
    obtain ⟨out2, hout2, hperm2, hpw⟩ :=
      bubbleNest_sorted (fun a b : Student => CFloat.lt a.gpa b.gpa)
        (fun s => s.gpa ≠ CFloat.nan)
        (fun a b h => CFloat.lt_asymm a.gpa b.gpa h)
        (fun a b c ha hb hc h1 h2 => CFloat.not_lt_trans a.gpa b.gpa c.gpa ha hb hc h1 h2)
        arr n hn hnan
    have hlen2 : out2.length = n := by
      rw [hperm2.length_eq, List.length_take]; omega
    have : out2 = out := by
      have := hout2.symm.trans hout
      exact List.append_inj_left this (hlen2.trans hlen.symm)
    subst this
    rw [htake]
    have hmem : ∀ s ∈ out2, s.gpa ≠ CFloat.nan := fun s hs => hnan s (hperm.mem_iff.mp hs)
    refine (List.Pairwise.and_mem.mp hpw).imp ?_
    rintro a b ⟨ha, hb, hab⟩
    exact (CFloat.not_lt_iff_le a.gpa b.gpa (hmem a ha) (hmem b hb)).mp hab

/-- C19: for every array of `n` students, `insertionSort` with `sortBy = 3` leaves in the
first `n` places a permutation of what was there, in non-decreasing order of `id`, the
students of any one `id` in the order they were in; with `sortBy = 2` it leaves a permutation
in the order of `strcmp` on the names, the students of any one name in the order they were
in; and either way the rest of the block is left as it is. -/
theorem insertionSort_sorted_stable (arr : List Student) (n : Nat) (hn : n ≤ arr.length) :
    (((insertionSort arr n 3).take n).Perm (arr.take n) ∧
     ((insertionSort arr n 3).take n).Pairwise (fun x y => x.id ≤ y.id) ∧
     (∀ k : Int, ((insertionSort arr n 3).take n).filter (fun s => s.id = k) =
       (arr.take n).filter (fun s => s.id = k)) ∧
     (insertionSort arr n 3).drop n = arr.drop n) ∧
    (((insertionSort arr n 2).take n).Perm (arr.take n) ∧
     ((insertionSort arr n 2).take n).Pairwise (fun x y => strcmp x.name y.name ≤ 0) ∧
     (∀ nm : String, ((insertionSort arr n 2).take n).filter (fun s => s.name = nm) =
       (arr.take n).filter (fun s => s.name = nm)) ∧
     (insertionSort arr n 2).drop n = arr.drop n) := by
  constructor
  · have hmv : shouldMove 3 = fun x key => decide (x.id > key.id) := by
      funext x key; simp [shouldMove]
    obtain ⟨out, hout, hperm, hpw, hfil⟩ :=
      insertionNest_sorted (shouldMove 3) (fun _ => True)
        (by intro a b h; rw [hmv] at h ⊢; simp only [decide_eq_true_eq, decide_eq_false_iff_not] at *; omega)
        (by intro a b c _ _ _ h1 h2; rw [hmv] at h1 h2 ⊢; simp only [decide_eq_false_iff_not] at *; omega)
        arr n hn (fun _ _ => trivial)
    have hlen : out.length = n := by
      rw [hperm.length_eq, List.length_take]; omega
    have hs : insertionSort arr n 3 = out ++ arr.drop n := by
      unfold insertionSort; simpa using hout
    have htake : (insertionSort arr n 3).take n = out := by
      rw [hs, List.take_left' hlen]
    refine ⟨by rw [htake]; exact hperm, ?_, ?_, by rw [hs, List.drop_left' hlen]⟩
    · rw [htake]
      refine hpw.imp ?_
      intro a b hab
      rw [hmv] at hab
      simp only [decide_eq_false_iff_not] at hab
      omega
    · intro k
      rw [htake]
      apply hfil (fun s => decide (s.id = k))
      intro a b hab
      rw [hmv] at hab
      simp only [decide_eq_true_eq] at hab ⊢
      omega
  · have hmv : shouldMove 2 = fun x key => decide (strcmp x.name key.name > 0) := by
      funext x key; simp [shouldMove]
    obtain ⟨out, hout, hperm, hpw, hfil⟩ :=
      insertionNest_sorted (shouldMove 2) (fun _ => True)
        (by
          intro a b h
          rw [hmv] at h ⊢
          simp only [decide_eq_true_eq, decide_eq_false_iff_not, gt_iff_lt] at *
          have := strcmpChars_asymm _ _ h
          unfold strcmp
          omega)
        (by
          intro a b c _ _ _ h1 h2
          rw [hmv] at h1 h2 ⊢
          simp only [decide_eq_false_iff_not, gt_iff_lt, not_lt] at *
          exact strcmpChars_le_trans _ _ _ h1 h2)
        arr n hn (fun _ _ => trivial)
    have hlen : out.length = n := by
      rw [hperm.length_eq, List.length_take]; omega
    have hs : insertionSort arr n 2 = out ++ arr.drop n := by
      unfold insertionSort; simpa using hout
    have htake : (insertionSort arr n 2).take n = out := by
      rw [hs, List.take_left' hlen]
    refine ⟨by rw [htake]; exact hperm, ?_, ?_, by rw [hs, List.drop_left' hlen]⟩
    · rw [htake]
      refine hpw.imp ?_
      intro a b hab
      rw [hmv] at hab
      simpa using hab
    · intro nm
      rw [htake]
      apply hfil (fun s => decide (s.name = nm))
      intro a b hab
      rw [hmv] at hab
      simp only [decide_eq_true_eq] at hab ⊢
      rintro ⟨ha, hb⟩
      rw [ha, hb] at hab
      unfold strcmp at hab
      rw [strcmpChars_self] at hab
      omega

/-! ## The ids of the database -/

theorem computeGPA_id (fa : FloatArith) (s : Student) : (computeGPA fa s).id = s.id := rfl

theorem growBlock_some (inp : AddInput) (db db1 : DB) (h : growBlock inp db = some db1)
    (hok : IdsOK db) : db1.live = db.live ∧ db1.studentCount = db.studentCount ∧ IdsOK db1 := by
  obtain ⟨h1, h2, h3, h4⟩ := hok
  unfold growBlock at h
  split_ifs at h with hc hr
  · simp only [Option.some.injEq] at h
    have hlive : db1.live = db.live := by
      rw [← h]
      simp only [DB.live]
      rw [List.take_take, Nat.min_eq_left (by omega), List.take_append_of_le_length h1]
    have hlen : db1.students.length = db.capacity * 2 := by
      rw [← h]
      simp only [List.length_take, List.length_append, List.length_replicate]
      omega
    have hcnt : db1.studentCount = db.studentCount := by rw [← h]
    have hcap : db1.capacity = db.capacity * 2 := by rw [← h]
    refine ⟨hlive, hcnt, ?_, ?_, ?_, ?_⟩
    · rw [hlen, hcnt]; omega
    · rw [hlen, hcap]
    · rw [hlive]; exact h3
    · rw [hlive]; exact h4
  · simp only [Option.some.injEq] at h
    subst h
    exact ⟨rfl, rfl, h1, h2, h3, h4⟩

/-- What the second part of `addStudent` stores, when it returns. -/
theorem addRecord_some (fa : FloatArith) (inp : AddInput) (db db1 : DB)
    (h : addRecord fa inp db = some db1) :
    ∃ s, db1 = { db with students := db.students.set db.studentCount s,
                         studentCount := db.studentCount + 1 } ∧
      db.studentCount < db.students.length ∧ 0 < s.id ∧ ∀ t ∈ db.live, t.id ≠ s.id := by
  unfold addRecord at h
  split at h
  · exact absurd h (by simp)
  · rename_i id hid
    split at h
    · exact absurd h (by simp)
    · split at h
      · exact absurd h (by simp)
      · split at h
        · exact absurd h (by simp)
        · simp only [] at h
          split_ifs at h with hlt
          simp only [Option.some.injEq] at h
          have hp := List.find?_some hid
          simp only [Bool.and_eq_true, Bool.not_eq_true', decide_eq_false_iff_not, not_le,
            bne_iff_ne, ne_eq] at hp
          refine ⟨_, h.symm, hlt, ?_, ?_⟩
          · rw [computeGPA_id]; exact hp.1
          · intro t ht
            rw [computeGPA_id]
            intro heq
            apply hp.2
            unfold isValidID
            rw [if_pos]
            rw [List.any_eq_true]
            exact ⟨t, ht, by simpa using heq⟩

theorem take_set_succ {α : Type} (l : List α) (n : Nat) (x : α) (h : n < l.length) :
    (l.set n x).take (n + 1) = l.take n ++ [x] := by
  induction l generalizing n with
  | nil => simp at h
  | cons a t ih =>
    cases n with
    | zero => simp
    | succ m =>
      simp only [List.set_cons_succ, List.take_succ_cons, List.cons_append]
      rw [ih m (by simpa using h)]

/-- The call `addStudent` keeps the ids in order, and what it adds, if anything, is one record
with a new positive id. -/
theorem addStudent_idsOK (fa : FloatArith) (inp : AddInput) (db db1 : DB)
    (h : addStudent fa inp db = some db1) (hok : IdsOK db) :
    IdsOK db1 ∧
    (db1.live = db.live ∨
      ∃ s, db1.live = db.live ++ [s] ∧ 0 < s.id ∧ ∀ t ∈ db.live, t.id ≠ s.id) := by
  unfold addStudent at h
  split at h
  · simp only [Option.some.injEq] at h
    subst h
    obtain ⟨h1, h2, h3, h4⟩ := hok
    exact ⟨⟨h1, by show db.students.length ≤ db.capacity * 2; omega, h3, h4⟩, Or.inl rfl⟩
  · rename_i db2 hg
    obtain ⟨hlive, hcnt, hok2⟩ := growBlock_some inp db db2 hg hok
    obtain ⟨s, hdb1, hlt, hpos, hnew⟩ := addRecord_some fa inp db2 db1 h
    obtain ⟨g1, g2, g3, g4⟩ := hok2
    have hl1 : db1.live = db2.live ++ [s] := by
      subst hdb1
      simp only [DB.live]
      exact take_set_succ _ _ _ hlt
    refine ⟨⟨?_, ?_, ?_, ?_⟩, Or.inr ⟨s, by rw [hl1, hlive], hpos, by rw [← hlive]; exact hnew⟩⟩
    · subst hdb1
      simp only [List.length_set]
      omega
    · subst hdb1
      simp only [List.length_set]
      exact g2
    · rw [hl1, List.map_append, List.nodup_append]
      refine ⟨g3, by simp, ?_⟩
      intro a ha hb
      simp only [List.map_cons, List.map_nil, List.mem_singleton] at hb
      obtain ⟨t, ht, hta⟩ := List.mem_map.mp ha
      exact hnew t ht (hta.trans hb)
    · intro t ht
      rw [hl1] at ht
      rcases List.mem_append.mp ht with ht | ht
      · exact g4 t ht
      · simp only [List.mem_singleton] at ht
        rw [ht]; exact hpos

theorem updateGrades_id (fa : FloatArith) (answers : Nat → List CFloat) (s s1 : Student)
    (h : updateGrades fa answers s = some s1) : s1.id = s.id := by
  unfold updateGrades at h
  split at h
  · exact absurd h (by simp)
  · simp only [Option.some.injEq] at h
    rw [← h]
    rfl

theorem updateRecord_id (fa : FloatArith) (inp : UpdateInput) (s s1 : Student)
    (h : updateRecord fa inp s = some s1) : s1.id = s.id := by
  unfold updateRecord at h
  split_ifs at h
  · simp only [Option.some.injEq] at h; rw [← h]
  · split at h
    · exact absurd h (by simp)
    · simp only [Option.some.injEq] at h; rw [← h]
  · simp only [Option.some.injEq] at h; rw [← h]
  · exact updateGrades_id fa _ _ _ h
  · split at h
    · exact absurd h (by simp)
    · exact (updateGrades_id fa _ _ _ h).trans rfl
  · simp only [Option.some.injEq] at h; rw [← h]

theorem map_set_same {α β : Type} (f : α → β) (l : List α) (i : Nat) (s s1 : α)
    (hs : l[i]? = some s) (hf : f s1 = f s) : (l.set i s1).map f = l.map f := by
  apply List.ext_getElem?
  intro j
  rw [List.getElem?_map, List.getElem?_map, List.getElem?_set]
  by_cases hij : i = j
  · subst hij
    rw [if_pos rfl, hs]
    have hlt : i < l.length := by
      rcases Nat.lt_or_ge i l.length with h | h
      · exact h
      · rw [List.getElem?_eq_none h] at hs; exact absurd hs (by simp)
    simp [hlt, hf]
  · rw [if_neg hij]

/-- The call `updateStudent` leaves every id where it is. -/
theorem updateStudent_idsOK (fa : FloatArith) (inp : UpdateInput) (db db1 : DB)
    (h : updateStudent fa inp db = some db1) (hok : IdsOK db) : IdsOK db1 := by
  obtain ⟨h1, h2, h3, h4⟩ := hok
  unfold updateStudent at h
  simp only [] at h
  split_ifs at h with hidx
  · simp only [Option.some.injEq] at h
    subst h
    exact ⟨h1, h2, h3, h4⟩
  · split at h
    · exact absurd h (by simp)
    · rename_i s hs
      split at h
      · exact absurd h (by simp)
      · rename_i s1 hs1
        simp only [Option.some.injEq] at h
        have hid := updateRecord_id fa inp s s1 hs1
        have hmap : (db1.students.map Student.id) = db.students.map Student.id := by
          rw [← h]
          exact map_set_same Student.id _ _ s s1 hs hid
        have hlen : db1.students.length = db.students.length := by
          rw [← h]; simp
        have hcnt : db1.studentCount = db.studentCount := by rw [← h]
        have hcap : db1.capacity = db.capacity := by rw [← h]
        have hlive : db1.live.map Student.id = db.live.map Student.id := by
          simp only [DB.live, List.map_take, hmap, hcnt]
        refine ⟨by rw [hlen, hcnt]; exact h1, by rw [hlen, hcap]; exact h2,
          by rw [hlive]; exact h3, ?_⟩
        intro t ht
        have : t.id ∈ db1.live.map Student.id := List.mem_map_of_mem _ ht
        rw [hlive] at this
        obtain ⟨u, hu, hut⟩ := List.mem_map.mp this
        rw [← hut]
        exact h4 u hu

theorem findIndexFrom_range (id : Int) (l : List Student) (i : Nat) :
    findIndexFrom id l i = -1 ∨
      ((i : Int) ≤ findIndexFrom id l i ∧ findIndexFrom id l i < (i : Int) + l.length) := by
  induction l generalizing i with
  | nil => exact Or.inl rfl
  | cons s rest ih =>
    unfold findIndexFrom
    split_ifs
    · right
      simp
    · rcases ih (i + 1) with h | h
      · exact Or.inl h
      · right
        simp only [List.length_cons]
        push_cast at h ⊢
        omega

theorem shiftLeft_eq (count : Nat) (A : List Student) (x : Student) (B : List Student)
    (h : count ≤ B.length) :
    ∃ d, shiftLeft count A.length (A ++ x :: B) = A ++ B.take count ++ d :: B.drop count := by
  induction count generalizing A x B with
  | zero => exact ⟨x, by simp [shiftLeft]⟩
  | succ k ih =>
    match B, h with
    | [], h => simp at h
    | b :: B1, h =>
      have hk : k ≤ B1.length := by simpa using h
      have hget : (A ++ x :: b :: B1)[A.length + 1]? = some b := by
        have := getElem?_mid (A ++ [x]) b B1
        simpa using this
      have hset : (A ++ x :: b :: B1).set A.length b = (A ++ [b]) ++ b :: B1 := by
        rw [set_mid]; simp
      obtain ⟨d, hd⟩ := ih (A ++ [b]) b B1 hk
      refine ⟨d, ?_⟩
      rw [shiftLeft, hget]
      simp only [hset]
      have hl : (A ++ [b]).length = A.length + 1 := by simp
      rw [← hl, hd]
      simp

/-- The call `deleteStudent` leaves in the database records that were in it, in the order
they were in. -/
theorem deleteStudent_idsOK (id : Int) (confirm : Char) (db : DB) (hok : IdsOK db) :
    IdsOK (deleteStudent id confirm db) := by
  obtain ⟨h1, h2, h3, h4⟩ := hok
  unfold deleteStudent
  simp only []
  split_ifs with hidx hc
  · exact ⟨h1, h2, h3, h4⟩
  · have hr := findIndexFrom_range id db.live 0
    have hfi : findStudentIndex db id = findIndexFrom id db.live 0 := rfl
    rw [← hfi] at hr
    rcases hr with hr | ⟨hr0, hr1⟩
    · exact absurd hr hidx
    have hll : db.live.length = db.studentCount := by
      simp only [DB.live, List.length_take]; omega
    rw [hll] at hr1
    generalize hi : (findStudentIndex db id).toNat = i at *
    have hin : i < db.studentCount := by omega
    obtain ⟨x, hx⟩ : ∃ x, db.students.drop i = x :: db.students.drop (i + 1) :=
      ⟨_, List.drop_eq_getElem_cons (by omega)⟩
    have hsplit : db.students = db.students.take i ++ x :: db.students.drop (i + 1) := by
      rw [← hx, List.take_append_drop]
    have hAlen : (db.students.take i).length = i := by
      rw [List.length_take]; omega
    obtain ⟨d, hd⟩ := shiftLeft_eq (db.studentCount - 1 - i) (db.students.take i)
      x (db.students.drop (i + 1)) (by rw [List.length_drop]; omega)
    rw [hAlen, ← hsplit] at hd
    have hBlen : ((db.students.drop (i + 1)).take (db.studentCount - 1 - i)).length =
        db.studentCount - 1 - i := by
      rw [List.length_take, List.length_drop]; omega
    have hlive' : (shiftLeft (db.studentCount - 1 - i) i db.students).take
        (db.studentCount - 1) =
        db.students.take i ++ (db.students.drop (i + 1)).take (db.studentCount - 1 - i) := by
      rw [hd]
      apply List.take_left'
      rw [List.length_append, hAlen, hBlen]
      omega
    have hlive : db.live = db.students.take i ++
        x :: (db.students.drop (i + 1)).take (db.studentCount - 1 - i) := by
      have hn : db.studentCount = i + ((db.studentCount - 1 - i) + 1) := by omega
      simp only [DB.live]
      conv => lhs; rw [hsplit, hn]
      rw [List.take_append_eq_append_take, hAlen]
      rw [List.take_of_length_le (by rw [hAlen]; omega)]
      congr 1
      have : i + ((db.studentCount - 1 - i) + 1) - i = (db.studentCount - 1 - i) + 1 := by omega
      rw [this, List.take_succ_cons]
    have hsub : List.Sublist (DB.live { db with
        students := shiftLeft (db.studentCount - 1 - i) i db.students,
        studentCount := db.studentCount - 1 }) db.live := by
      show List.Sublist ((shiftLeft (db.studentCount - 1 - i) i db.students).take
        (db.studentCount - 1)) db.live
      rw [hlive', hlive]
      exact List.Sublist.append_left (List.sublist_cons_self _ _) _
    have hlen : (shiftLeft (db.studentCount - 1 - i) i db.students).length =
        db.students.length := by
      rw [hd]
      have hsl := congrArg List.length hsplit
      simp only [List.length_append, List.length_cons, List.length_take, List.length_drop]
        at hsl ⊢
      omega
    refine ⟨?_, ?_, ?_, ?_⟩
    · show db.studentCount - 1 ≤ (shiftLeft (db.studentCount - 1 - i) i db.students).length
      rw [hlen]; omega
    · show (shiftLeft (db.studentCount - 1 - i) i db.students).length ≤ db.capacity
      rw [hlen]; exact h2
    · exact h3.sublist (hsub.map _)
    · intro t ht
      exact h4 t (hsub.subset ht)
  · exact ⟨h1, h2, h3, h4⟩

/-- A sort of the first `studentCount` records that permutes them keeps the ids in order. -/
theorem idsOK_of_perm (db : DB) (arr : List Student) (out : List Student)
    (harr : arr = out ++ db.students.drop db.studentCount) (hperm : out.Perm db.live)
    (hok : IdsOK db) : IdsOK { db with students := arr } := by
  obtain ⟨h1, h2, h3, h4⟩ := hok
  have hlen : out.length = db.studentCount := by
    rw [hperm.length_eq]; simp only [DB.live, List.length_take]; omega
  have halen : arr.length = db.students.length := by
    rw [harr, List.length_append, hlen, List.length_drop]; omega
  have hlive : DB.live ({ db with students := arr } : DB) = out := by
    show arr.take db.studentCount = out
    rw [harr, List.take_left' hlen]
  refine ⟨?_, ?_, ?_, ?_⟩
  · show db.studentCount ≤ arr.length
    rw [halen]; exact h1
  · show arr.length ≤ db.capacity
    rw [halen]; exact h2
  · rw [hlive]
    exact (hperm.map Student.id).nodup_iff.mpr h3
  · rw [hlive]
    intro s hs
    exact h4 s (hperm.mem_iff.mp hs)

/-- The call `sortStudents` keeps the ids in order. -/
theorem sortStudents_idsOK (choice : Int) (db : DB) (hok : IdsOK db) :
    IdsOK (sortStudents choice db) := by
  unfold sortStudents
  split_ifs
  · exact hok
  · obtain ⟨out, hout, hperm⟩ := bubbleNest_shape
      (fun a b : Student => decide ((1 : Int) = 1) && CFloat.lt a.gpa b.gpa)
      db.students db.studentCount hok.1
    exact idsOK_of_perm db _ out (by unfold bubbleSort; simpa using hout) hperm hok
  · obtain ⟨out, hout, hperm⟩ := insertionNest_shape (shouldMove 2)
      db.students db.studentCount hok.1
    exact idsOK_of_perm db _ out (by unfold insertionSort; simpa using hout) hperm hok
  · obtain ⟨out, hout, hperm⟩ := insertionNest_shape (shouldMove 3)
      db.students db.studentCount hok.1
    exact idsOK_of_perm db _ out (by unfold insertionSort; simpa using hout) hperm hok
  · exact hok

theorem initializeSystem_idsOK (rows : Nat → Student) (db : DB)
    (h : initializeSystem (some rows) = some db) : IdsOK db := by
  unfold initializeSystem at h
  simp only [Option.some.injEq] at h
  subst h
  exact ⟨Nat.zero_le _, by simp, by simp [DB.live], by simp [DB.live]⟩

/-- In every database the program can hold, the ids are in order. -/
theorem reachable_idsOK (fa : FloatArith) (db : DB) (h : Reachable fa db) : IdsOK db := by
  induction h with
  | init rows db h => exact initializeSystem_idsOK rows db h
  | add inp db db1 _ hr ih => exact (addStudent_idsOK fa inp db db1 hr ih).1
  | update inp db db1 _ hr ih => exact updateStudent_idsOK fa inp db db1 hr ih
  | delete id confirm db _ ih => exact deleteStudent_idsOK id confirm db ih
  | sort choice db _ ih => exact sortStudents_idsOK choice db ih

/-- C16: in every database reached from the empty one by `addStudent`, `updateStudent`,
`deleteStudent` and `sortStudents`, the ids of the stored students are positive and pairwise
distinct; and every `addStudent` that returns from such a database has either stored nothing
or stored, after the students that were there, one student whose id is positive and is the
id of none of them. -/
theorem student_ids_unique_positive (fa : FloatArith) (db : DB) (h : Reachable fa db) :
    (db.live.map Student.id).Nodup ∧ (∀ s ∈ db.live, 0 < s.id) ∧
    (∀ (inp : AddInput) (db1 : DB), addStudent fa inp db = some db1 →
      (db1.live = db.live ∨
        ∃ s, db1.live = db.live ++ [s] ∧ 0 < s.id ∧ ∀ t ∈ db.live, t.id ≠ s.id)) := by
  have hok := reachable_idsOK fa db h
  exact ⟨hok.2.2.1, hok.2.2.2, fun inp db1 hadd => (addStudent_idsOK fa inp db db1 hadd hok).2⟩

/-! ## Instances on concrete students -/

theorem student_ids_unique_positive_witness :
    twoStudents.live.map Student.id = [5, 3] ∧
    (twoStudents.live.map Student.id).Nodup ∧
    (∀ s ∈ twoStudents.live, 0 < s.id) ∧
    ((addStudent demoArith cidInput twoStudents).map (fun db => db.live.map Student.id)) =
      some [5, 3, 4] ∧
    (((addStudent demoArith cidInput twoStudents).getD emptyDB).live = twoStudents.live ∨
      ∃ s, ((addStudent demoArith cidInput twoStudents).getD emptyDB).live =
          twoStudents.live ++ [s] ∧ 0 < s.id ∧ ∀ t ∈ twoStudents.live, t.id ≠ s.id) := by
  have hr : Reachable demoArith twoStudents :=
    Reachable.add bobInput oneStudent twoStudents
      (Reachable.add annInput emptyDB oneStudent
        (Reachable.init (fun _ => blankStudent) emptyDB (by decide)) (by decide))
      (by decide)
  have h := student_ids_unique_positive demoArith twoStudents hr
  exact ⟨by decide, h.1, h.2.1, by decide,
    h.2.2 cidInput ((addStudent demoArith cidInput twoStudents).getD emptyDB) (by decide)⟩

theorem bubbleSort_sorted_stable_witness :
    (bubbleSort demoClass 4 1).map Student.id = [1, 3, 7, 9] ∧
    ((bubbleSort demoClass 4 1).take 4).Pairwise (fun x y => CFloat.le y.gpa x.gpa = true) ∧
    ((bubbleSort demoClass 4 1).take 4).filter (fun s => s.gpa = CFloat.num 2) =
      (demoClass.take 4).filter (fun s => s.gpa = CFloat.num 2) :=
  ⟨by decide,
    (bubbleSort_sorted_stable demoClass 4 (by decide)).2.2.2.1 (by decide),
    (bubbleSort_sorted_stable demoClass 4 (by decide)).2.1 (CFloat.num 2)⟩

/-- C18, the claim as written fails: of three students with the averages 1, not-a-number
and 2, `bubbleSort` swaps none, and leaves the average 1 in front of the average 2. -/
theorem bubbleSort_nan_not_sorted :
    bubbleSort nanClass 3 1 = nanClass ∧
    ¬ ((bubbleSort nanClass 3 1).take 3).Pairwise (fun x y => CFloat.le y.gpa x.gpa = true) ∧
    ((bubbleSort nanClass 3 1)[0]?).map Student.gpa = some (CFloat.num 1) ∧
    ((bubbleSort nanClass 3 1)[2]?).map Student.gpa = some (CFloat.num 2) ∧
    CFloat.lt (CFloat.num 1) (CFloat.num 2) = true := by
  decide

theorem insertionSort_sorted_stable_witness :
    (insertionSort demoClass 4 3).map Student.id = [1, 3, 7, 9] ∧
    (insertionSort demoClass 4 2).map Student.id = [9, 3, 1, 7] ∧
    ((insertionSort demoClass 4 3).take 4).Pairwise (fun x y => x.id ≤ y.id) ∧
    ((insertionSort demoClass 4 2).take 4).Pairwise (fun x y => strcmp x.name y.name ≤ 0) ∧
    ((insertionSort demoClass 4 2).take 4).filter (fun s => s.name = "Bob") =
      (demoClass.take 4).filter (fun s => s.name = "Bob") :=
  ⟨by decide, by decide,
    (insertionSort_sorted_stable demoClass 4 (by decide)).1.2.1,
    (insertionSort_sorted_stable demoClass 4 (by decide)).2.2.1,
    (insertionSort_sorted_stable demoClass 4 (by decide)).2.2.2.1 "Bob"⟩

end StudentDB

namespace Traffic

/-! ## The lamps after `setLights` -/

theorem setLights_eq_some {s s1 : State} {lane : Option TrafficLane} {r y g : Bool}
    (h : setLights s lane r y g = some s1) :
    ∃ l, lane = some l ∧
      s1 = { s with pins := digitalWrite (digitalWrite (digitalWrite s.pins l.redPin r)
                              l.yellowPin y) l.greenPin g } := by
  cases lane with
  | none => simp [setLights] at h
  | some l =>
    refine ⟨l, rfl, ?_⟩
    simp only [setLights, Option.some.injEq] at h
    exact h.symm

theorem shows_after_ns (pins : Nat → Bool) (l : TrafficLane) (r y g : Bool)
    (hl : l.wiring = (NS_RED, NS_YELLOW, NS_GREEN)) (s : State) :
    nsShows { s with pins := digitalWrite (digitalWrite (digitalWrite pins l.redPin r)
                              l.yellowPin y) l.greenPin g } = (r, y, g) ∧
    ewShows { s with pins := digitalWrite (digitalWrite (digitalWrite pins l.redPin r)
                              l.yellowPin y) l.greenPin g } =
      (pins EW_RED, pins EW_YELLOW, pins EW_GREEN) := by
  simp only [TrafficLane.wiring, Prod.mk.injEq] at hl
  obtain ⟨h1, h2, h3⟩ := hl
  simp [nsShows, ewShows, digitalWrite, h1, h2, h3, NS_RED, NS_YELLOW, NS_GREEN, EW_RED,
    EW_YELLOW, EW_GREEN]

theorem shows_after_ew (pins : Nat → Bool) (l : TrafficLane) (r y g : Bool)
    (hl : l.wiring = (EW_RED, EW_YELLOW, EW_GREEN)) (s : State) :
    ewShows { s with pins := digitalWrite (digitalWrite (digitalWrite pins l.redPin r)
                              l.yellowPin y) l.greenPin g } = (r, y, g) ∧
    nsShows { s with pins := digitalWrite (digitalWrite (digitalWrite pins l.redPin r)
                              l.yellowPin y) l.greenPin g } =
      (pins NS_RED, pins NS_YELLOW, pins NS_GREEN) := by
  simp only [TrafficLane.wiring, Prod.mk.injEq] at hl
  obtain ⟨h1, h2, h3⟩ := hl
  simp [nsShows, ewShows, digitalWrite, h1, h2, h3, NS_RED, NS_YELLOW, NS_GREEN, EW_RED,
    EW_YELLOW, EW_GREEN]

/-- What `setLights` on the NS lane leaves: the NS lamps as asked, the rest as it was. -/
theorem setLights_ns {s s1 : State} {r y g : Bool}
    (h : setLights s s.nsLane r y g = some s1) (hw : Wired s) :
    Wired s1 ∧ s1.emergencyMode = s.emergencyMode ∧ s1.currentState = s.currentState ∧
    nsShows s1 = (r, y, g) ∧ ewShows s1 = ewShows s ∧ (NoLog s1 ↔ NoLog s) := by
  obtain ⟨l, hl, rfl⟩ := setLights_eq_some h
  have := shows_after_ns s.pins l r y g (hw.1 l hl) s
  exact ⟨hw, rfl, rfl, this.1, this.2, Iff.rfl⟩

/-- What `setLights` on the EW lane leaves: the EW lamps as asked, the rest as it was. -/
theorem setLights_ew {s s1 : State} {r y g : Bool}
    (h : setLights s s.ewLane r y g = some s1) (hw : Wired s) :
    Wired s1 ∧ s1.emergencyMode = s.emergencyMode ∧ s1.currentState = s.currentState ∧
    ewShows s1 = (r, y, g) ∧ nsShows s1 = nsShows s ∧ (NoLog s1 ↔ NoLog s) := by
  obtain ⟨l, hl, rfl⟩ := setLights_eq_some h
  have := shows_after_ew s.pins l r y g (hw.2 l hl) s
  exact ⟨hw, rfl, rfl, this.1, this.2, Iff.rfl⟩

/-! ## What the log leaves alone -/

/-- The fields the lamps depend on. -/
theorem addLogEntry_frame {env : LogEnv} {e : LogEntry} {s s1 : State}
    (h : addLogEntry env e s = some s1) :
    s1.pins = s.pins ∧ s1.currentState = s.currentState ∧
    s1.emergencyMode = s.emergencyMode ∧ s1.nsLane = s.nsLane ∧ s1.ewLane = s.ewLane ∧
    ¬ NoLog s := by
  unfold addLogEntry at h
  by_cases hge : s.logCount ≥ s.logBufferSize
  · have hno : ¬ NoLog s := fun hn => absurd hn.2 (by omega)
    by_cases hr : env.reallocOk = true
    · simp only [growLog, hge, hr, if_true] at h
      split_ifs at h
      cases h
      exact ⟨rfl, rfl, rfl, rfl, rfl, hno⟩
    · simp only [growLog, hge, hr, if_true] at h
      cases h
      exact ⟨rfl, rfl, rfl, rfl, rfl, hno⟩
  · simp only [growLog, hge, if_false] at h
    cases hb : s.logBuffer with
    | none => simp [hb] at h
    | some buf =>
      simp only [hb] at h
      split_ifs at h
      cases h
      exact ⟨rfl, rfl, rfl, rfl, rfl, fun hn => by simp [NoLog, hb] at hn⟩

theorem logTrafficData_frame {env : LogEnv} {id st : String} {s s1 : State}
    (h : logTrafficData env id st s = some s1) :
    s1.pins = s.pins ∧ s1.currentState = s.currentState ∧
    s1.emergencyMode = s.emergencyMode ∧ s1.nsLane = s.nsLane ∧ s1.ewLane = s.ewLane ∧
    ¬ NoLog s := by
  unfold logTrafficData at h
  split at h
  · exact absurd h (by simp)
  · exact addLogEntry_frame h

theorem logTrafficData_signals {env : LogEnv} {id st : String} {s s1 : State}
    (h : logTrafficData env id st s = some s1) (hw : Wired s) :
    Wired s1 ∧ s1.emergencyMode = s.emergencyMode ∧ s1.currentState = s.currentState ∧
    nsShows s1 = nsShows s ∧ ewShows s1 = ewShows s ∧ ¬ NoLog s := by
  obtain ⟨h1, h2, h3, h4, h5, h6⟩ := logTrafficData_frame h
  refine ⟨?_, h3, h2, ?_, ?_, h6⟩
  · unfold Wired
    rw [h4, h5]
    exact hw
  · simp only [nsShows, h1]
  · simp only [ewShows, h1]

theorem dynamicTimingAdjustment_signals {s s1 : State}
    (h : dynamicTimingAdjustment s = some s1) (hw : Wired s) :
    Wired s1 ∧ s1.emergencyMode = s.emergencyMode ∧ s1.currentState = s.currentState ∧
    nsShows s1 = nsShows s ∧ ewShows s1 = ewShows s ∧ (NoLog s1 ↔ NoLog s) := by
  unfold dynamicTimingAdjustment at h
  split at h
  · exact absurd h (by simp)
  · split at h
    · exact absurd h (by simp)
    · split_ifs at h <;> cases h <;> exact ⟨hw, rfl, rfl, rfl, rfl, Iff.rfl⟩

/-! ## The invariant -/

theorem updateTrafficSignals_safe {env : UpdateEnv} {s s1 : State} (h : SafeInv s)
    (hu : updateTrafficSignals env s = some s1) : SafeInv s1 := by
  obtain ⟨hw, hp⟩ := h
  unfold updateTrafficSignals at hu
  by_cases hem : s.emergencyMode = true
  · rw [if_pos hem] at hu
    obtain ⟨s2, h2, h3⟩ := Option.bind_eq_some.mp hu
    obtain ⟨w2, e2, c2, n2, x2, l2⟩ := setLights_ns h2 hw
    obtain ⟨w3, e3, c3, x3, n3, l3⟩ := setLights_ew h3 w2
    refine ⟨w3, Or.inl ⟨?_, ?_, ?_⟩⟩
    · rw [e3, e2, hem]
    · rw [n3, n2]; rfl
    · rw [x3]; rfl
  · have hem0 : s.emergencyMode = false := by simpa using hem
    rw [if_neg hem] at hu
    rw [hem0] at hp
    cases hst : s.currentState with
    | STATE_NS_GREEN =>
      simp only [hst] at hu hp
      split_ifs at hu with hfire
      · obtain ⟨s2, h2, h3⟩ := Option.bind_eq_some.mp hu
        have k2 : Wired s2 ∧ s2.emergencyMode = s.emergencyMode ∧
            s2.currentState = .STATE_NS_YELLOW ∧ nsShows s2 = YELLOW ∧
            ewShows s2 = ewShows s ∧ (NoLog s2 ↔ NoLog s) := setLights_ns h2 hw
        obtain ⟨w2, e2, c2, n2, x2, l2⟩ := k2
        obtain ⟨w3, e3, c3, n3, x3, l3⟩ := logTrafficData_signals h3 w2
        rw [l2] at l3
        refine ⟨w3, ?_⟩
        simp only [e3, e2, c3, c2, n3, n2, x3, x2, hem0]
        unfold Phase at hp ⊢
        rcases hp with h | h | h | h | h | h <;>
          simp_all [RED, YELLOW, GREEN, DARK]
      · cases hu
        refine ⟨hw, ?_⟩
        rw [hem0, hst]
        exact hp
    | STATE_NS_YELLOW =>
      simp only [hst] at hu hp
      split_ifs at hu with hfire
      · obtain ⟨s2, h2, hu2⟩ := Option.bind_eq_some.mp hu
        obtain ⟨s3, h3, hu3⟩ := Option.bind_eq_some.mp hu2
        obtain ⟨s4, h4, hu4⟩ := Option.bind_eq_some.mp hu3
        obtain ⟨s5, h5, h6⟩ := Option.bind_eq_some.mp hu4
        have k2 : Wired s2 ∧ s2.emergencyMode = s.emergencyMode ∧
            s2.currentState = .STATE_EW_GREEN ∧ nsShows s2 = RED ∧
            ewShows s2 = ewShows s ∧ (NoLog s2 ↔ NoLog s) := setLights_ns h2 hw
        obtain ⟨w2, e2, c2, n2, x2, l2⟩ := k2
        have k3 : Wired s3 ∧ s3.emergencyMode = s2.emergencyMode ∧
            s3.currentState = s2.currentState ∧ ewShows s3 = GREEN ∧ nsShows s3 = nsShows s2 ∧
            (NoLog s3 ↔ NoLog s2) := setLights_ew h3 w2
        obtain ⟨w3, e3, c3, x3, n3, l3⟩ := k3
        obtain ⟨w4, e4, c4, n4, x4, l4⟩ := dynamicTimingAdjustment_signals h4 w3
        obtain ⟨w5, e5, c5, n5, x5, l5⟩ := logTrafficData_signals h5 w4
        obtain ⟨w6, e6, c6, n6, x6, l6⟩ := logTrafficData_signals h6 w5
        rw [l4, l3, l2] at l5
        refine ⟨w6, ?_⟩
        simp only [e6, e5, e4, e3, e2, c6, c5, c4, c3, c2, n6, n5, n4, n3, n2, x6, x5, x4, x3, x2, hem0]
        unfold Phase at hp ⊢
        rcases hp with h | h | h | h | h | h <;>
          simp_all [RED, YELLOW, GREEN, DARK]
      · cases hu
        refine ⟨hw, ?_⟩
        rw [hem0, hst]
        exact hp
    | STATE_EW_GREEN =>
      simp only [hst] at hu hp
      split_ifs at hu with hfire
      · obtain ⟨s2, h2, h3⟩ := Option.bind_eq_some.mp hu
        have k2 : Wired s2 ∧ s2.emergencyMode = s.emergencyMode ∧
            s2.currentState = .STATE_EW_YELLOW ∧ ewShows s2 = YELLOW ∧
            nsShows s2 = nsShows s ∧ (NoLog s2 ↔ NoLog s) := setLights_ew h2 hw
        obtain ⟨w2, e2, c2, x2, n2, l2⟩ := k2
        obtain ⟨w3, e3, c3, n3, x3, l3⟩ := logTrafficData_signals h3 w2
        rw [l2] at l3
        refine ⟨w3, ?_⟩
        simp only [e3, e2, c3, c2, n3, n2, x3, x2, hem0]
        unfold Phase at hp ⊢
        rcases hp with h | h | h | h | h | h <;>
          simp_all [RED, YELLOW, GREEN, DARK]
      · cases hu
        refine ⟨hw, ?_⟩
        rw [hem0, hst]
        exact hp
    | STATE_EW_YELLOW =>
      simp only [hst] at hu hp
      split_ifs at hu with hfire
      · obtain ⟨s2, h2, hu2⟩ := Option.bind_eq_some.mp hu
        obtain ⟨s3, h3, hu3⟩ := Option.bind_eq_some.mp hu2
        obtain ⟨s4, h4, hu4⟩ := Option.bind_eq_some.mp hu3
        obtain ⟨s5, h5, h6⟩ := Option.bind_eq_some.mp hu4
        have k2 : Wired s2 ∧ s2.emergencyMode = s.emergencyMode ∧
            s2.currentState = .STATE_NS_GREEN ∧ ewShows s2 = RED ∧
            nsShows s2 = nsShows s ∧ (NoLog s2 ↔ NoLog s) := setLights_ew h2 hw
        obtain ⟨w2, e2, c2, x2, n2, l2⟩ := k2
        have k3 : Wired s3 ∧ s3.emergencyMode = s2.emergencyMode ∧
            s3.currentState = s2.currentState ∧ nsShows s3 = GREEN ∧ ewShows s3 = ewShows s2 ∧
            (NoLog s3 ↔ NoLog s2) := setLights_ns h3 w2
        obtain ⟨w3, e3, c3, n3, x3, l3⟩ := k3
        obtain ⟨w4, e4, c4, n4, x4, l4⟩ := dynamicTimingAdjustment_signals h4 w3
        obtain ⟨w5, e5, c5, n5, x5, l5⟩ := logTrafficData_signals h5 w4
        obtain ⟨w6, e6, c6, n6, x6, l6⟩ := logTrafficData_signals h6 w5
        rw [l4, l3, l2] at l5
        refine ⟨w6, ?_⟩
        simp only [e6, e5, e4, e3, e2, c6, c5, c4, c3, c2, n6, n5, n4, n3, n2, x6, x5, x4, x3, x2, hem0]
        unfold Phase at hp ⊢
        rcases hp with h | h | h | h | h | h <;>
          simp_all [RED, YELLOW, GREEN, DARK]
      · cases hu
        refine ⟨hw, ?_⟩
        rw [hem0, hst]
        exact hp
    | STATE_EMERGENCY =>
      simp only [hst] at hu hp
      cases hu
      refine ⟨hw, ?_⟩
      rw [hem0, hst]
      exact hp

theorem checkErrorStates_safe {clock : Nat} {s s1 : State} (h : SafeInv s)
    (hc : checkErrorStates clock s = some s1) : SafeInv s1 := by
  obtain ⟨hw, hp⟩ := h
  unfold checkErrorStates at hc
  simp only at hc
  split_ifs at hc with hboth
  · obtain ⟨s2, h2, hc2⟩ := Option.bind_eq_some.mp hc
    obtain ⟨s3, h3, h4⟩ := Option.bind_eq_some.mp hc2
    obtain ⟨w2, e2, c2, n2, x2, l2⟩ := setLights_ns h2 hw
    obtain ⟨w3, e3, c3, x3, n3, l3⟩ := setLights_ew h3 w2
    cases h4
    exact ⟨w3, Or.inl ⟨rfl, n3.trans n2, x3⟩⟩
  · cases hc
    exact ⟨hw, hp⟩

theorem detectLane_wiring (t : Nat) (d : Bool) (l : TrafficLane) :
    (detectLane t d l).wiring = l.wiring := by
  unfold detectLane
  split_ifs <;> rfl

theorem detectVehicles_safe {clock : Nat} {nsD ewD : Bool} {s s1 : State} (h : SafeInv s)
    (hd : detectVehicles clock nsD ewD s = some s1) : SafeInv s1 := by
  obtain ⟨hw, hp⟩ := h
  unfold detectVehicles at hd
  cases hns : s.nsLane with
  | none => simp [hns] at hd
  | some ns =>
    cases hew : s.ewLane with
    | none => simp [hns, hew] at hd
    | some ew =>
      simp only [hns, hew, Option.some.injEq] at hd
      subst hd
      refine ⟨⟨?_, ?_⟩, hp⟩
      · intro l hl
        simp only [Option.some.injEq] at hl
        rw [← hl, detectLane_wiring]
        exact hw.1 ns hns
      · intro l hl
        simp only [Option.some.injEq] at hl
        rw [← hl, detectLane_wiring]
        exact hw.2 ew hew

theorem enterEmergencyMode_safe {clock : Nat} {s s1 : State} (h : SafeInv s)
    (he : enterEmergencyMode clock s = some s1) : SafeInv s1 := by
  obtain ⟨hw, -⟩ := h
  unfold enterEmergencyMode at he
  obtain ⟨s2, h2, h3⟩ := Option.bind_eq_some.mp he
  have k2 : Wired s2 ∧ s2.emergencyMode = true ∧ s2.currentState = .STATE_EMERGENCY ∧
      nsShows s2 = RED ∧ ewShows s2 = ewShows s ∧ (NoLog s2 ↔ NoLog s) := setLights_ns h2 hw
  obtain ⟨w2, e2, c2, n2, x2, l2⟩ := k2
  obtain ⟨w3, e3, c3, x3, n3, l3⟩ := setLights_ew h3 w2
  exact ⟨w3, Or.inl ⟨e3.trans e2, n3.trans n2, x3⟩⟩

theorem phase_mono {em : Bool} {st : TrafficState} {ns ew : Bool × Bool × Bool} {p q : Prop}
    (hpq : p → q) (h : Phase em st ns ew p) : Phase em st ns ew q := by
  unfold Phase at h ⊢
  exact h.imp_right fun h => h.imp_right fun h => h.imp_right fun h => h.imp_right fun h =>
    h.imp_right fun h => ⟨h.1, h.2.1, h.2.2.1, h.2.2.2.1, hpq h.2.2.2.2⟩

theorem ite_none_some {α : Type} {c : Prop} [Decidable c] {a b : α}
    (h : (if c then none else some a) = some b) : b = a := by
  split_ifs at h
  exact (Option.some.inj h).symm

theorem handleSerialCommands_safe {serial : Option String} {clock : Nat} {s s1 : State}
    (h : SafeInv s) (hc : handleSerialCommands serial clock s = some s1) : SafeInv s1 := by
  unfold handleSerialCommands at hc
  cases serial with
  | none =>
    cases hc
    exact h
  | some line =>
    simp only at hc
    split_ifs at hc
    · cases hc
      exact h
    · rw [ite_none_some hc]
      exact h
    · rw [ite_none_some hc]
      exact h
    · exact enterEmergencyMode_safe h hc
    · obtain ⟨hw, hp⟩ := h
      cases hns : s.nsLane with
      | none => simp [hns] at hc
      | some ns =>
        cases hew : s.ewLane with
        | none => simp [hns, hew] at hc
        | some ew =>
          simp only [hns, hew, Option.some.injEq] at hc
          subst hc
          refine ⟨⟨?_, ?_⟩, ?_⟩
          · intro l hl
            simp only [Option.some.injEq] at hl
            rw [← hl]
            exact hw.1 ns hns
          · intro l hl
            simp only [Option.some.injEq] at hl
            rw [← hl]
            exact hw.2 ew hew
          · refine phase_mono (fun hn => ⟨hn.1, ?_⟩) hp
            exact Nat.lt_of_le_of_lt (Nat.zero_le _) hn.2
    · cases hc
      exact h

theorem emergencyTimeout_safe (t : Nat) {s : State} (h : SafeInv s) :
    SafeInv (emergencyTimeout t s) := by
  obtain ⟨hw, hp⟩ := h
  unfold emergencyTimeout
  split_ifs with hfire
  · refine ⟨hw, Or.inr (Or.inl ⟨rfl, rfl, ?_⟩)⟩
    have hem : s.emergencyMode = true := by
      simp only [Bool.and_eq_true] at hfire
      exact hfire.1
    unfold Phase at hp
    rcases hp with h | h | h | h | h | h
    · exact ⟨Or.inr h.2.1, h.2.2⟩
    all_goals exact absurd (hem.symm.trans h.1) (by decide)
  · exact ⟨hw, hp⟩

theorem initializeSystem_safe {env : InitEnv} {s : State}
    (h : initializeSystem env = some s) : SafeInv s := by
  unfold initializeSystem at h
  have hwired : ∀ (a b : Bool) (p : Nat → Bool) (lb : Option (List LogEntry)) (t : Nat),
      Wired { nsLane := (createLane a (fun _ => false) "NS" NS_RED NS_YELLOW NS_GREEN
                          NS_SENSOR).1,
              ewLane := (createLane b p "EW" EW_RED EW_YELLOW EW_GREEN EW_SENSOR).1,
              logBuffer := lb, logBufferSize := 10, logCount := 0,
              currentState := .STATE_NS_GREEN, stateStartTime := t,
              currentGreenTime := MIN_GREEN_TIME, emergencyMode := false,
              emergencyStartTime := 0,
              pins := (createLane b p "EW" EW_RED EW_YELLOW EW_GREEN EW_SENSOR).2 } := by
    intro a b p lb t
    constructor
    · intro l hl
      cases a
      · simp [createLane] at hl
      · simp only [createLane, if_true, Option.some.injEq] at hl
        rw [← hl]
        rfl
    · intro l hl
      cases b
      · simp [createLane] at hl
      · simp only [createLane, if_true, Option.some.injEq] at hl
        rw [← hl]
        rfl
  cases hlb : env.logBlock with
  | none =>
    simp only [hlb, Option.some.injEq] at h
    subst h
    refine ⟨hwired _ _ _ _ _, Or.inr (Or.inr (Or.inr (Or.inr (Or.inr
      ⟨rfl, rfl, ?_, ?_, rfl, show (0 : Nat) < 10 by decide⟩))))⟩
    · cases env.nsAlloc <;> cases env.ewAlloc <;> rfl
    · cases env.nsAlloc <;> cases env.ewAlloc <;> rfl
  | some block =>
    simp only [hlb] at h
    split at h
    · exact absurd h (by simp)
    · rename_i s2 h2
      have k2 : Wired s2 ∧ s2.emergencyMode = false ∧ s2.currentState = .STATE_NS_GREEN ∧
          nsShows s2 = GREEN ∧ True ∧ True := by
        obtain ⟨w2, e2, c2, n2, -, -⟩ := setLights_ns h2 (hwired _ _ _ _ _)
        exact ⟨w2, e2, c2, n2, trivial, trivial⟩
      obtain ⟨w2, e2, c2, n2, -, -⟩ := k2
      obtain ⟨w3, e3, c3, x3, n3, l3⟩ := setLights_ew h w2
      exact ⟨w3, Or.inr (Or.inl ⟨e3.trans e2, c3.trans c2, Or.inl (n3.trans n2), x3⟩)⟩

theorem loop_safe {env : LoopEnv} {s s1 : State} (h : SafeInv s)
    (hl : loop env s = some s1) : SafeInv s1 := by
  unfold loop at hl
  obtain ⟨s2, h2, hl2⟩ := Option.bind_eq_some.mp hl
  obtain ⟨s3, h3, hl3⟩ := Option.bind_eq_some.mp hl2
  obtain ⟨s4, h4, h5⟩ := Option.bind_eq_some.mp hl3
  exact checkErrorStates_safe (updateTrafficSignals_safe (detectVehicles_safe
    (handleSerialCommands_safe (emergencyTimeout_safe _ h) h2) h3) h4) h5

theorem reachable_safeInv {s : State} (h : Reachable s) : SafeInv s := by
  induction h with
  | init env s h => exact initializeSystem_safe h
  | step env s s1 _ hs ih => exact loop_safe ih hs

theorem reachable_runLoops (envs : List LoopEnv) {s s1 : State} (h : Reachable s)
    (hr : runLoops envs s = some s1) : Reachable s1 := by
  induction envs generalizing s with
  | nil =>
    cases hr
    exact h
  | cons env rest ih =>
    unfold runLoops at hr
    split at hr
    · exact absurd hr (by simp)
    · rename_i s2 h2
      exact ih (Reachable.step env s s2 h h2) hr

/-! ## Safety of the lamps -/

/-- C15: in every state the controller reaches from `initializeSystem` by passes of `loop`,
whatever the sensors, the serial port, the clock and the heap give, the NS green lamp and the
EW green lamp are not both on, and when a lane shows green or yellow the other lane shows
red only. -/
theorem lights_never_conflict (s : State) (h : Reachable s) :
    ¬ (s.pins NS_GREEN = true ∧ s.pins EW_GREEN = true) ∧
    ((s.pins NS_GREEN = true ∨ s.pins NS_YELLOW = true) → ewShows s = RED) ∧
    ((s.pins EW_GREEN = true ∨ s.pins EW_YELLOW = true) → nsShows s = RED) := by
  obtain ⟨-, hp⟩ := reachable_safeInv h
  unfold Phase at hp
  simp only [nsShows, ewShows, RED, YELLOW, GREEN, DARK, Prod.mk.injEq] at hp ⊢
  rcases hp with h | h | h | h | h | h <;> simp_all

theorem lights_never_conflict_witness :
    nsShows demoStart = GREEN ∧ ewShows demoStart = RED ∧
    nsShows demoCross = RED ∧ ewShows demoCross = GREEN ∧
    ¬ (demoCross.pins NS_GREEN = true ∧ demoCross.pins EW_GREEN = true) :=
  ⟨by decide, by decide, by decide, by decide,
    (lights_never_conflict demoCross
      (reachable_runLoops [passAt 3000 none, passAt 5000 none]
        (Reachable.init demoInit demoStart rfl) rfl)).1⟩

/-- C20, a run on which the lamps do not show what `currentState` says: after
`initializeSystem`, the command `emergency` at 100 ms and a pass of `loop` at 15100 ms,
`emergencyMode` is false and `currentState` is `STATE_NS_GREEN`, and both lanes show red only;
the pass at 18100 ms then takes the NS lane from red to yellow. -/
theorem emergency_end_leaves_lamps_red :
    Reachable demoResumed ∧
    demoResumed.emergencyMode = false ∧ demoResumed.currentState = .STATE_NS_GREEN ∧
    nsShows demoResumed = RED ∧ ewShows demoResumed = RED ∧
    (loop (passAt 18100 none) demoResumed).map (fun s => (s.currentState, nsShows s)) =
      some (.STATE_NS_YELLOW, YELLOW) :=
  ⟨reachable_runLoops [passAt 100 (some "Emergency\r"), passAt 15100 none]
      (Reachable.init demoInit demoStart rfl) rfl,
    by decide, by decide, by decide, by decide, by decide⟩

/-! ## Dynamic timing -/

/-- What `addLogEntry` writes: the three globals of the log, nothing else. -/
theorem addLogEntry_only_log {env : LogEnv} {e : LogEntry} {s s1 : State}
    (h : addLogEntry env e s = some s1) :
    s1 = { s with logBuffer := s1.logBuffer, logBufferSize := s1.logBufferSize,
                  logCount := s1.logCount } := by
  unfold addLogEntry at h
  by_cases hge : s.logCount ≥ s.logBufferSize
  · by_cases hr : env.reallocOk = true
    · simp only [growLog, hge, hr, if_true] at h
      split_ifs at h
      cases h
      rfl
    · simp only [growLog, hge, hr, if_true] at h
      cases h
      rfl
  · simp only [growLog, hge, if_false] at h
    cases hb : s.logBuffer with
    | none => simp [hb] at h
    | some buf =>
      simp only [hb] at h
      split_ifs at h
      cases h
      rfl

theorem logTrafficData_only_log {env : LogEnv} {id st : String} {s s1 : State}
    (h : logTrafficData env id st s = some s1) :
    s1 = { s with logBuffer := s1.logBuffer, logBufferSize := s1.logBufferSize,
                  logCount := s1.logCount } := by
  unfold logTrafficData at h
  split at h
  · exact absurd h (by simp)
  · exact addLogEntry_only_log h

/-- C21, what the code does instead: `dynamicTimingAdjustment` runs after `currentState` has
been set to the new phase, so when `updateTrafficSignals` starts the EW green phase
`currentGreenTime` is computed from the vehicle count of the NS lane, and when it starts the
NS green phase from the vehicle count of the EW lane. -/
theorem dynamicTiming_uses_other_lane (env : UpdateEnv) (s s1 : State) (ns ew : TrafficLane)
    (hem : s.emergencyMode = false) (hns : s.nsLane = some ns) (hew : s.ewLane = some ew)
    (hu : updateTrafficSignals env s = some s1) :
    (s.currentState = .STATE_NS_YELLOW →
      usub (millis env.clock) s.stateStartTime ≥ YELLOW_TIME →
        s1.currentState = .STATE_EW_GREEN ∧
        s1.currentGreenTime = greenTimeFor ns.vehicleCount) ∧
    (s.currentState = .STATE_EW_YELLOW →
      usub (millis env.clock) s.stateStartTime ≥ YELLOW_TIME →
        s1.currentState = .STATE_NS_GREEN ∧
        s1.currentGreenTime = greenTimeFor ew.vehicleCount) := by
  have hem1 : ¬ s.emergencyMode = true := by simp [hem]
  unfold updateTrafficSignals at hu
  rw [if_neg hem1] at hu
  constructor
  · intro hst hfire
    simp only [hst] at hu
    rw [if_pos hfire] at hu
    obtain ⟨s2, h2, hu2⟩ := Option.bind_eq_some.mp hu
    obtain ⟨s3, h3, hu3⟩ := Option.bind_eq_some.mp hu2
    obtain ⟨s4, h4, hu4⟩ := Option.bind_eq_some.mp hu3
    obtain ⟨s5, h5, h6⟩ := Option.bind_eq_some.mp hu4
    obtain ⟨l2, -, rfl⟩ := setLights_eq_some h2
    obtain ⟨l3, -, rfl⟩ := setLights_eq_some h3
    simp only [dynamicTimingAdjustment, hns, hew] at h4
    rw [if_neg (by simp)] at h4
    cases h4
    rw [logTrafficData_only_log h6, logTrafficData_only_log h5]
    exact ⟨rfl, rfl⟩
  · intro hst hfire
    simp only [hst] at hu
    rw [if_pos hfire] at hu
    obtain ⟨s2, h2, hu2⟩ := Option.bind_eq_some.mp hu
    obtain ⟨s3, h3, hu3⟩ := Option.bind_eq_some.mp hu2
    obtain ⟨s4, h4, hu4⟩ := Option.bind_eq_some.mp hu3
    obtain ⟨s5, h5, h6⟩ := Option.bind_eq_some.mp hu4
    obtain ⟨l2, -, rfl⟩ := setLights_eq_some h2
    obtain ⟨l3, -, rfl⟩ := setLights_eq_some h3
    simp only [dynamicTimingAdjustment, hns, hew] at h4
    simp only [true_or, if_true] at h4
    cases h4
    rw [logTrafficData_only_log h6, logTrafficData_only_log h5]
    exact ⟨rfl, rfl⟩

theorem dynamicTiming_uses_other_lane_witness :
    Reachable demoQueue ∧
    demoQueue.nsLane.map TrafficLane.vehicleCount = some 0 ∧
    demoQueue.ewLane.map TrafficLane.vehicleCount = some 3 ∧
    greenTimeFor 3 = 5000 ∧
    demoQueueGreen.currentState = .STATE_EW_GREEN ∧
    demoQueueGreen.currentGreenTime =
      greenTimeFor (demoQueue.nsLane.getD blankLane).vehicleCount ∧
    demoQueueGreen.currentGreenTime = 3000 :=
  ⟨reachable_runLoops queuePasses (Reachable.init demoInit demoStart rfl) rfl,
    by decide, by decide, by decide,
    ((dynamicTiming_uses_other_lane (passAt 5000 none).update demoQueue demoQueueGreen
      (demoQueue.nsLane.getD blankLane) (demoQueue.ewLane.getD blankLane)
      (by decide) (by decide) (by decide) rfl).1 (by decide) (by decide)).1,
    ((dynamicTiming_uses_other_lane (passAt 5000 none).update demoQueue demoQueueGreen
      (demoQueue.nsLane.getD blankLane) (demoQueue.ewLane.getD blankLane)
      (by decide) (by decide) (by decide) rfl).1 (by decide) (by decide)).2,
    by decide⟩

end Traffic

namespace Traffic

/-! ## Emergency mode -/

/-- The difference of two readings of the clock is the time between them, as long as it is
below `ULONG_MODULUS`. -/
theorem usub_millis (t t0 : Nat) (h : t0 ≤ t) (hw : t - t0 < ULONG_MODULUS) :
    usub (millis t) (millis t0) = t - t0 := by
  unfold usub millis ULONG_MODULUS at *
  omega

theorem greenTimeFor_ge (count : Int) : MIN_GREEN_TIME ≤ greenTimeFor count := by
  unfold greenTimeFor MIN_GREEN_TIME MAX_GREEN_TIME
  split_ifs <;> omega

theorem safeInv_no_conflict {s : State} (h : SafeInv s) :
    (s.pins NS_GREEN && s.pins EW_GREEN) = false := by
  obtain ⟨-, hp⟩ := h
  unfold Phase at hp
  simp only [nsShows, ewShows, RED, YELLOW, GREEN, DARK, Prod.mk.injEq] at hp
  rcases hp with h | h | h | h | h | h <;> simp_all

theorem addLogEntry_logInv {env : LogEnv} {e : LogEntry} {s s1 : State}
    (h : addLogEntry env e s = some s1) (hl : LogInv s) : LogInv s1 := by
  unfold LogInv at hl ⊢
  unfold addLogEntry at h
  by_cases hge : s.logCount ≥ s.logBufferSize
  · by_cases hr : env.reallocOk = true
    · simp only [growLog, hge, hr, if_true] at h
      split_ifs at h with hlt
      cases h
      simp only [Option.getD_some, List.length_set, List.length_take, List.length_append,
        List.length_replicate] at hlt ⊢
      omega
    · simp only [growLog, hge, hr, if_true] at h
      cases h
      simp only
      omega
  · simp only [growLog, hge, if_false] at h
    cases hb : s.logBuffer with
    | none => simp [hb] at h
    | some buf =>
      simp only [hb] at h
      split_ifs at h with hlt
      cases h
      simp only [hb, Option.getD_some, List.length_set] at hl ⊢
      omega

theorem logTrafficData_logInv {env : LogEnv} {id st : String} {s s1 : State}
    (h : logTrafficData env id st s = some s1) (hl : LogInv s) : LogInv s1 := by
  unfold logTrafficData at h
  split at h
  · exact absurd h (by simp)
  · exact addLogEntry_logInv h hl

theorem setLights_runInv {s s1 : State} {lane : Option TrafficLane} {r y g : Bool}
    (h : setLights s lane r y g = some s1) (hi : RunInv s) : RunInv s1 := by
  obtain ⟨l, -, rfl⟩ := setLights_eq_some h
  exact hi

theorem logTrafficData_runInv {env : LogEnv} {id st : String} {s s1 : State}
    (h : logTrafficData env id st s = some s1) (hi : RunInv s) : RunInv s1 := by
  refine ⟨?_, logTrafficData_logInv h hi.2.1, ?_⟩
  · rw [logTrafficData_only_log h]
    exact hi.1
  · rw [logTrafficData_only_log h]
    exact hi.2.2

theorem dynamicTimingAdjustment_runInv {s s1 : State}
    (h : dynamicTimingAdjustment s = some s1) (hi : RunInv s) : RunInv s1 := by
  unfold dynamicTimingAdjustment at h
  split at h
  · exact absurd h (by simp)
  · split at h
    · exact absurd h (by simp)
    · split_ifs at h <;> cases h <;> exact ⟨hi.1, hi.2.1, greenTimeFor_ge _⟩

theorem updateTrafficSignals_runInv {env : UpdateEnv} {s s1 : State} (hi : RunInv s)
    (hu : updateTrafficSignals env s = some s1) : RunInv s1 := by
  unfold updateTrafficSignals at hu
  by_cases hem : s.emergencyMode = true
  · rw [if_pos hem] at hu
    obtain ⟨s2, h2, h3⟩ := Option.bind_eq_some.mp hu
    exact setLights_runInv h3 (setLights_runInv h2 hi)
  · rw [if_neg hem] at hu
    have hmove : ∀ (st : TrafficState) (t : Nat),
        RunInv { s with currentState := st, stateStartTime := t } :=
      fun st t => ⟨fun h => absurd h hem, hi.2.1, hi.2.2⟩
    cases hst : s.currentState with
    | STATE_NS_GREEN =>
      simp only [hst] at hu
      split_ifs at hu
      · obtain ⟨s2, h2, h3⟩ := Option.bind_eq_some.mp hu
        exact logTrafficData_runInv h3 (setLights_runInv h2 (hmove _ _))
      · cases hu
        exact hi
    | STATE_NS_YELLOW =>
      simp only [hst] at hu
      split_ifs at hu
      · obtain ⟨s2, h2, hu2⟩ := Option.bind_eq_some.mp hu
        obtain ⟨s3, h3, hu3⟩ := Option.bind_eq_some.mp hu2
        obtain ⟨s4, h4, hu4⟩ := Option.bind_eq_some.mp hu3
        obtain ⟨s5, h5, h6⟩ := Option.bind_eq_some.mp hu4
        exact logTrafficData_runInv h6 (logTrafficData_runInv h5
          (dynamicTimingAdjustment_runInv h4 (setLights_runInv h3
            (setLights_runInv h2 (hmove _ _)))))
      · cases hu
        exact hi
    | STATE_EW_GREEN =>
      simp only [hst] at hu
      split_ifs at hu
      · obtain ⟨s2, h2, h3⟩ := Option.bind_eq_some.mp hu
        exact logTrafficData_runInv h3 (setLights_runInv h2 (hmove _ _))
      · cases hu
        exact hi
    | STATE_EW_YELLOW =>
      simp only [hst] at hu
      split_ifs at hu
      · obtain ⟨s2, h2, hu2⟩ := Option.bind_eq_some.mp hu
        obtain ⟨s3, h3, hu3⟩ := Option.bind_eq_some.mp hu2
        obtain ⟨s4, h4, hu4⟩ := Option.bind_eq_some.mp hu3
        obtain ⟨s5, h5, h6⟩ := Option.bind_eq_some.mp hu4
        exact logTrafficData_runInv h6 (logTrafficData_runInv h5
          (dynamicTimingAdjustment_runInv h4 (setLights_runInv h3
            (setLights_runInv h2 (hmove _ _)))))
      · cases hu
        exact hi
    | STATE_EMERGENCY =>
      simp only [hst] at hu
      cases hu
      exact hi

theorem checkErrorStates_of_safe (clock : Nat) {s : State} (hs : SafeInv s) :
    checkErrorStates clock s = some s := by
  unfold checkErrorStates
  simp only [safeInv_no_conflict hs, Bool.false_eq_true, if_false]

theorem detectVehicles_runInv {clock : Nat} {nsD ewD : Bool} {s s1 : State} (hi : RunInv s)
    (hd : detectVehicles clock nsD ewD s = some s1) : RunInv s1 := by
  unfold detectVehicles at hd
  cases hns : s.nsLane with
  | none => simp [hns] at hd
  | some ns =>
    cases hew : s.ewLane with
    | none => simp [hns, hew] at hd
    | some ew =>
      simp only [hns, hew, Option.some.injEq] at hd
      subst hd
      refine ⟨fun h => ?_, hi.2.1, hi.2.2⟩
      obtain ⟨h1, h2, -, -⟩ := hi.1 h
      exact ⟨h1, h2, by simp, by simp⟩

theorem enterEmergencyMode_inEmergency {clock : Nat} {s s1 : State}
    (he : enterEmergencyMode clock s = some s1) :
    InEmergency s1 ∧ s1.emergencyStartTime = millis clock ∧
    s1.stateStartTime = s.stateStartTime ∧ s1.currentGreenTime = s.currentGreenTime ∧
    LogInv s1 = LogInv s := by
  unfold enterEmergencyMode at he
  obtain ⟨s2, h2, h3⟩ := Option.bind_eq_some.mp he
  obtain ⟨l2, hl2, rfl⟩ := setLights_eq_some h2
  obtain ⟨l3, hl3, rfl⟩ := setLights_eq_some h3
  refine ⟨⟨rfl, rfl, ?_, ?_⟩, rfl, rfl, rfl, rfl⟩
  · show s.nsLane ≠ none
    have : s.nsLane = some l2 := hl2
    simp [this]
  · show s.ewLane ≠ none
    have : s.ewLane = some l3 := hl3
    simp [this]

theorem handleSerialCommands_runInv {serial : Option String} {clock : Nat} {s s1 : State}
    (hi : RunInv s) (hc : handleSerialCommands serial clock s = some s1) : RunInv s1 := by
  unfold handleSerialCommands at hc
  cases serial with
  | none =>
    cases hc
    exact hi
  | some line =>
    simp only at hc
    split_ifs at hc
    · cases hc
      exact hi
    · rw [ite_none_some hc]
      exact hi
    · rw [ite_none_some hc]
      exact hi
    · obtain ⟨h1, -, -, h4, h5⟩ := enterEmergencyMode_inEmergency hc
      refine ⟨fun _ => h1, ?_, ?_⟩
      · rw [h5]
        exact hi.2.1
      · rw [h4]
        exact hi.2.2
    · cases hns : s.nsLane with
      | none => simp [hns] at hc
      | some ns =>
        cases hew : s.ewLane with
        | none => simp [hns, hew] at hc
        | some ew =>
          simp only [hns, hew, Option.some.injEq] at hc
          subst hc
          refine ⟨fun h => ?_, ⟨Nat.zero_le _, hi.2.1.2⟩, hi.2.2⟩
          obtain ⟨h1, h2, -, -⟩ := hi.1 h
          exact ⟨h1, h2, by simp, by simp⟩
    · cases hc
      exact hi

theorem emergencyTimeout_runInv (t : Nat) {s : State} (hi : RunInv s) :
    RunInv (emergencyTimeout t s) := by
  unfold emergencyTimeout
  split_ifs
  · exact ⟨fun h => absurd h (by simp), hi.2.1, hi.2.2⟩
  · exact hi

theorem initializeSystem_runInv {env : InitEnv} {s : State}
    (h : initializeSystem env = some s) : RunInv s := by
  unfold initializeSystem at h
  cases hlb : env.logBlock with
  | none =>
    simp only [hlb, Option.some.injEq] at h
    subst h
    exact ⟨fun h => absurd h (by simp), ⟨Nat.zero_le _, Nat.zero_le _⟩, le_refl _⟩
  | some block =>
    simp only [hlb] at h
    split at h
    · exact absurd h (by simp)
    · rename_i s2 h2
      refine setLights_runInv h (setLights_runInv h2 ?_)
      exact ⟨fun h => absurd h (by simp), ⟨Nat.zero_le _, by simp [LogInv]⟩, le_refl _⟩

theorem loop_runInv {env : LoopEnv} {s s1 : State} (hs : SafeInv s) (hi : RunInv s)
    (hl : loop env s = some s1) : RunInv s1 := by
  unfold loop at hl
  obtain ⟨s2, h2, hl2⟩ := Option.bind_eq_some.mp hl
  obtain ⟨s3, h3, hl3⟩ := Option.bind_eq_some.mp hl2
  obtain ⟨s4, h4, h5⟩ := Option.bind_eq_some.mp hl3
  have hs4 : SafeInv s4 := updateTrafficSignals_safe (detectVehicles_safe
    (handleSerialCommands_safe (emergencyTimeout_safe _ hs) h2) h3) h4
  rw [checkErrorStates_of_safe _ hs4] at h5
  cases h5
  exact updateTrafficSignals_runInv (detectVehicles_runInv
    (handleSerialCommands_runInv (emergencyTimeout_runInv _ hi) h2) h3) h4

theorem reachable_runInv {s : State} (h : Reachable s) : RunInv s := by
  induction h with
  | init env s h => exact initializeSystem_runInv h
  | step env s s1 hr hs ih => exact loop_runInv (reachable_safeInv hr) ih hs

/-! ### A pass of `loop()` comes back -/

theorem setLights_total (s : State) {lane : Option TrafficLane} (r y g : Bool)
    (h : lane ≠ none) : ∃ s1, setLights s lane r y g = some s1 := by
  cases lane with
  | none => exact absurd rfl h
  | some l => exact ⟨_, rfl⟩

theorem enterEmergencyMode_total (clock : Nat) {s : State} (hns : s.nsLane ≠ none)
    (hew : s.ewLane ≠ none) : ∃ s1, enterEmergencyMode clock s = some s1 := by
  unfold enterEmergencyMode
  obtain ⟨s2, h2⟩ := setLights_total
    { s with emergencyMode := true, emergencyStartTime := millis clock,
             currentState := .STATE_EMERGENCY } true false false hns
  obtain ⟨l2, -, e2⟩ := setLights_eq_some h2
  have hew2 : s2.ewLane ≠ none := by rw [e2]; exact hew
  obtain ⟨s3, h3⟩ := setLights_total s2 true false false hew2
  exact ⟨s3, Option.bind_eq_some.mpr ⟨s2, h2, h3⟩⟩

/-- With both lanes allocated and a consistent log, `handleSerialCommands` comes back: in
emergency mode when the command is `emergency`, and else with the signal state as it was. -/
theorem handleSerialCommands_total (serial : Option String) (clock : Nat) {s : State}
    (hns : s.nsLane ≠ none) (hew : s.ewLane ≠ none) (hl : LogInv s) :
    ∃ s2, handleSerialCommands serial clock s = some s2 ∧
      ((serial.map normalize = some "emergency" ∧ InEmergency s2 ∧
          s2.emergencyStartTime = millis clock ∧ s2.stateStartTime = s.stateStartTime) ∨
       (serial.map normalize ≠ some "emergency" ∧ s2.emergencyMode = s.emergencyMode ∧
          s2.currentState = s.currentState ∧ s2.stateStartTime = s.stateStartTime ∧
          s2.emergencyStartTime = s.emergencyStartTime ∧
          s2.currentGreenTime = s.currentGreenTime ∧
          s2.nsLane ≠ none ∧ s2.ewLane ≠ none)) := by
  have hsame : ∀ s2 : State, s2 = s →
      s2.emergencyMode = s.emergencyMode ∧
      s2.currentState = s.currentState ∧ s2.stateStartTime = s.stateStartTime ∧
      s2.emergencyStartTime = s.emergencyStartTime ∧
      s2.currentGreenTime = s.currentGreenTime ∧ s2.nsLane ≠ none ∧ s2.ewLane ≠ none := by
    intro s2 h
    subst h
    exact ⟨rfl, rfl, rfl, rfl, rfl, hns, hew⟩
  unfold handleSerialCommands
  cases serial with
  | none => exact ⟨s, rfl, Or.inr ⟨by simp, hsame s rfl⟩⟩
  | some line =>
    simp only [Option.map_some', Option.some.injEq, ne_eq]
    by_cases h1 : normalize line = "help" ∨ normalize line = "menu"
    · rw [if_pos h1]
      refine ⟨s, rfl, Or.inr ⟨?_, hsame s rfl⟩⟩
      rcases h1 with h | h <;> rw [h] <;> decide
    rw [if_neg h1]
    by_cases h2 : normalize line = "status"
    · rw [if_pos h2]
      have hp : printStatistics s = some s := by
        unfold printStatistics
        rw [if_neg (by simp [hns, hew])]
      exact ⟨s, hp, Or.inr ⟨by rw [h2]; decide, hsame s rfl⟩⟩
    rw [if_neg h2]
    by_cases h3 : normalize line = "logs"
    · rw [if_pos h3]
      have hp : printLogs s = some s := by
        unfold printLogs
        simp only
        rw [if_neg (fun hc => absurd hl.1 (by omega))]
      exact ⟨s, hp, Or.inr ⟨by rw [h3]; decide, hsame s rfl⟩⟩
    rw [if_neg h3]
    by_cases h4 : normalize line = "emergency"
    · rw [if_pos h4]
      obtain ⟨s2, he⟩ := enterEmergencyMode_total clock hns hew
      obtain ⟨e1, e2, e3, -, -⟩ := enterEmergencyMode_inEmergency he
      exact ⟨s2, he, Or.inl ⟨h4, e1, e2, e3⟩⟩
    rw [if_neg h4]
    by_cases h5 : normalize line = "reset"
    · rw [if_pos h5]
      obtain ⟨ns, hns1⟩ := Option.ne_none_iff_exists'.mp hns
      obtain ⟨ew, hew1⟩ := Option.ne_none_iff_exists'.mp hew
      simp only [hns1, hew1]
      exact ⟨_, rfl, Or.inr ⟨h4, rfl, rfl, rfl, rfl, rfl, by simp, by simp⟩⟩
    rw [if_neg h5]
    exact ⟨s, rfl, Or.inr ⟨h4, hsame s rfl⟩⟩

theorem detectVehicles_total (clock : Nat) (nsD ewD : Bool) {s : State}
    (hns : s.nsLane ≠ none) (hew : s.ewLane ≠ none) :
    ∃ s1, detectVehicles clock nsD ewD s = some s1 ∧
      s1 = { s with nsLane := s1.nsLane, ewLane := s1.ewLane } ∧
      s1.nsLane ≠ none ∧ s1.ewLane ≠ none := by
  obtain ⟨ns, hns1⟩ := Option.ne_none_iff_exists'.mp hns
  obtain ⟨ew, hew1⟩ := Option.ne_none_iff_exists'.mp hew
  unfold detectVehicles
  simp only [hns1, hew1]
  exact ⟨_, rfl, rfl, by simp, by simp⟩

/-- The rest of a pass of `loop()` once `handleSerialCommands` has come back in emergency
mode: both lanes are set to red only, and the signal state is left as it is. -/
theorem loop_in_emergency {env : LoopEnv} {s s2 : State}
    (h2 : handleSerialCommands env.serial env.clockEmergency
      (emergencyTimeout (millis env.clock) s) = some s2)
    (hs : SafeInv s2) (he : InEmergency s2) :
    ∃ s1, loop env s = some s1 ∧ s1.emergencyMode = true ∧
      s1.currentState = .STATE_EMERGENCY ∧ nsShows s1 = RED ∧ ewShows s1 = RED ∧
      s1.stateStartTime = s2.stateStartTime ∧
      s1.emergencyStartTime = s2.emergencyStartTime := by
  obtain ⟨hem, hst, hns, hew⟩ := he
  obtain ⟨s3, h3, e3, hns3, hew3⟩ :=
    detectVehicles_total env.clockDetect env.nsDetection env.ewDetection hns hew
  have hs3 : SafeInv s3 := detectVehicles_safe hs h3
  have hem3 : s3.emergencyMode = true := by rw [e3]; exact hem
  obtain ⟨s4, h4⟩ := setLights_total s3 true false false hns3
  obtain ⟨l4, -, e4⟩ := setLights_eq_some h4
  obtain ⟨w4, em4, c4, n4, -, -⟩ := setLights_ns h4 hs3.1
  have hew4 : s4.ewLane ≠ none := by rw [e4]; exact hew3
  obtain ⟨s5, h5⟩ := setLights_total s4 true false false hew4
  obtain ⟨l5, -, e5⟩ := setLights_eq_some h5
  obtain ⟨w5, em5, c5, x5, n5, -⟩ := setLights_ew h5 w4
  have hu : updateTrafficSignals env.update s3 = some s5 := by
    unfold updateTrafficSignals
    rw [if_pos hem3]
    exact Option.bind_eq_some.mpr ⟨s4, h4, h5⟩
  have hs5 : SafeInv s5 := updateTrafficSignals_safe hs3 hu
  have hl : loop env s = some s5 := by
    unfold loop
    exact Option.bind_eq_some.mpr ⟨s2, h2, Option.bind_eq_some.mpr ⟨s3, h3,
      Option.bind_eq_some.mpr ⟨s5, hu, checkErrorStates_of_safe _ hs5⟩⟩⟩
  refine ⟨s5, hl, ?_, ?_, ?_, x5, ?_, ?_⟩
  · rw [em5, em4, hem3]
  · rw [c5, c4, e3]
    exact hst
  · rw [n5, n4]
    rfl
  · rw [e5, e4, e3]
  · rw [e5, e4, e3]

/-- The rest of a pass of `loop()` once `handleSerialCommands` has come back out of emergency
mode in `STATE_NS_GREEN`, when the green time has not run out at the reading of the clock in
`updateTrafficSignals`: the signal state is left as it is. -/
theorem loop_in_ns_green {env : LoopEnv} {s s2 : State}
    (h2 : handleSerialCommands env.serial env.clockEmergency
      (emergencyTimeout (millis env.clock) s) = some s2)
    (hs : SafeInv s2) (hem : s2.emergencyMode = false)
    (hst : s2.currentState = .STATE_NS_GREEN)
    (hns : s2.nsLane ≠ none) (hew : s2.ewLane ≠ none)
    (hshort : usub (millis env.update.clock) s2.stateStartTime < s2.currentGreenTime) :
    ∃ s1, loop env s = some s1 ∧ s1.emergencyMode = false ∧
      s1.currentState = .STATE_NS_GREEN ∧ s1.stateStartTime = s2.stateStartTime := by
  obtain ⟨s3, h3, e3, hns3, hew3⟩ :=
    detectVehicles_total env.clockDetect env.nsDetection env.ewDetection hns hew
  have hs3 : SafeInv s3 := detectVehicles_safe hs h3
  have hem3 : ¬ s3.emergencyMode = true := by rw [e3]; simp [hem]
  have hst3 : s3.currentState = .STATE_NS_GREEN := by rw [e3]; exact hst
  have hshort3 : ¬ usub (millis env.update.clock) s3.stateStartTime ≥ s3.currentGreenTime := by
    rw [e3]
    exact Nat.not_le.mpr hshort
  have hu : updateTrafficSignals env.update s3 = some s3 := by
    unfold updateTrafficSignals
    rw [if_neg hem3]
    simp only [hst3]
    rw [if_neg hshort3]
  have hl : loop env s = some s3 := by
    unfold loop
    exact Option.bind_eq_some.mpr ⟨s2, h2, Option.bind_eq_some.mpr ⟨s3, h3,
      Option.bind_eq_some.mpr ⟨s3, hu, checkErrorStates_of_safe _ hs3⟩⟩⟩
  refine ⟨s3, hl, ?_, hst3, ?_⟩
  · rw [e3]
    exact hem
  · rw [e3]

theorem emergencyTimeout_lanes (t : Nat) (s : State) :
    (emergencyTimeout t s).nsLane = s.nsLane ∧ (emergencyTimeout t s).ewLane = s.ewLane := by
  unfold emergencyTimeout
  split_ifs <;> exact ⟨rfl, rfl⟩

theorem emergencyTimeout_idle (t : Nat) (s : State)
    (h : usub t s.emergencyStartTime < EMERGENCY_OVERRIDE_TIME) :
    emergencyTimeout t s = s := by
  unfold emergencyTimeout
  rw [if_neg]
  simp only [Bool.and_eq_true, decide_eq_true_eq, not_and, not_le]
  exact fun _ => h

theorem emergencyTimeout_fire (t : Nat) (s : State) (hem : s.emergencyMode = true)
    (h : EMERGENCY_OVERRIDE_TIME ≤ usub t s.emergencyStartTime) :
    emergencyTimeout t s =
      { s with emergencyMode := false, currentState := .STATE_NS_GREEN, stateStartTime := t } := by
  unfold emergencyTimeout
  rw [if_pos]
  simp only [Bool.and_eq_true, decide_eq_true_eq]
  exact ⟨hem, h⟩

/-- A pass of `loop()` that reads the command `emergency`, from a state with both lanes
allocated, ends in emergency mode with both lanes on red only. -/
theorem loop_enters_emergency (env : LoopEnv) {s : State} (hs : SafeInv s) (hi : RunInv s)
    (hns : s.nsLane ≠ none) (hew : s.ewLane ≠ none)
    (hcmd : env.serial.map normalize = some "emergency") :
    ∃ s1, loop env s = some s1 ∧ s1.emergencyMode = true ∧
      s1.currentState = .STATE_EMERGENCY ∧ nsShows s1 = RED ∧ ewShows s1 = RED ∧
      s1.emergencyStartTime = millis env.clockEmergency := by
  have hl := emergencyTimeout_lanes (millis env.clock) s
  obtain ⟨s2, h2, hcase⟩ := handleSerialCommands_total env.serial env.clockEmergency
    (by rw [hl.1]; exact hns) (by rw [hl.2]; exact hew)
    (emergencyTimeout_runInv (millis env.clock) hi).2.1
  have hs2 : SafeInv s2 := handleSerialCommands_safe (emergencyTimeout_safe _ hs) h2
  rcases hcase with ⟨-, he, hstart, -⟩ | ⟨hne, -⟩
  · obtain ⟨s1, h1, a, b, c, d, -, f⟩ := loop_in_emergency h2 hs2 he
    exact ⟨s1, h1, a, b, c, d, f.trans hstart⟩
  · exact absurd hcmd hne

theorem runLoops_append (envs1 envs2 : List LoopEnv) (s : State) :
    runLoops (envs1 ++ envs2) s = (runLoops envs1 s).bind (runLoops envs2) := by
  induction envs1 generalizing s with
  | nil => rfl
  | cons env rest ih =>
    simp only [List.cons_append, runLoops]
    cases loop env s with
    | none => rfl
    | some s1 => exact ih s1

/-- In emergency mode the lamps of a state of a run are red only, on both lanes. -/
theorem safeInv_emergency_red {s : State} (hs : SafeInv s) (hem : s.emergencyMode = true) :
    nsShows s = RED ∧ ewShows s = RED := by
  obtain ⟨-, hp⟩ := hs
  unfold Phase at hp
  rcases hp with h | h | h | h | h | h
  · exact h.2
  all_goals exact absurd (hem.symm.trans h.1) (by decide)

/-- A pass of `loop()` less than 15000 ms after the beginning `t0` of emergency mode: it comes
back in emergency mode, with both lanes on red only and the signal state as it was, and the
beginning of emergency mode is kept unless the pass reads the command `emergency`. -/
theorem loop_emergency_window (env : LoopEnv) {s : State} (t0 : Nat) (hr : Reachable s)
    (hem : s.emergencyMode = true) (hstart : s.emergencyStartTime = millis t0)
    (ht : t0 ≤ env.clock) (hlt : env.clock - t0 < EMERGENCY_OVERRIDE_TIME) :
    ∃ s1, loop env s = some s1 ∧ s1.emergencyMode = true ∧
      s1.currentState = .STATE_EMERGENCY ∧ nsShows s1 = RED ∧ ewShows s1 = RED ∧
      s1.stateStartTime = s.stateStartTime ∧
      (env.serial.map normalize ≠ some "emergency" →
        s1.emergencyStartTime = s.emergencyStartTime) ∧
      (env.serial.map normalize = some "emergency" →
        s1.emergencyStartTime = millis env.clockEmergency) := by
  have hs := reachable_safeInv hr
  have hi := reachable_runInv hr
  obtain ⟨-, hst, hns, hew⟩ := hi.1 hem
  have hwrap : env.clock - t0 < ULONG_MODULUS :=
    Nat.lt_trans hlt (by unfold EMERGENCY_OVERRIDE_TIME ULONG_MODULUS; omega)
  have hel : usub (millis env.clock) s.emergencyStartTime = env.clock - t0 := by
    rw [hstart]
    exact usub_millis env.clock t0 ht hwrap
  have hidle : emergencyTimeout (millis env.clock) s = s :=
    emergencyTimeout_idle _ s (by rw [hel]; exact hlt)
  obtain ⟨s2, h2, hcase⟩ := handleSerialCommands_total env.serial env.clockEmergency hns hew
    hi.2.1
  have h2a : handleSerialCommands env.serial env.clockEmergency
      (emergencyTimeout (millis env.clock) s) = some s2 := by rw [hidle]; exact h2
  have hs2 : SafeInv s2 := handleSerialCommands_safe hs h2
  have he2 : InEmergency s2 ∧ s2.stateStartTime = s.stateStartTime := by
    rcases hcase with ⟨-, he, -, h4⟩ | ⟨-, e1, e2, e3, -, -, e6, e7⟩
    · exact ⟨he, h4⟩
    · exact ⟨⟨e1.trans hem, e2.trans hst, e6, e7⟩, e3⟩
  obtain ⟨s1, h1, a, b, c, d, e, f⟩ := loop_in_emergency h2a hs2 he2.1
  refine ⟨s1, h1, a, b, c, d, e.trans he2.2, fun hne => ?_, fun hcmd => ?_⟩
  · rcases hcase with ⟨hc, -⟩ | ⟨-, -, -, -, e4, -⟩
    · exact absurd hc hne
    · exact f.trans e4
  · rcases hcase with ⟨-, -, e4, -⟩ | ⟨hne, -⟩
    · exact f.trans e4
    · exact absurd hcmd hne

/-- A pass of `loop()` at 15000 ms or more after the beginning `t0` of emergency mode, which
does not read the command `emergency` and reaches `updateTrafficSignals` less than
`MIN_GREEN_TIME` after its first reading of the clock: it comes back out of emergency mode,
in `STATE_NS_GREEN`, with `stateStartTime` at its first reading of the clock. -/
theorem loop_emergency_timeout (env : LoopEnv) {s : State} (t0 : Nat) (hr : Reachable s)
    (hem : s.emergencyMode = true) (hstart : s.emergencyStartTime = millis t0)
    (ht : t0 ≤ env.clock) (hwrap : env.clock - t0 < ULONG_MODULUS)
    (hge : EMERGENCY_OVERRIDE_TIME ≤ env.clock - t0)
    (hne : env.serial.map normalize ≠ some "emergency")
    (hshort : usub (millis env.update.clock) (millis env.clock) < MIN_GREEN_TIME) :
    ∃ s1, loop env s = some s1 ∧ s1.emergencyMode = false ∧
      s1.currentState = .STATE_NS_GREEN ∧ s1.stateStartTime = millis env.clock := by
  have hs := reachable_safeInv hr
  have hi := reachable_runInv hr
  obtain ⟨-, hst, hns, hew⟩ := hi.1 hem
  have hel : usub (millis env.clock) s.emergencyStartTime = env.clock - t0 := by
    rw [hstart]
    exact usub_millis env.clock t0 ht hwrap
  have hfire := emergencyTimeout_fire (millis env.clock) s hem (by rw [hel]; exact hge)
  have hl := emergencyTimeout_lanes (millis env.clock) s
  obtain ⟨s2, h2, hcase⟩ := handleSerialCommands_total env.serial env.clockEmergency
    (by rw [hl.1]; exact hns) (by rw [hl.2]; exact hew)
    (emergencyTimeout_runInv (millis env.clock) hi).2.1
  have hs2 : SafeInv s2 := handleSerialCommands_safe (emergencyTimeout_safe _ hs) h2
  rcases hcase with ⟨hcmd, -⟩ | ⟨-, e1, e2, e3, -, e5, e6, e7⟩
  · exact absurd hcmd hne
  · rw [hfire] at e1 e2 e3 e5
    have hgreen : MIN_GREEN_TIME ≤ s2.currentGreenTime := by
      rw [e5]
      exact hi.2.2
    obtain ⟨s1, h1, a, b, c⟩ := loop_in_ns_green h2 hs2 e1 e2 e6 e7
      (by rw [e3]; exact Nat.lt_of_lt_of_le hshort hgreen)
    exact ⟨s1, h1, a, b, c.trans e3⟩

/-- Any number of passes of `loop()`, each less than 15000 ms after the beginning `t0` of
emergency mode and none reading the command `emergency`: they all come back, and leave
emergency mode on, its beginning at `t0`, both lanes on red only and the signal state as it
was. -/
theorem runLoops_emergency_window (t0 : Nat) (envs : List LoopEnv) {s : State}
    (hr : Reachable s) (hem : s.emergencyMode = true)
    (hstart : s.emergencyStartTime = millis t0)
    (hall : ∀ e ∈ envs, t0 ≤ e.clock ∧ e.clock - t0 < EMERGENCY_OVERRIDE_TIME ∧
      e.serial.map normalize ≠ some "emergency") :
    ∃ s1, runLoops envs s = some s1 ∧ Reachable s1 ∧ s1.emergencyMode = true ∧
      s1.currentState = .STATE_EMERGENCY ∧ nsShows s1 = RED ∧ ewShows s1 = RED ∧
      s1.emergencyStartTime = millis t0 ∧ s1.stateStartTime = s.stateStartTime := by
  induction envs generalizing s with
  | nil =>
    obtain ⟨hn, he⟩ := safeInv_emergency_red (reachable_safeInv hr) hem
    exact ⟨s, rfl, hr, hem, ((reachable_runInv hr).1 hem).2.1, hn, he, hstart, rfl⟩
  | cons env rest ih =>
    obtain ⟨h1, h2, h3⟩ := hall env (List.mem_cons_self _ _)
    obtain ⟨s1, hl, a, -, -, -, e, f, -⟩ := loop_emergency_window env t0 hr hem hstart h1 h2
    obtain ⟨s2, hl2, r2, a2, b2, c2, d2, e2, f2⟩ :=
      ih (Reachable.step env s s1 hr hl) a ((f h3).trans hstart)
        (fun x hx => hall x (List.mem_cons_of_mem _ hx))
    refine ⟨s2, ?_, r2, a2, b2, c2, d2, e2, f2.trans e⟩
    unfold runLoops
    rw [hl]
    exact hl2

/-- C22: in a run of the controller, a pass of `loop()` that reads the command `emergency`
(so that `enterEmergencyMode` runs) comes back in emergency mode, in `STATE_EMERGENCY`, with
both lanes on red only, and with the beginning of emergency mode at the reading of the clock
in `enterEmergencyMode`. From a state that is in emergency mode since the time `t0` (that
reading), a pass at a time less than 15000 ms after `t0` comes back with emergency mode
still on, the signal state still `STATE_EMERGENCY`, its start time as it was, and both lanes
on red only; it keeps the beginning `t0` of emergency mode, unless it reads the command
`emergency`, which begins emergency mode afresh. So any number of such passes leave the
controller all red, in emergency mode since `t0`. A pass at 15000 ms or more after `t0`,
the first one after such passes too, first clears `emergencyMode`, sets `currentState` to
`STATE_NS_GREEN` and `stateStartTime` to its reading of the clock, and comes back so unless
that same pass reads the command `emergency`. -/
theorem emergency_all_red_until_timeout (env : LoopEnv) (s : State) (t0 : Nat)
    (hr : Reachable s) :
    (s.nsLane ≠ none → s.ewLane ≠ none → env.serial.map normalize = some "emergency" →
      ∃ s1, loop env s = some s1 ∧ s1.emergencyMode = true ∧
        s1.currentState = .STATE_EMERGENCY ∧ nsShows s1 = RED ∧ ewShows s1 = RED ∧
        s1.emergencyStartTime = millis env.clockEmergency) ∧
    (s.emergencyMode = true → s.emergencyStartTime = millis t0 → t0 ≤ env.clock →
      env.clock - t0 < ULONG_MODULUS →
      s.currentState = .STATE_EMERGENCY ∧
      (env.clock - t0 < EMERGENCY_OVERRIDE_TIME →
        ∃ s1, loop env s = some s1 ∧ s1.emergencyMode = true ∧
          s1.currentState = .STATE_EMERGENCY ∧ nsShows s1 = RED ∧ ewShows s1 = RED ∧
          s1.stateStartTime = s.stateStartTime ∧
          (env.serial.map normalize ≠ some "emergency" →
            s1.emergencyStartTime = s.emergencyStartTime) ∧
          (env.serial.map normalize = some "emergency" →
            s1.emergencyStartTime = millis env.clockEmergency)) ∧
      (EMERGENCY_OVERRIDE_TIME ≤ env.clock - t0 →
        (emergencyTimeout (millis env.clock) s).emergencyMode = false ∧
        (emergencyTimeout (millis env.clock) s).currentState = .STATE_NS_GREEN ∧
        (emergencyTimeout (millis env.clock) s).stateStartTime = millis env.clock ∧
        (env.serial.map normalize ≠ some "emergency" →
          usub (millis env.update.clock) (millis env.clock) < MIN_GREEN_TIME →
          ∃ s1, loop env s = some s1 ∧ s1.emergencyMode = false ∧
            s1.currentState = .STATE_NS_GREEN ∧ s1.stateStartTime = millis env.clock))) ∧
    (s.emergencyMode = true → s.emergencyStartTime = millis t0 →
      ∀ envs : List LoopEnv,
        (∀ e ∈ envs, t0 ≤ e.clock ∧ e.clock - t0 < EMERGENCY_OVERRIDE_TIME ∧
          e.serial.map normalize ≠ some "emergency") →
        ∃ s1, runLoops envs s = some s1 ∧ s1.emergencyMode = true ∧
          s1.currentState = .STATE_EMERGENCY ∧ nsShows s1 = RED ∧ ewShows s1 = RED ∧
          s1.emergencyStartTime = millis t0 ∧ s1.stateStartTime = s.stateStartTime ∧
          (t0 ≤ env.clock → env.clock - t0 < ULONG_MODULUS →
            EMERGENCY_OVERRIDE_TIME ≤ env.clock - t0 →
            env.serial.map normalize ≠ some "emergency" →
            usub (millis env.update.clock) (millis env.clock) < MIN_GREEN_TIME →
            ∃ s2, runLoops (envs ++ [env]) s = some s2 ∧ s2.emergencyMode = false ∧
              s2.currentState = .STATE_NS_GREEN ∧ s2.stateStartTime = millis env.clock)) := by
  have hs := reachable_safeInv hr
  have hi := reachable_runInv hr
  refine ⟨fun hns hew hcmd => loop_enters_emergency env hs hi hns hew hcmd, ?_, ?_⟩
  · intro hem hstart ht hwrap
    refine ⟨(hi.1 hem).2.1, fun hlt => loop_emergency_window env t0 hr hem hstart ht hlt, ?_⟩
    intro hge
    have hel : usub (millis env.clock) s.emergencyStartTime = env.clock - t0 := by
      rw [hstart]
      exact usub_millis env.clock t0 ht hwrap
    have hfire := emergencyTimeout_fire (millis env.clock) s hem (by rw [hel]; exact hge)
    exact ⟨by rw [hfire], by rw [hfire], by rw [hfire], fun hne hshort =>
      loop_emergency_timeout env t0 hr hem hstart ht hwrap hge hne hshort⟩
  · intro hem hstart envs hall
    obtain ⟨s1, hl, r1, a, b, c, d, e, f⟩ := runLoops_emergency_window t0 envs hr hem hstart hall
    refine ⟨s1, hl, a, b, c, d, e, f, ?_⟩
    intro ht hwrap hge hne hshort
    obtain ⟨s2, hl2, a2, b2, c2⟩ :=
      loop_emergency_timeout env t0 r1 a e ht hwrap hge hne hshort
    refine ⟨s2, ?_, a2, b2, c2⟩
    rw [runLoops_append, hl]
    simp only [Option.some_bind, runLoops, hl2]

theorem emergency_all_red_until_timeout_witness :
    demoAlarm.emergencyMode = true ∧ demoAlarm.emergencyStartTime = 100 ∧
    (∃ s1, loop (passAt 5000 (some "status")) demoAlarm = some s1 ∧
      s1.emergencyMode = true ∧ s1.currentState = .STATE_EMERGENCY ∧
      nsShows s1 = RED ∧ ewShows s1 = RED ∧ s1.stateStartTime = demoAlarm.stateStartTime ∧
      s1.emergencyStartTime = 100) ∧
    (∃ s1, loop (passAt 15100 none) demoAlarm = some s1 ∧ s1.emergencyMode = false ∧
      s1.currentState = .STATE_NS_GREEN ∧ s1.stateStartTime = 15100) ∧
    (∃ s1, runLoops [passAt 5000 (some "status"), passAt 10000 none, passAt 15099 none]
        demoAlarm = some s1 ∧
      s1.emergencyMode = true ∧ nsShows s1 = RED ∧ ewShows s1 = RED ∧
      s1.emergencyStartTime = 100 ∧
      ∃ s2, runLoops ([passAt 5000 (some "status"), passAt 10000 none, passAt 15099 none] ++
          [passAt 15100 none]) demoAlarm = some s2 ∧
        s2.emergencyMode = false ∧ s2.currentState = .STATE_NS_GREEN ∧
        s2.stateStartTime = 15100) :=
  ⟨by decide, by decide,
    (match ((emergency_all_red_until_timeout (passAt 5000 (some "status")) demoAlarm 100
        (reachable_runLoops [passAt 100 (some "Emergency\r")]
          (Reachable.init demoInit demoStart rfl) rfl)).2.1
        (by decide) (by decide) (by decide) (by decide)).2.1 (by decide) with
      | ⟨s1, h1, h2, h3, h4, h5, h6, h7, _⟩ =>
        ⟨s1, h1, h2, h3, h4, h5, h6, (h7 (by decide)).trans (by decide)⟩),
    (((emergency_all_red_until_timeout (passAt 15100 none) demoAlarm 100
      (reachable_runLoops [passAt 100 (some "Emergency\r")]
        (Reachable.init demoInit demoStart rfl) rfl)).2.1
      (by decide) (by decide) (by decide) (by decide)).2.2 (by decide)).2.2.2
      (by decide) (by decide),
    (match (emergency_all_red_until_timeout (passAt 15100 none) demoAlarm 100
        (reachable_runLoops [passAt 100 (some "Emergency\r")]
          (Reachable.init demoInit demoStart rfl) rfl)).2.2
        (by decide) (by decide)
        [passAt 5000 (some "status"), passAt 10000 none, passAt 15099 none] (by decide) with
      | ⟨s1, h1, h2, _, h4, h5, h6, _, h8⟩ =>
        ⟨s1, h1, h2, h4, h5, h6,
          h8 (by decide) (by decide) (by decide) (by decide) (by decide)⟩)⟩

end Traffic

namespace MathEngine

open CModel

/-! ## The median -/

/-- Among numbers, the C comparison `==` holds exactly of floats that are the same up to the
sign of a zero. -/
theorem CFloat_eq_iff_unsigned (a b : CFloat) (ha : a ≠ CFloat.nan) (hb : b ≠ CFloat.nan) :
    CFloat.eq a b = true ↔ a.unsigned = b.unsigned := by
  cases a <;> cases b <;> simp_all [CFloat.eq, CFloat.unsigned]

end MathEngine

